import Mathlib

/-
Verification development for the USA turn-based political/economic
simulation engine (usa/models.py).

Modelling conventions:
* Python floats are modelled as rationals (ℚ); all arithmetic is exact.
* `random.Random` is modelled as a deterministic stream of underlying
  uniform draws in [0,1) together with a position: `random()` returns
  `stream pos` and advances `pos`.  `getstate`/`setstate` copy the whole
  generator value.  This captures exactly what the engine relies on: a
  seedable deterministic generator whose entire state is serialisable.
* Python dicts (which preserve insertion order) are modelled as
  association lists; dict assignment overwrites in place, otherwise
  appends.
* Python lists are Lean lists, strings are Lean strings.
* Code paths that can only raise in Python (KeyError on a missing party,
  IndexError on a senate-seat list that the lazy initialiser always fixes
  first) are modelled as no-ops / defaulted reads; no claim below depends
  on those paths.
-/

attribute [local semireducible] Rat.add Rat.mul Rat.sub Rat.inv

set_option maxRecDepth 8000

namespace USA

/-- clamp x into the interval [lo, hi], written max(lo, min(hi, x)) exactly as
the source does everywhere. -/
def clamp (lo hi x : ℚ) : ℚ := max lo (min hi x)

/-- deterministic model of `random.Random`: an infinite stream of uniform
draws in [0,1) plus a cursor. -/
structure Rng where
  stream : ℕ → ℚ
  pos : ℕ

/-- a stream is valid when every draw lies in [0, 1), the contract of
`random.random()`. -/
def ValidStream (s : ℕ → ℚ) : Prop := ∀ n, 0 ≤ s n ∧ s n < 1

/-- `random.random()`: one underlying draw. -/
def Rng.random (r : Rng) : ℚ × Rng :=
  (r.stream r.pos, { r with pos := r.pos + 1 })

/-- `random.uniform(a, b) = a + (b - a) * random()`. -/
def Rng.uniform (r : Rng) (a b : ℚ) : ℚ × Rng :=
  let p := r.random
  (a + (b - a) * p.1, p.2)

/-- `random.randrange(0, n)` modelled as the scaled floor of one draw
(the reduction mod n only guards against invalid streams). -/
def Rng.randrange (r : Rng) (n : ℕ) : ℕ × Rng :=
  let p := r.random
  ((Int.toNat ⌊p.1 * n⌋) % n, p.2)

/-- PartyID enumeration. -/
inductive PartyID where
  | DEMOCRAT
  | REPUBLICAN
  | INDEPENDENT
deriving DecidableEq, Repr

/-- the `.value` string of a PartyID. -/
def PartyID.value : PartyID → String
  | .DEMOCRAT => "Democrat"
  | .REPUBLICAN => "Republican"
  | .INDEPENDENT => "Independent"

/-- `PartyID(s)` as a partial parse (Python raises on an unknown string). -/
def PartyID.ofValue : String → Option PartyID
  | "Democrat" => some .DEMOCRAT
  | "Republican" => some .REPUBLICAN
  | "Independent" => some .INDEPENDENT
  | _ => none

/-- association-list lookup, mirroring `d[k]` / `d.get(k)`. -/
def lookupA {α β : Type} [DecidableEq α] : List (α × β) → α → Option β
  | [], _ => none
  | (a, b) :: t, k => if a = k then some b else lookupA t k

/-- association-list assignment `d[k] = v`: overwrite in place if the key
exists (keeping its position, as Python dicts do), else append. -/
def setA {α β : Type} [DecidableEq α] : List (α × β) → α → β → List (α × β)
  | [], k, v => [(k, v)]
  | (a, b) :: t, k, v => if a = k then (a, v) :: t else (a, b) :: setA t k v

/-- in-place modification of the value at a key; a no-op when the key is
absent (Python would raise KeyError there; no claim exercises that path). -/
def modifyA {α β : Type} [DecidableEq α] (f : β → β) : List (α × β) → α → List (α × β)
  | [], _ => []
  | (a, b) :: t, k => if a = k then (a, f b) :: t else (a, b) :: modifyA f t k

/-- PoliticalParty. -/
structure PoliticalParty where
  name : PartyID
  national_approval : ℚ
deriving DecidableEq, Repr

/-- PoliticalParty.adjust_approval: adjust with [0,100] bounds. -/
def PoliticalParty.adjust_approval (p : PoliticalParty) (delta : ℚ) : PoliticalParty :=
  { p with national_approval := clamp 0 100 (p.national_approval + delta) }

/-- Policy. -/
structure Policy where
  title : String
  description : String
  cost : ℚ := 0
  effect_growth : ℚ := 0
  effect_unemployment : ℚ := 0
  effect_inflation : ℚ := 0
  popularity : ℚ := 0
  sponsor_party : PartyID := .INDEPENDENT
deriving DecidableEq, Repr

/-- PublicOpinion. -/
structure PublicOpinion where
  approval_president : ℚ := 50
  approval_congress : ℚ := 30
  issue_support : List (String × ℚ) := []
deriving DecidableEq, Repr

/-- PublicOpinion.update_issue. -/
def PublicOpinion.update_issue (o : PublicOpinion) (policy : Policy) (delta : ℚ) :
    PublicOpinion :=
  let base := (lookupA o.issue_support policy.title).getD policy.popularity
  { o with issue_support := setA o.issue_support policy.title (clamp 0 100 (base + delta)) }

/-- LegislatureControl. -/
structure LegislatureControl where
  house : PartyID
  senate : PartyID
deriving DecidableEq, Repr

/-- VoterCohort. -/
structure VoterCohort where
  name : String
  share : ℚ
  lean : PartyID
  turnout : ℚ
deriving DecidableEq, Repr

/-- District. -/
structure District where
  id : String
  cohorts : List VoterCohort
  incumbent : PartyID := .INDEPENDENT
  turnout_bias : ℚ := 0
  swing : ℚ := 0
deriving DecidableEq, Repr

/-- State (one US state). -/
structure State where
  name : String
  population : ℕ
  gdp : ℚ
  unemployment : ℚ
  inflation : ℚ
  governor_party : PartyID
  legislature : LegislatureControl
  approval_governor : ℚ := 50
  approval_legislature : ℚ := 40
  budget_revenue : ℚ := 100
  budget_spending : ℚ := 100
  tax_rate : ℚ := 6/100
  gdp_sectors : List (String × ℚ) := [("services", 65/100), ("industry", 27/100), ("agriculture", 8/100)]
  voter_cohorts : List VoterCohort := []
  house_districts : List District := []
  senate_seats : List PartyID := [.INDEPENDENT, .INDEPENDENT]
  senate_classes : List ℕ := [0, 3]
deriving DecidableEq, Repr

/-- State.advance_economy: monthly state economic tick. -/
def State.advance_economy (st : State) (growth nat_inflation : ℚ) (rng : Rng) :
    State × Rng :=
  let p1 := rng.uniform (-1/100) (1/100)
  let gdp_growth := clamp (-1/10) (1/10) (growth + p1.1)
  let gdp' := st.gdp * (1 + gdp_growth)
  let target_u := 55/10 - 1/2 * growth
  let p2 := p1.2.uniform (-1/10) (1/10)
  let u1 := st.unemployment + 2/10 * (target_u - st.unemployment) + p2.1
  let u2 := clamp (5/2) 20 u1
  let p3 := p2.2.uniform (-2/10) (2/10)
  let i2 := clamp 0 20 (6/10 * nat_inflation + p3.1)
  ({ st with gdp := gdp', unemployment := u2, inflation := i2 }, p3.2)

/-- FederalBudget. -/
structure FederalBudget where
  revenue : ℚ
  spending : ℚ
  tax_rate : ℚ := 18/100
deriving DecidableEq, Repr

/-- FederalBudget.deficit, always derived. -/
def FederalBudget.deficit (b : FederalBudget) : ℚ := b.spending - b.revenue

/-- Congress. -/
structure Congress where
  house_control : PartyID
  senate_control : PartyID
deriving DecidableEq, Repr

/-- President. -/
structure President where
  name : String
  party : PartyID
deriving DecidableEq, Repr

/-- SupremeCourt. -/
structure SupremeCourt where
  lean : PartyID
deriving DecidableEq, Repr

/-- ElectionResult. -/
structure ElectionResult where
  winner_party : PartyID
  details : List (String × ℚ)
deriving DecidableEq, Repr

/-- Event (the catalog entry of models.py; it has no consequence list). -/
structure Event where
  key : String
  description : String
  impact_approval_president : ℚ := 0
  impact_approval_congress : ℚ := 0
  impact_growth : ℚ := 0
  impact_unemployment : ℚ := 0
  impact_inflation : ℚ := 0
  party_benefit : Option PartyID := none
deriving DecidableEq, Repr

/-- EventManager: the catalog maps key to (Event, weight), in registration
order.  The manager shares the orchestrator's RNG in the source, so the
draw made by `random_event` is threaded explicitly here. -/
structure EventManager where
  catalog : List (String × Event × ℚ)
deriving DecidableEq, Repr

/-- EventManager.register: re-registering a key overwrites it in place. -/
def EventManager.register (em : EventManager) (event : Event) (weight : ℚ := 1) :
    EventManager :=
  { em with catalog := setA em.catalog event.key (event, weight) }

/-- the weighted walk of `random_event`: return the first event whose
cumulative weight reaches the sample. -/
def weightedPick : List (String × Event × ℚ) → ℚ → ℚ → Option Event
  | [], _, _ => none
  | [(_, ev, _)], _, _ => some ev
  | (_, ev, w) :: t, pick, acc =>
      if pick ≤ acc + w then some ev else weightedPick t pick (acc + w)

/-- EventManager.random_event: one uniform draw in [0, total weight), then
the cumulative walk (the source falls back to the last event). -/
def EventManager.random_event (em : EventManager) (rng : Rng) :
    Option Event × Rng :=
  if em.catalog = [] then (none, rng)
  else
    let total_w := (em.catalog.map (fun e => e.2.2)).sum
    let p := rng.uniform 0 total_w
    (weightedPick em.catalog p.1 0, p.2)

/-- Election (transient descriptor; only the presidential race uses it). -/
structure Election where
  level : String
  chamber : Option String := none
  office : Option String := none
  year : ℕ := 0

/-- UnitedStates: the aggregate root. -/
structure UnitedStates where
  year : ℕ
  month : ℕ
  president : President
  congress : Congress
  court : SupremeCourt
  parties : List (PartyID × PoliticalParty)
  states : List (String × State)
  budget : FederalBudget
  opinion : PublicOpinion
  event_manager : EventManager
  rng : Rng
  growth : ℚ := 2/100
  unemployment : ℚ := 55/10
  inflation : ℚ := 5/2
  log : List String := []
  recent_events : List String := []

/-- two-digit month padding used by the log prefix. -/
def pad2 (n : ℕ) : String := if n < 10 then "0" ++ toString n else toString n

/-- UnitedStates.log_event. -/
def UnitedStates.log_event (us : UnitedStates) (msg : String) : UnitedStates :=
  { us with log := us.log ++ ["[" ++ toString us.year ++ "-" ++ pad2 us.month ++ "] " ++ msg] }

/-- partisan sign of a cohort lean: +1 Democrat, -1 Republican, 0 Independent. -/
def leanSign : PartyID → ℚ
  | .DEMOCRAT => 1
  | .REPUBLICAN => -1
  | .INDEPENDENT => 0

/-- cohort partisan score: sum of share * turnout * sign(lean). -/
def cohortScore (cs : List VoterCohort) : ℚ :=
  (cs.map (fun c => c.share * c.turnout * leanSign c.lean)).sum

/-- Election.run: the simplified presidential/statewide race. -/
def Election.run (e : Election) (us : UnitedStates) (rng : Rng) :
    ElectionResult × Rng :=
  let economy_signal := us.growth - us.inflation * (2/10) - us.unemployment * (3/10)
  let approval_signal :=
    if e.office = some "President" then us.opinion.approval_president - 50
    else us.opinion.approval_congress - 30
  let base := clamp (5/100) (95/100) (1/2 + 2/100 * economy_signal + 1/100 * approval_signal)
  let p1 := rng.uniform (-5/100) (5/100)
  let prob_dem := clamp (5/100) (95/100) (base + p1.1)
  let p2 := p1.2.random
  let winner : PartyID := if p2.1 < prob_dem then .DEMOCRAT else .REPUBLICAN
  (⟨winner, [("prob_dem", prob_dem), ("economy_signal", economy_signal),
             ("approval_signal", approval_signal)]⟩, p2.2)

/-- national election signal (growth/inflation/unemployment plus
presidential approval), shared by district and statewide races. -/
def UnitedStates.national_signal_dem (us : UnitedStates) : ℚ :=
  let economy_signal := us.growth - us.inflation * (2/10) - us.unemployment * (3/10)
  let approval_signal := us.opinion.approval_president - 50
  2/100 * economy_signal + 1/100 * approval_signal

/-- state-level election signal from governor/legislature approval. -/
def UnitedStates.state_signal_dem (st : State) : ℚ :=
  let gov := (st.approval_governor - 50) / 200
  let leg := (st.approval_legislature - 40) / 200
  gov * (if st.governor_party = .DEMOCRAT then 1 else -1) +
    leg * (if st.legislature.house = .DEMOCRAT then 1 else -1)

/-- district-level Democrat win probability (consumes one noise draw). -/
def UnitedStates.district_dem_probability (us : UnitedStates) (st : State)
    (d : District) (rng : Rng) : ℚ × Rng :=
  let score := cohortScore d.cohorts
  let base0 := 1/2 + 15/100 * score + d.swing + d.turnout_bias
  let base1 :=
    if d.incumbent = .DEMOCRAT then base0 + 2/100
    else if d.incumbent = .REPUBLICAN then base0 - 2/100
    else base0
  let base2 := base1 + us.national_signal_dem + 1/2 * UnitedStates.state_signal_dem st
  let p := rng.uniform (-3/100) (3/100)
  (clamp (5/100) (95/100) (base2 + p.1), p.2)

/-- statewide Democrat win probability (consumes one noise draw). -/
def UnitedStates.statewide_dem_probability (us : UnitedStates) (st : State)
    (incumbent : PartyID) (rng : Rng) : ℚ × Rng :=
  let score := cohortScore st.voter_cohorts
  let base0 := 1/2 + 12/100 * score + 1/2 * UnitedStates.state_signal_dem st + us.national_signal_dem
  let base1 :=
    if incumbent = .DEMOCRAT then base0 + 2/100
    else if incumbent = .REPUBLICAN then base0 - 2/100
    else base0
  let p := rng.uniform (-3/100) (3/100)
  (clamp (5/100) (95/100) (base1 + p.1), p.2)

/-- post-election approval adjustment from chamber-control changes. -/
def UnitedStates.update_approvals_after_congress_results (us : UnitedStates)
    (prev_house prev_senate : PartyID) : UnitedStates :=
  let o0 := us.opinion
  let o1 :=
    if us.congress.house_control ≠ prev_house then
      if us.congress.house_control = us.president.party then
        { o0 with approval_president := clamp 0 100 (o0.approval_president + 1),
                  approval_congress := clamp 0 100 (o0.approval_congress + 1/2) }
      else
        { o0 with approval_president := clamp 0 100 (o0.approval_president - 1),
                  approval_congress := clamp 0 100 (o0.approval_congress - 1/2) }
    else o0
  let o2 :=
    if us.congress.senate_control ≠ prev_senate then
      if us.congress.senate_control = us.president.party then
        { o1 with approval_president := clamp 0 100 (o1.approval_president + 1/2) }
      else
        { o1 with approval_president := clamp 0 100 (o1.approval_president - 1/2) }
    else o1
  { us with opinion := o2 }

/-- the national pass probability of attempt_pass_policy. -/
def UnitedStates.pass_probability (us : UnitedStates) (policy : Policy) : ℚ :=
  let base_support := (policy.popularity - 50) / 100
  let alignment :=
    if policy.sponsor_party = us.congress.house_control ∨
       policy.sponsor_party = us.congress.senate_control then 15/100 else -(5/100)
  let pres_bonus := if policy.sponsor_party = us.president.party then 1/10 else 0
  let court_risk :=
    if policy.effect_inflation > 7/10 ∧ us.court.lean ≠ policy.sponsor_party
    then -(5/100) else 0
  clamp (5/100) (95/100) (1/2 + base_support + alignment + pres_bonus + court_risk)

/-- UnitedStates.attempt_pass_policy. -/
def UnitedStates.attempt_pass_policy (us : UnitedStates) (policy : Policy) :
    Bool × UnitedStates :=
  let prob := us.pass_probability policy
  let p := us.rng.random
  if p.1 < prob then
    let u2 := p.2.uniform (-5) 5
    let o1 := us.opinion.update_issue policy u2.1
    let o2 :=
      if policy.sponsor_party = us.president.party then
        { o1 with approval_president := clamp 0 100 (o1.approval_president + 1) }
      else o1
    let us' :=
      { us with growth := us.growth + policy.effect_growth,
                unemployment := clamp (5/2) 20 (us.unemployment + policy.effect_unemployment),
                inflation := clamp 0 20 (us.inflation + policy.effect_inflation),
                budget := { us.budget with
                              spending := us.budget.spending + max 0 policy.cost,
                              revenue := us.budget.revenue + max 0 (-policy.cost) },
                opinion := o2, rng := u2.2 }
    (true, us'.log_event ("Policy passed: " ++ policy.title))
  else
    (false, ({ us with rng := p.2 }).log_event ("Policy failed: " ++ policy.title))

/-- the state-level pass probability of attempt_pass_state_policy. -/
def state_policy_probability (st : State) (policy : Policy) : ℚ :=
  let base_support := (policy.popularity - 50) / 120
  let align :=
    if policy.sponsor_party = st.legislature.house ∨
       policy.sponsor_party = st.legislature.senate then 12/100 else -(6/100)
  let gov_bonus := if policy.sponsor_party = st.governor_party then 8/100 else 0
  let opinion_push := (st.approval_governor - 50) / 200
  clamp (5/100) (95/100) (1/2 + base_support + align + gov_bonus + opinion_push)

/-- UnitedStates.attempt_pass_state_policy (addressing the state by its
dict key; missing keys are unreachable from the callers). -/
def UnitedStates.attempt_pass_state_policy (us : UnitedStates) (name : String)
    (policy : Policy) : Bool × UnitedStates :=
  match lookupA us.states name with
  | none => (false, us)
  | some st =>
    let prob := state_policy_probability st policy
    let p := us.rng.random
    if p.1 < prob then
      let st' :=
        { st with gdp := st.gdp * (1 + policy.effect_growth),
                  unemployment := clamp (5/2) 20 (st.unemployment + policy.effect_unemployment),
                  inflation := clamp 0 20 (st.inflation + policy.effect_inflation),
                  budget_spending :=
                    if policy.cost ≥ 0 then st.budget_spending + policy.cost
                    else st.budget_spending,
                  budget_revenue :=
                    if policy.cost ≥ 0 then st.budget_revenue
                    else st.budget_revenue + -policy.cost,
                  approval_governor :=
                    if policy.sponsor_party = st.governor_party then
                      clamp 0 100 (st.approval_governor + 8/10)
                    else st.approval_governor,
                  approval_legislature := clamp 0 100 (st.approval_legislature + 4/10) }
      let u := p.2.uniform (-2) 2
      let o := us.opinion.update_issue policy u.1
      let us' := { us with states := setA us.states name st', opinion := o, rng := u.2 }
      (true, us'.log_event (st.name ++ " policy passed: " ++ policy.title))
    else
      (false, ({ us with rng := p.2 }).log_event (st.name ++ " policy failed: " ++ policy.title))

/-- UnitedStates.ai_consider_policy. -/
def UnitedStates.ai_consider_policy (us : UnitedStates) :
    Option Policy × UnitedStates :=
  let p := us.rng.random
  let pol : Option Policy :=
    if p.1 < 6/10 then
      if us.growth < 0 then
        some { title := "Stimulus", description := "Counter-cyclical fiscal stimulus",
               cost := 300, effect_growth := 1/100, effect_unemployment := -3/10,
               popularity := 60, sponsor_party := us.president.party }
      else if us.inflation > 4 then
        some { title := "Austerity", description := "Spending restraint to curb inflation",
               cost := -100, effect_growth := -5/1000, effect_inflation := -8/10,
               popularity := 45, sponsor_party := us.congress.house_control }
      else
        some { title := "Infrastructure", description := "Invest in infrastructure",
               cost := 200, effect_growth := 5/1000, effect_unemployment := -2/10,
               popularity := 65, sponsor_party := us.president.party }
    else none
  (pol, { us with rng := p.2 })

/-- campaigning adjustment of a state's districts (two draws per district). -/
def campaignDistricts (adj : ℚ) : List District → Rng → List District × Rng
  | [], rng => ([], rng)
  | d :: t, rng =>
    let p1 := rng.uniform (-2/1000) (2/1000)
    let p2 := p1.2.uniform (-2/1000) (2/1000)
    let d' := { d with swing := clamp (-2/10) (2/10) (d.swing + adj + p1.1),
                       turnout_bias := clamp (-1/10) (1/10) (d.turnout_bias + p2.1) }
    let r := campaignDistricts adj t p2.2
    (d' :: r.1, r.2)

/-- the state AI's policy decision tree (one draw only in the final
else-branch). -/
def UnitedStates.ai_state_pick (us : UnitedStates) (st : State) :
    Option Policy × UnitedStates :=
  if st.unemployment > 65/10 then
    (some { title := "State Jobs Program",
            description := "Hire for public works and small biz grants",
            cost := 10, effect_growth := 3/1000, effect_unemployment := -2/10,
            popularity := 62, sponsor_party := st.governor_party }, us)
  else if st.inflation > 5 then
    (some { title := "State Spending Freeze",
            description := "Temporary restraint on non-essential spending",
            cost := -5, effect_growth := -1/1000, effect_inflation := -2/10,
            popularity := 52, sponsor_party := st.legislature.house }, us)
  else if st.budget_spending - st.budget_revenue > 5 then
    (some { title := "Budget Balance Act",
            description := "Raise fees and cut waste to close gap",
            cost := -8, effect_growth := -5/10000, effect_unemployment := 5/100,
            popularity := 49, sponsor_party := st.legislature.senate }, us)
  else
    let p := us.rng.random
    ((if p.1 < 35/100 then
        some { title := "State Infrastructure", description := "Fix roads and bridges",
               cost := 12, effect_growth := 2/1000, effect_unemployment := -1/10,
               popularity := 64, sponsor_party := st.governor_party }
      else none), { us with rng := p.2 })

/-- the campaigning side effect of the state AI turn. -/
def UnitedStates.ai_state_campaign (us : UnitedStates) (name : String) : UnitedStates :=
  match lookupA us.states name with
  | none => us
  | some st2 =>
    let adj : ℚ := if st2.governor_party = .DEMOCRAT then 4/1000 else -4/1000
    let r := campaignDistricts adj st2.house_districts us.rng
    let st3 :=
      { st2 with house_districts := r.1,
                 approval_governor := clamp 0 100 (st2.approval_governor + 2/10),
                 approval_legislature := clamp 0 100 (st2.approval_legislature + 1/10) }
    { us with states := setA us.states name st3, rng := r.2 }

/-- UnitedStates.ai_state_turn: one state's monthly AI decision. -/
def UnitedStates.ai_state_turn (us : UnitedStates) (name : String) : UnitedStates :=
  match lookupA us.states name with
  | none => us
  | some st =>
    let pick := us.ai_state_pick st
    let us2 :=
      match pick.1 with
      | some pol => (pick.2.attempt_pass_state_policy name pol).2
      | none => pick.2
    let q := us2.rng.random
    let us3 := { us2 with rng := q.2 }
    if q.1 < (3/10 : ℚ) then us3.ai_state_campaign name
    else us3

/-- UnitedStates.ai_party_national_strategy (no draws). -/
def UnitedStates.ai_party_national_strategy (us : UnitedStates) : UnitedStates :=
  let dr := (us.budget.spending - us.budget.revenue) / max 1 us.budget.revenue
  let econ := us.growth - 2/10 * us.inflation - 3/10 * us.unemployment
  let ps1 := modifyA (fun p => p.adjust_approval (2/10 * econ)) us.parties .DEMOCRAT
  let ps2 := modifyA (fun p => p.adjust_approval (1/2 * (2/100 - econ) + 1/2 * dr)) ps1 .REPUBLICAN
  { us with parties := ps2 }

/-- UnitedStates.trigger_event. -/
def UnitedStates.trigger_event (us : UnitedStates) : Option Event × UnitedStates :=
  let p := us.event_manager.random_event us.rng
  match p.1 with
  | none => (none, { us with rng := p.2 })
  | some ev =>
    let o1 := { us.opinion with
                  approval_president := clamp 0 100 (us.opinion.approval_president + ev.impact_approval_president),
                  approval_congress := clamp 0 100 (us.opinion.approval_congress + ev.impact_approval_congress) }
    let parties' :=
      match ev.party_benefit with
      | some pb =>
        if (lookupA us.parties pb).isSome then
          modifyA (fun q => q.adjust_approval 1) us.parties pb
        else us.parties
      | none => us.parties
    let us1 :=
      { us with growth := us.growth + ev.impact_growth,
                unemployment := clamp (5/2) 20 (us.unemployment + ev.impact_unemployment),
                inflation := clamp 0 20 (us.inflation + ev.impact_inflation),
                opinion := o1, parties := parties', rng := p.2 }
    let us2 := us1.log_event ("Event: " ++ ev.description)
    let re := us2.recent_events ++ [ev.key]
    let re' := if re.length > 12 then re.drop 1 else re
    (some ev, { us2 with recent_events := re' })

/-- UnitedStates.ai_react_to_events. -/
def UnitedStates.ai_react_to_events (us : UnitedStates) : UnitedStates :=
  match us.recent_events.getLast? with
  | none => us
  | some recent =>
    if recent = "hurricane" then
      let pol : Policy :=
        { title := "Disaster Relief", description := "Emergency aid to impacted regions",
          cost := 50, effect_growth := 1/1000, effect_unemployment := -5/100,
          popularity := 70, sponsor_party := us.president.party }
      let us1 := (us.attempt_pass_policy pol).2
      let us2 := if (lookupA us1.states "Texas").isSome then us1.ai_state_turn "Texas" else us1
      if (lookupA us2.states "Florida").isSome then us2.ai_state_turn "Florida" else us2
    else if recent = "scandal" then
      let opp : PartyID := if us.president.party = .DEMOCRAT then .REPUBLICAN else .DEMOCRAT
      { us with parties := modifyA (fun q => q.adjust_approval 1) us.parties opp }
    else us

/-- cohort perturbation inside district creation (one draw per cohort). -/
def perturbCohorts : List VoterCohort → Rng → List VoterCohort × Rng
  | [], rng => ([], rng)
  | c :: t, rng =>
    let p := rng.uniform (-5/100) (5/100)
    let share := clamp (5/100) (9/10) (c.share + p.1)
    let r := perturbCohorts t p.2
    ({ c with share := share } :: r.1, r.2)

/-- share renormalisation after perturbation. -/
def normalizeShares (cs : List VoterCohort) : List VoterCohort :=
  let total := (cs.map (fun c => c.share)).sum
  cs.map (fun c => { c with share := c.share / total })

/-- creation of the default six house districts (five draws per district). -/
def buildDistricts (stname : String) (cohorts : List VoterCohort) :
    List ℕ → Rng → List District × Rng
  | [], rng => ([], rng)
  | i :: t, rng =>
    let p1 := rng.uniform (-4/100) (4/100)
    let p2 := p1.2.uniform (-3/100) (3/100)
    let pc := perturbCohorts cohorts p2.2
    let cs := normalizeShares pc.1
    let d : District :=
      { id := stname ++ "-" ++ toString (i+1), cohorts := cs,
        turnout_bias := p2.1, swing := p1.1 }
    let r := buildDistricts stname cohorts t pc.2
    (d :: r.1, r.2)

/-- lazy initialisation of a state's election structures; a no-op on each
field that is already populated. -/
def UnitedStates.init_state_elections_if_missing (us : UnitedStates) (name : String) :
    UnitedStates :=
  match lookupA us.states name with
  | none => us
  | some st =>
    let cohorts1 :=
      if st.voter_cohorts = [] then
        [⟨"Urban Dem", 4/10, .DEMOCRAT, 62/100⟩,
         ⟨"Suburban Rep", 4/10, .REPUBLICAN, 61/100⟩,
         ⟨"Independent", 2/10, .INDEPENDENT, 48/100⟩]
      else st.voter_cohorts
    let st1 := { st with voter_cohorts := cohorts1 }
    let db :=
      if st1.house_districts = [] then
        buildDistricts st1.name st1.voter_cohorts (List.range 6) us.rng
      else (st1.house_districts, us.rng)
    let st2 := { st1 with house_districts := db.1 }
    let st3 :=
      if st2.senate_seats = [] ∨ st2.senate_seats.length ≠ 2 then
        { st2 with senate_seats := [st2.legislature.senate, st2.legislature.senate] }
      else st2
    let cb :=
      if st3.senate_classes = [] ∨ st3.senate_classes.length ≠ 2 then
        let q1 := db.2.randrange 6
        let q2 := q1.2.randrange 6
        ([q1.1, q2.1], q2.2)
      else (st3.senate_classes, db.2)
    let st4 := { st3 with senate_classes := cb.1 }
    { us with states := setA us.states name st4, rng := cb.2 }

/-- house race over one state's districts: updates incumbents and tallies
Democrat and Republican seats (two draws per district). -/
def districtsRace (usOrig : UnitedStates) (st : State) :
    List District → Rng → List District × ℕ × ℕ × Rng
  | [], rng => ([], 0, 0, rng)
  | d :: t, rng =>
    let p := usOrig.district_dem_probability st d rng
    let w := p.2.random
    let winner : PartyID := if w.1 < p.1 then .DEMOCRAT else .REPUBLICAN
    let d' := { d with incumbent := winner }
    let r := districtsRace usOrig st t w.2
    (d' :: r.1, (if winner = .DEMOCRAT then 1 else 0) + r.2.1,
     (if winner = .DEMOCRAT then 0 else 1) + r.2.2.1, r.2.2.2)

/-- house races over all states. -/
def houseStates (usOrig : UnitedStates) :
    List (String × State) → Rng → List (String × State) × ℕ × ℕ × Rng
  | [], rng => ([], 0, 0, rng)
  | (n, st) :: t, rng =>
    let r1 := districtsRace usOrig st st.house_districts rng
    let st' := { st with house_districts := r1.1 }
    let rest := houseStates usOrig t r1.2.2.2
    ((n, st') :: rest.1, r1.2.1 + rest.2.1, r1.2.2.1 + rest.2.2.1, rest.2.2.2)

/-- the aggregate chamber-control decision: Democrat wins ties (a `>=`
comparison in the source, for both chambers). -/
def chamberControl (dem rep : ℕ) : PartyID :=
  if dem ≥ rep then .DEMOCRAT else .REPUBLICAN

/-- the house-election block of maybe_run_elections (even years). -/
def UnitedStates.houseStep (us : UnitedStates) : UnitedStates :=
  match houseStates us us.states us.rng with
  | (sts, dem, rep, rng') =>
    let us1 :=
      { us with states := sts, rng := rng',
                congress := { us.congress with house_control := chamberControl dem rep } }
    us1.log_event ("House elections (granular): D " ++ toString dem ++ " - R " ++ toString rep)

/-- one senate seat: re-contested only when its class equals the cycle. -/
def senateSeatUpdate (usOrig : UnitedStates) (st : State) (cycle i : ℕ)
    (seats : List PartyID) (rng : Rng) : List PartyID × Rng :=
  let inc := seats.getD i .INDEPENDENT
  if st.senate_classes.getD i 0 = cycle then
    let p := usOrig.statewide_dem_probability st inc rng
    let w := p.2.random
    let winner : PartyID := if w.1 < p.1 then .DEMOCRAT else .REPUBLICAN
    (seats.set i winner, w.2)
  else (seats, rng)

/-- senate races over all states, counting every seat after updates. -/
def senateStates (usOrig : UnitedStates) (cycle : ℕ) :
    List (String × State) → Rng → List (String × State) × ℕ × ℕ × Rng
  | [], rng => ([], 0, 0, rng)
  | (n, st) :: t, rng =>
    let s1 := senateSeatUpdate usOrig st cycle 0 st.senate_seats rng
    let s2 := senateSeatUpdate usOrig st cycle 1 s1.1 s1.2
    let st' := { st with senate_seats := s2.1 }
    let d := (s2.1.filter (fun s => s = PartyID.DEMOCRAT)).length
    let r := (s2.1.filter (fun s => s = PartyID.REPUBLICAN)).length
    let rest := senateStates usOrig cycle t s2.2
    ((n, st') :: rest.1, d + rest.2.1, r + rest.2.2.1, rest.2.2.2)

/-- the senate block of maybe_run_elections: control is recomputed
whenever either total is nonzero (the source's truthiness test). -/
def UnitedStates.senateStep (us : UnitedStates) : UnitedStates :=
  let cycle := us.year % 6
  match senateStates us cycle us.states us.rng with
  | (sts, dem, rep, rng') =>
    let us1 := { us with states := sts, rng := rng' }
    if dem ≠ 0 ∨ rep ≠ 0 then
      ({ us1 with congress := { us1.congress with senate_control := chamberControl dem rep } }).log_event
        ("Senate elections (staggered): D " ++ toString dem ++ " - R " ++ toString rep)
    else us1

/-- the presidential block of maybe_run_elections (years divisible by 4). -/
def UnitedStates.presidentStep (us : UnitedStates) : UnitedStates :=
  let e : Election := { level := "federal", office := some "President", year := us.year }
  let r := e.run us us.rng
  let us1 := { us with president := { us.president with party := r.1.winner_party }, rng := r.2 }
  us1.log_event ("Presidential election: " ++ r.1.winner_party.value)

/-- the lazy-initialisation pass over every state, in map order. -/
def UnitedStates.electionInit (us : UnitedStates) : UnitedStates :=
  (us.states.map Prod.fst).foldl (fun u n => u.init_state_elections_if_missing n) us

/-- lazy init followed by the house block when the year is even: the state
maybe_run_elections has built when the senate block starts. -/
def UnitedStates.electionPrelude (us : UnitedStates) : UnitedStates :=
  let us1 := us.electionInit
  if us.year % 2 = 0 then us1.houseStep else us1

/-- the house tally (dem_seats, rep_seats) this state would produce. -/
def UnitedStates.houseTally (us : UnitedStates) : ℕ × ℕ :=
  match houseStates us us.states us.rng with
  | (_, dem, rep, _) => (dem, rep)

/-- the senate tally (dem_total, rep_total) this state would produce. -/
def UnitedStates.senateTally (us : UnitedStates) : ℕ × ℕ :=
  match senateStates us (us.year % 6) us.states us.rng with
  | (_, dem, rep, _) => (dem, rep)

/-- UnitedStates.maybe_run_elections: November gate, then lazy init, house
(even years), senate (every November), president (years mod 4), approvals. -/
def UnitedStates.maybe_run_elections (us : UnitedStates) : UnitedStates :=
  if us.month ≠ 11 then us
  else
    let prev_house := us.congress.house_control
    let prev_senate := us.congress.senate_control
    let us3 := us.electionPrelude.senateStep
    let us4 := if us.year % 4 = 0 then us3.presidentStep else us3
    us4.update_approvals_after_congress_results prev_house prev_senate

/-- the per-state economic pass of step 2 of the tick (four draws per
state: three in advance_economy plus the spending noise). -/
def econStates (g ni : ℚ) :
    List (String × State) → Rng → List (String × State) × Rng
  | [], rng => ([], rng)
  | (n, st) :: t, rng =>
    let p := st.advance_economy g ni rng
    let st1 := p.1
    let rev := st1.tax_rate * st1.gdp
    let q := p.2.uniform (-1) 1
    let st2 := { st1 with budget_revenue := rev,
                          budget_spending := st1.budget_spending + 2/10 * (rev - st1.budget_spending) + q.1 }
    let r := econStates g ni t q.2
    ((n, st2) :: r.1, r.2)

/-- tick step 1: macro drift with clamps. -/
def UnitedStates.macroDrift (us : UnitedStates) : UnitedStates :=
  let p1 := us.rng.uniform (-2/1000) (2/1000)
  let p2 := p1.2.uniform (-5/100) (5/100)
  let p3 := p2.2.uniform (-5/100) (5/100)
  { us with growth := clamp (-5/100) (6/100) (us.growth + p1.1),
            inflation := clamp 0 10 (us.inflation + p2.1),
            unemployment := clamp (5/2) 20 (us.unemployment + p3.1),
            rng := p3.2 }

/-- tick step 2: state economies and state public finance. -/
def UnitedStates.econPass (us : UnitedStates) : UnitedStates :=
  let e := econStates us.growth us.inflation us.states us.rng
  { us with states := e.1, rng := e.2 }

/-- tick step 3: national AI proposal and attempt. -/
def UnitedStates.aiNationalPass (us : UnitedStates) : UnitedStates :=
  let c := us.ai_consider_policy
  match c.1 with
  | some pol => (c.2.attempt_pass_policy pol).2
  | none => c.2

/-- tick step 4: every state's AI turn, in map order. -/
def UnitedStates.stateTurnsPass (us : UnitedStates) : UnitedStates :=
  (us.states.map Prod.fst).foldl (fun uu n => uu.ai_state_turn n) us

/-- tick step 5: 35% chance of one event plus the reaction pass. -/
def UnitedStates.eventPass (us : UnitedStates) : UnitedStates :=
  let q := us.rng.random
  let us1 := { us with rng := q.2 }
  if q.1 < (35/100 : ℚ) then ((us1.trigger_event).2).ai_react_to_events else us1

/-- tick step 7: approval mean reversion with clamps. -/
def UnitedStates.approvalReversion (us : UnitedStates) : UnitedStates :=
  let ap := us.opinion.approval_president + 5/100 * (50 - us.opinion.approval_president)
  let ac := us.opinion.approval_congress + 5/100 * (40 - us.opinion.approval_congress)
  { us with opinion := { us.opinion with approval_president := clamp 0 100 ap,
                                         approval_congress := clamp 0 100 ac } }

/-- tick step 8: 50% chance of party strategic drift. -/
def UnitedStates.partyDriftPass (us : UnitedStates) : UnitedStates :=
  let s := us.rng.random
  let us1 := { us with rng := s.2 }
  if s.1 < (1/2 : ℚ) then us1.ai_party_national_strategy else us1

/-- tick step 9: federal revenue recomputed from total state GDP. -/
def UnitedStates.revenuePass (us : UnitedStates) : UnitedStates :=
  let tg := (us.states.map (fun pr => pr.2.gdp)).sum
  { us with budget := { us.budget with revenue := us.budget.tax_rate * tg } }

/-- tick step 10: calendar advance with the 12 to 1 rollover. -/
def UnitedStates.calendarAdvance (us : UnitedStates) : UnitedStates :=
  if us.month + 1 > 12 then { us with month := 1, year := us.year + 1 }
  else { us with month := us.month + 1 }

/-- one iteration of the advance_turn loop: the fixed monthly sequence. -/
def UnitedStates.tick (us : UnitedStates) : UnitedStates :=
  us.macroDrift.econPass.aiNationalPass.stateTurnsPass.eventPass.maybe_run_elections.approvalReversion.partyDriftPass.revenuePass.calendarAdvance

/-- UnitedStates.advance_turn(months). -/
def UnitedStates.advance_turn : UnitedStates → ℕ → UnitedStates
  | us, 0 => us
  | us, n+1 => (us.tick).advance_turn n

/-- the factory's per-state initialisation (the factory uses a fresh
generator for districts for each state, and another one for classes;
with the default states the seats/classes branches are no-ops). -/
def initFactoryState (ds cs : ℕ → ℚ) (st : State) : State :=
  let cohorts1 :=
    if st.voter_cohorts = [] then
      [⟨"Urban Dem", 42/100, .DEMOCRAT, 62/100⟩,
       ⟨"Suburban Rep", 40/100, .REPUBLICAN, 61/100⟩,
       ⟨"Independent", 18/100, .INDEPENDENT, 48/100⟩]
    else st.voter_cohorts
  let st1 := { st with voter_cohorts := cohorts1 }
  let st2 :=
    if st1.house_districts = [] then
      { st1 with house_districts := (buildDistricts st1.name st1.voter_cohorts (List.range 6) ⟨ds, 0⟩).1 }
    else st1
  let st3 :=
    if st2.senate_seats = [] ∨ st2.senate_seats.length ≠ 2 then
      { st2 with senate_seats := [st2.legislature.senate, st2.legislature.senate] }
    else st2
  if st3.senate_classes = [] ∨ st3.senate_classes.length ≠ 2 then
    let q1 := (Rng.mk cs 0).randrange 6
    let q2 := q1.2.randrange 6
    { st3 with senate_classes := [q1.1, q2.1] }
  else st3

/-- the factory's fixed event catalog, in registration order. -/
def defaultEventManager : EventManager :=
  ((((⟨[]⟩ : EventManager).register
    { key := "hurricane", description := "Major hurricane hits Gulf Coast",
      impact_growth := -3/1000, impact_unemployment := 2/10, impact_inflation := 1/10 } 1).register
    { key := "tech_boom", description := "Tech productivity boom",
      impact_growth := 4/1000, impact_unemployment := -15/100 } (6/10)).register
    { key := "scandal", description := "Political scandal",
      impact_approval_president := -5/2, party_benefit := some .REPUBLICAN } 1).register
    { key := "bipartisan", description := "Bipartisan breakthrough",
      impact_approval_congress := 2 } 1

/-- UnitedStates.new_default, generalised over the three generators the
factory constructs (main RNG from seed, district RNG from seed+1, class
RNG from seed+2). -/
def UnitedStates.new_default_with (ms ds cs : ℕ → ℚ) : UnitedStates :=
  let parties : List (PartyID × PoliticalParty) :=
    [(.DEMOCRAT, ⟨.DEMOCRAT, 52⟩), (.REPUBLICAN, ⟨.REPUBLICAN, 48⟩),
     (.INDEPENDENT, ⟨.INDEPENDENT, 35⟩)]
  let ca : State :=
    { name := "California", population := 39000000, gdp := 3200,
      unemployment := 48/10, inflation := 28/10, governor_party := .DEMOCRAT,
      legislature := ⟨.DEMOCRAT, .DEMOCRAT⟩ }
  let tx : State :=
    { name := "Texas", population := 30000000, gdp := 2000,
      unemployment := 4, inflation := 5/2, governor_party := .REPUBLICAN,
      legislature := ⟨.REPUBLICAN, .REPUBLICAN⟩ }
  let fl : State :=
    { name := "Florida", population := 22000000, gdp := 1100,
      unemployment := 35/10, inflation := 26/10, governor_party := .REPUBLICAN,
      legislature := ⟨.REPUBLICAN, .REPUBLICAN⟩ }
  let ny : State :=
    { name := "New York", population := 19500000, gdp := 1800,
      unemployment := 42/10, inflation := 27/10, governor_party := .DEMOCRAT,
      legislature := ⟨.DEMOCRAT, .DEMOCRAT⟩ }
  let states :=
    [("California", ca), ("Texas", tx), ("Florida", fl), ("New York", ny)].map
      (fun pr => (pr.1, initFactoryState ds cs pr.2))
  { year := 2025, month := 1,
    president := ⟨"Incumbent", .DEMOCRAT⟩,
    congress := ⟨.DEMOCRAT, .DEMOCRAT⟩,
    court := ⟨.REPUBLICAN⟩,
    parties := parties, states := states,
    budget := ⟨4500, 5200, 18/100⟩,
    opinion := { approval_president := 51, approval_congress := 38 },
    event_manager := defaultEventManager, rng := ⟨ms, 0⟩ }

/-- a concrete seed-to-stream function standing in for the Mersenne
Twister: a linear congruential generator scaled into [0,1). -/
def lcg (s : ℕ) : ℕ := (s * 1103515245 + 12345) % 2147483648

/-- iterated LCG. -/
def lcgIter : ℕ → ℕ → ℕ
  | 0, s => s
  | n+1, s => lcg (lcgIter n s)

/-- the draw stream of `random.Random(seed)` in this model. -/
def seedStream (seed : ℕ) (n : ℕ) : ℚ := (lcgIter (n+1) seed : ℚ) / 2147483648

/-- UnitedStates.new_default(seed). -/
def UnitedStates.new_default (seed : ℕ) : UnitedStates :=
  UnitedStates.new_default_with (seedStream seed) (seedStream (seed+1)) (seedStream (seed+2))

/-- per-state block of the snapshot mapping. -/
structure StateSnap where
  population : ℕ
  gdp : ℚ
  unemployment : ℚ
  inflation : ℚ
  rev : ℚ
  spend : ℚ
  tax_rate : ℚ
  governor_party : String
  leg_house : String
  leg_senate : String
deriving DecidableEq, Repr

/-- the structured mapping returned by snapshot. -/
structure Snapshot where
  time_year : ℕ
  time_month : ℕ
  macro_growth : ℚ
  macro_unemployment : ℚ
  macro_inflation : ℚ
  president_party : String
  house_control : String
  senate_control : String
  court_lean : String
  budget_revenue : ℚ
  budget_spending : ℚ
  budget_deficit : ℚ
  opinion_president : ℚ
  opinion_congress : ℚ
  states : List (String × StateSnap)
  parties : List (String × ℚ)
  log_tail : List String
deriving DecidableEq, Repr

/-- Python's `log[-n:]` tail slice: the last n entries, or the whole list
when n = 0 (since `log[-0:]` is `log[0:]`). -/
def logTail (n : ℕ) (log : List String) : List String :=
  if n = 0 then log else log.drop (log.length - n)

/-- UnitedStates.snapshot, in state-passing form: the returned root is the
receiver exactly as the method leaves it (the method only reads). -/
def UnitedStates.snapshot (us : UnitedStates) (last_logs : ℕ) :
    Snapshot × UnitedStates :=
  (⟨us.year, us.month, us.growth, us.unemployment, us.inflation,
    us.president.party.value, us.congress.house_control.value,
    us.congress.senate_control.value, us.court.lean.value,
    us.budget.revenue, us.budget.spending, us.budget.deficit,
    us.opinion.approval_president, us.opinion.approval_congress,
    us.states.map (fun pr =>
      (pr.1, ⟨pr.2.population, pr.2.gdp, pr.2.unemployment, pr.2.inflation,
              pr.2.budget_revenue, pr.2.budget_spending, pr.2.tax_rate,
              pr.2.governor_party.value, pr.2.legislature.house.value,
              pr.2.legislature.senate.value⟩)),
    us.parties.map (fun pr => (pr.1.value, pr.2.national_approval)),
    logTail last_logs us.log⟩, us)

/-- serialised PoliticalParty. -/
structure PartyD where
  name : String
  national_approval : ℚ
deriving DecidableEq, Repr

/-- PoliticalParty.to_dict. -/
def PoliticalParty.to_dict (p : PoliticalParty) : PartyD :=
  ⟨p.name.value, p.national_approval⟩

/-- PoliticalParty.from_dict (enum parse can fail). -/
def PoliticalParty.from_dict (d : PartyD) : Option PoliticalParty :=
  (PartyID.ofValue d.name).map (fun n => ⟨n, d.national_approval⟩)

/-- serialised PublicOpinion. -/
structure OpinionD where
  approval_president : ℚ
  approval_congress : ℚ
  issue_support : List (String × ℚ)
deriving DecidableEq, Repr

/-- PublicOpinion.to_dict. -/
def PublicOpinion.to_dict (o : PublicOpinion) : OpinionD :=
  ⟨o.approval_president, o.approval_congress, o.issue_support⟩

/-- PublicOpinion.from_dict. -/
def PublicOpinion.from_dict (d : OpinionD) : PublicOpinion :=
  ⟨d.approval_president, d.approval_congress, d.issue_support⟩

/-- serialised LegislatureControl. -/
structure LegD where
  house : String
  senate : String
deriving DecidableEq, Repr

/-- LegislatureControl.to_dict. -/
def LegislatureControl.to_dict (l : LegislatureControl) : LegD :=
  ⟨l.house.value, l.senate.value⟩

/-- LegislatureControl.from_dict. -/
def LegislatureControl.from_dict (d : LegD) : Option LegislatureControl :=
  (PartyID.ofValue d.house).bind (fun h =>
    (PartyID.ofValue d.senate).map (fun s => ⟨h, s⟩))

/-- serialised VoterCohort. -/
structure CohortD where
  name : String
  share : ℚ
  lean : String
  turnout : ℚ
deriving DecidableEq, Repr

/-- VoterCohort.to_dict. -/
def VoterCohort.to_dict (c : VoterCohort) : CohortD :=
  ⟨c.name, c.share, c.lean.value, c.turnout⟩

/-- VoterCohort.from_dict. -/
def VoterCohort.from_dict (d : CohortD) : Option VoterCohort :=
  (PartyID.ofValue d.lean).map (fun l => ⟨d.name, d.share, l, d.turnout⟩)

/-- serialised District. -/
structure DistrictD where
  id : String
  cohorts : List CohortD
  incumbent : String
  turnout_bias : ℚ
  swing : ℚ
deriving DecidableEq, Repr

/-- District.to_dict. -/
def District.to_dict (d : District) : DistrictD :=
  ⟨d.id, d.cohorts.map VoterCohort.to_dict, d.incumbent.value, d.turnout_bias, d.swing⟩

/-- District.from_dict. -/
def District.from_dict (d : DistrictD) : Option District :=
  (d.cohorts.mapM VoterCohort.from_dict).bind (fun cs =>
    (PartyID.ofValue d.incumbent).map (fun inc =>
      ⟨d.id, cs, inc, d.turnout_bias, d.swing⟩))

/-- serialised State. -/
structure StateD where
  name : String
  population : ℕ
  gdp : ℚ
  unemployment : ℚ
  inflation : ℚ
  governor_party : String
  legislature : LegD
  approval_governor : ℚ
  approval_legislature : ℚ
  budget_revenue : ℚ
  budget_spending : ℚ
  tax_rate : ℚ
  gdp_sectors : List (String × ℚ)
  voter_cohorts : List CohortD
  house_districts : List DistrictD
  senate_seats : List String
  senate_classes : List ℕ
deriving DecidableEq, Repr

/-- State.to_dict. -/
def State.to_dict (st : State) : StateD :=
  ⟨st.name, st.population, st.gdp, st.unemployment, st.inflation,
   st.governor_party.value, st.legislature.to_dict, st.approval_governor,
   st.approval_legislature, st.budget_revenue, st.budget_spending, st.tax_rate,
   st.gdp_sectors, st.voter_cohorts.map VoterCohort.to_dict,
   st.house_districts.map District.to_dict, st.senate_seats.map PartyID.value,
   st.senate_classes⟩

/-- State.from_dict. -/
def State.from_dict (d : StateD) : Option State :=
  (PartyID.ofValue d.governor_party).bind (fun gp =>
    (LegislatureControl.from_dict d.legislature).bind (fun leg =>
      (d.voter_cohorts.mapM VoterCohort.from_dict).bind (fun vcs =>
        (d.house_districts.mapM District.from_dict).bind (fun hds =>
          (d.senate_seats.mapM PartyID.ofValue).map (fun seats =>
            ⟨d.name, d.population, d.gdp, d.unemployment, d.inflation, gp, leg,
             d.approval_governor, d.approval_legislature, d.budget_revenue,
             d.budget_spending, d.tax_rate, d.gdp_sectors, vcs, hds, seats,
             d.senate_classes⟩)))))

/-- serialised FederalBudget. -/
structure BudgetD where
  revenue : ℚ
  spending : ℚ
  tax_rate : ℚ
deriving DecidableEq, Repr

/-- FederalBudget.to_dict. -/
def FederalBudget.to_dict (b : FederalBudget) : BudgetD :=
  ⟨b.revenue, b.spending, b.tax_rate⟩

/-- FederalBudget.from_dict. -/
def FederalBudget.from_dict (d : BudgetD) : FederalBudget :=
  ⟨d.revenue, d.spending, d.tax_rate⟩

/-- serialised Congress. -/
structure CongressD where
  house_control : String
  senate_control : String
deriving DecidableEq, Repr

/-- Congress.to_dict. -/
def Congress.to_dict (c : Congress) : CongressD :=
  ⟨c.house_control.value, c.senate_control.value⟩

/-- Congress.from_dict. -/
def Congress.from_dict (d : CongressD) : Option Congress :=
  (PartyID.ofValue d.house_control).bind (fun h =>
    (PartyID.ofValue d.senate_control).map (fun s => ⟨h, s⟩))

/-- serialised President. -/
structure PresidentD where
  name : String
  party : String
deriving DecidableEq, Repr

/-- President.to_dict. -/
def President.to_dict (p : President) : PresidentD := ⟨p.name, p.party.value⟩

/-- President.from_dict. -/
def President.from_dict (d : PresidentD) : Option President :=
  (PartyID.ofValue d.party).map (fun pt => ⟨d.name, pt⟩)

/-- serialised SupremeCourt. -/
structure CourtD where
  lean : String
deriving DecidableEq, Repr

/-- SupremeCourt.to_dict. -/
def SupremeCourt.to_dict (c : SupremeCourt) : CourtD := ⟨c.lean.value⟩

/-- SupremeCourt.from_dict. -/
def SupremeCourt.from_dict (d : CourtD) : Option SupremeCourt :=
  (PartyID.ofValue d.lean).map (fun l => ⟨l⟩)

/-- serialised Event. -/
structure EventD where
  key : String
  description : String
  impact_approval_president : ℚ
  impact_approval_congress : ℚ
  impact_growth : ℚ
  impact_unemployment : ℚ
  impact_inflation : ℚ
  party_benefit : Option String
deriving DecidableEq, Repr

/-- Event.to_dict. -/
def Event.to_dict (e : Event) : EventD :=
  ⟨e.key, e.description, e.impact_approval_president, e.impact_approval_congress,
   e.impact_growth, e.impact_unemployment, e.impact_inflation,
   e.party_benefit.map PartyID.value⟩

/-- Event.from_dict; an empty party string is falsy in Python and maps to
no benefit. -/
def Event.from_dict (d : EventD) : Option Event :=
  match d.party_benefit with
  | none => some ⟨d.key, d.description, d.impact_approval_president,
                  d.impact_approval_congress, d.impact_growth,
                  d.impact_unemployment, d.impact_inflation, none⟩
  | some s =>
    if s = "" then
      some ⟨d.key, d.description, d.impact_approval_president,
            d.impact_approval_congress, d.impact_growth,
            d.impact_unemployment, d.impact_inflation, none⟩
    else
      (PartyID.ofValue s).map (fun pb =>
        ⟨d.key, d.description, d.impact_approval_president,
         d.impact_approval_congress, d.impact_growth,
         d.impact_unemployment, d.impact_inflation, some pb⟩)

/-- one serialised catalog item. -/
structure CatalogItemD where
  event : EventD
  weight : ℚ
deriving DecidableEq, Repr

/-- serialised EventManager. -/
structure EMD where
  catalog : List CatalogItemD
deriving DecidableEq, Repr

/-- EventManager.to_dict: emits the catalog values in order, dropping the
dict keys (each equals its event's own key whenever built via register). -/
def EventManager.to_dict (em : EventManager) : EMD :=
  ⟨em.catalog.map (fun e => ⟨e.2.1.to_dict, e.2.2⟩)⟩

/-- EventManager.from_dict: re-registers every item in order. -/
def EventManager.from_dict (d : EMD) : Option EventManager :=
  (d.catalog.mapM (fun item => (Event.from_dict item.event).map (fun ev => (ev, item.weight)))).map
    (fun evs => evs.foldl (fun em p => em.register p.1 p.2) ⟨[]⟩)

/-- the full serialised root. -/
structure USDict where
  time_year : ℕ
  time_month : ℕ
  macro_growth : ℚ
  macro_unemployment : ℚ
  macro_inflation : ℚ
  president : PresidentD
  congress : CongressD
  court : CourtD
  budget : BudgetD
  opinion : OpinionD
  parties : List (String × PartyD)
  states : List (String × StateD)
  events : EMD
  rng_state : Rng
  log : List String
  recent_events : List String

/-- UnitedStates.to_dict: every field, including the full RNG state. -/
def UnitedStates.to_dict (us : UnitedStates) : USDict :=
  ⟨us.year, us.month, us.growth, us.unemployment, us.inflation,
   us.president.to_dict, us.congress.to_dict, us.court.to_dict,
   us.budget.to_dict, us.opinion.to_dict,
   us.parties.map (fun pr => (pr.1.value, pr.2.to_dict)),
   us.states.map (fun pr => (pr.1, pr.2.to_dict)),
   us.event_manager.to_dict, us.rng, us.log, us.recent_events⟩

/-- UnitedStates.from_dict. -/
def UnitedStates.from_dict (d : USDict) : Option UnitedStates :=
  (President.from_dict d.president).bind (fun pres =>
    (Congress.from_dict d.congress).bind (fun cong =>
      (SupremeCourt.from_dict d.court).bind (fun court =>
        ((d.parties.mapM (fun pr =>
            (PartyID.ofValue pr.1).bind (fun k =>
              (PoliticalParty.from_dict pr.2).map (fun v => (k, v))))).bind (fun parties =>
          ((d.states.mapM (fun pr =>
              (State.from_dict pr.2).map (fun v => (pr.1, v)))).bind (fun states =>
            (EventManager.from_dict d.events).map (fun em =>
              { year := d.time_year, month := d.time_month,
                president := pres, congress := cong, court := court,
                parties := parties, states := states,
                budget := FederalBudget.from_dict d.budget,
                opinion := PublicOpinion.from_dict d.opinion,
                event_manager := em, rng := d.rng_state,
                growth := d.macro_growth, unemployment := d.macro_unemployment,
                inflation := d.macro_inflation, log := d.log,
                recent_events := d.recent_events }))))))))

/-- consequence descriptors of the config layer: a closed enumeration; only
chain_event carries scheduling fields with specified semantics. -/
inductive Consequence where
  | chain_event (event_key : String) (delay_months : ℕ) (probability : ℚ)
  | other
deriving DecidableEq, Repr

/-- an event together with its consequence descriptor list, as the config
layer supplies it. -/
structure EventC where
  base : Event
  consequences : List Consequence := []

/-- an EventManager together with its pending-events schedule. -/
structure EventManagerP where
  manager : EventManager
  pending_events : List (String × ℕ) := []

/-- Modelled from the spec: `process_event_consequences` and the
`pending_events` structure are exercised by the repository's tests but are
absent from usa/models.py (the EventManager there has neither).  Following
the spec: for each descriptor of type "chain_event", draw once against the
given probability and, when the draw succeeds, schedule exactly the
(event_key, delay_months) pair into pending_events; other descriptor kinds
apply deltas and log but do not schedule. -/
def processConsequenceList : List Consequence → List (String × ℕ) → Rng →
    List (String × ℕ) × Rng
  | [], pending, rng => (pending, rng)
  | .chain_event k delay prob :: t, pending, rng =>
    let p := rng.random
    if p.1 < prob then processConsequenceList t (pending ++ [(k, delay)]) p.2
    else processConsequenceList t pending p.2
  | .other :: t, pending, rng => processConsequenceList t pending rng

/-- Modelled from the spec: EventManager.process_event_consequences over the
manager-with-schedule wrapper. -/
def EventManagerP.process_event_consequences (emp : EventManagerP) (ev : EventC)
    (rng : Rng) : EventManagerP × Rng :=
  let r := processConsequenceList ev.consequences emp.pending_events rng
  ({ emp with pending_events := r.1 }, r.2)

/-- the spec's description of what must be recorded: the (event_key,
delay_months) pairs of exactly those chain_event descriptors whose
probability draw succeeds, in order (refinement reference). -/
def chainScheduledSpec (s : ℕ → ℚ) : ℕ → List Consequence → List (String × ℕ)
  | _, [] => []
  | pos, .chain_event k d prob :: t =>
    if s pos < prob then (k, d) :: chainScheduledSpec s (pos+1) t
    else chainScheduledSpec s (pos+1) t
  | pos, .other :: t => chainScheduledSpec s pos t

/-- the §4.3 passage-probability formula exactly as the spec words it
(refinement reference for pass_probability). -/
def spec_pass_probability (us : UnitedStates) (policy : Policy) : ℚ :=
  let alignment :=
    if policy.sponsor_party = us.congress.house_control ∨
       policy.sponsor_party = us.congress.senate_control then 15/100 else -(5/100)
  let president_bonus := if policy.sponsor_party = us.president.party then 1/10 else 0
  let court_risk :=
    if policy.effect_inflation > 7/10 ∧ us.court.lean ≠ policy.sponsor_party
    then -(5/100) else 0
  clamp (5/100) (95/100)
    (1/2 + (policy.popularity - 50)/100 + alignment + president_bonus + court_risk)

/-- states reachable by the public mutating API from a factory root. -/
inductive Reachable : UnitedStates → Prop where
  | root (ms ds cs : ℕ → ℚ) : Reachable (UnitedStates.new_default_with ms ds cs)
  | advance (us : UnitedStates) (n : ℕ) : Reachable us → Reachable (us.advance_turn n)
  | event (us : UnitedStates) : Reachable us → Reachable (us.trigger_event).2
  | policy (us : UnitedStates) (p : Policy) :
      Reachable us → Reachable (us.attempt_pass_policy p).2

/-- well-formedness of an event catalog: each entry is keyed by its own
event's key, and keys are unique.  Both hold for every catalog built via
register, in particular the factory catalog, and nothing after
construction ever modifies the catalog. -/
def EMWellFormed (em : EventManager) : Prop :=
  (∀ e ∈ em.catalog, e.1 = e.2.1.key) ∧ (em.catalog.map Prod.fst).Nodup

/-- fixture: the standard party map. -/
def fixParties : List (PartyID × PoliticalParty) :=
  [(.DEMOCRAT, ⟨.DEMOCRAT, 52⟩), (.REPUBLICAN, ⟨.REPUBLICAN, 48⟩),
   (.INDEPENDENT, ⟨.INDEPENDENT, 35⟩)]

/-- fixture: a minimal state for witness scenarios. -/
def fixState : State :=
  { name := "Alpha", population := 1000, gdp := 100, unemployment := 5,
    inflation := 3, governor_party := .DEMOCRAT,
    legislature := ⟨.DEMOCRAT, .REPUBLICAN⟩,
    voter_cohorts := [⟨"Mixed", 1, .INDEPENDENT, 1/2⟩],
    house_districts := [{ id := "Alpha-1", cohorts := [] }],
    senate_seats := [.DEMOCRAT, .REPUBLICAN], senate_classes := [0, 3] }

/-- fixture: a minimal root whose draws all read 99/100 (every attempt
fails, nothing fires). -/
def fixUS : UnitedStates :=
  { year := 2025, month := 3, president := ⟨"P", .DEMOCRAT⟩,
    congress := ⟨.DEMOCRAT, .REPUBLICAN⟩, court := ⟨.REPUBLICAN⟩,
    parties := fixParties, states := [("Alpha", fixState)],
    budget := ⟨100, 100, 18/100⟩, opinion := {}, event_manager := ⟨[]⟩,
    rng := ⟨fun _ => 99/100, 0⟩ }

/-- fixture: the same root with an all-zero draw stream (every attempt
succeeds). -/
def fixUS0 : UnitedStates := { fixUS with rng := ⟨fun _ => 0, 0⟩ }

/-- fixture policies for the accumulation scenario. -/
def fixP1 : Policy :=
  { title := "P1", description := "Test policy 1", effect_growth := 1/100,
    effect_unemployment := -1/10, popularity := 100, sponsor_party := .DEMOCRAT }

/-- second fixture policy. -/
def fixP2 : Policy :=
  { title := "P2", description := "Test policy 2", effect_growth := 2/100,
    effect_unemployment := -2/10, popularity := 100, sponsor_party := .DEMOCRAT }

/-- fixture: November root with two tie-engineered districts (draws 0 and
99/100 produce one Democrat and one Republican seat) and a tied, nonzero
senate seat count with no seat up this cycle. -/
def tieState : State :=
  { name := "Alpha", population := 1000, gdp := 100, unemployment := 5,
    inflation := 3, governor_party := .DEMOCRAT,
    legislature := ⟨.DEMOCRAT, .REPUBLICAN⟩,
    voter_cohorts := [⟨"Mixed", 1, .INDEPENDENT, 1/2⟩],
    house_districts := [{ id := "Alpha-1", cohorts := [] },
                        { id := "Alpha-2", cohorts := [] }],
    senate_seats := [.DEMOCRAT, .REPUBLICAN], senate_classes := [0, 3] }

/-- draw stream for the tie scenario: the second district's winner draw
(position 3) is 99/100, everything else 0. -/
def tieStream (n : ℕ) : ℚ := if n = 3 then 99/100 else 0

/-- fixture root for the house/senate tie-break witness (November 2026:
even year, not a presidential year, senate cycle 4 contests nothing). -/
def tieUS : UnitedStates :=
  { year := 2026, month := 11, president := ⟨"P", .DEMOCRAT⟩,
    congress := ⟨.REPUBLICAN, .REPUBLICAN⟩, court := ⟨.REPUBLICAN⟩,
    parties := fixParties, states := [("Alpha", tieState)],
    budget := ⟨100, 100, 18/100⟩, opinion := {}, event_manager := ⟨[]⟩,
    rng := ⟨tieStream, 0⟩ }

/-- fixture: November 2027 root whose only state has both senate seats
Independent and no seat up (cycle 5): both totals are zero. -/
def zeroSenState : State :=
  { name := "Alpha", population := 1000, gdp := 100, unemployment := 5,
    inflation := 3, governor_party := .DEMOCRAT,
    legislature := ⟨.DEMOCRAT, .REPUBLICAN⟩,
    voter_cohorts := [⟨"Mixed", 1, .INDEPENDENT, 1/2⟩],
    house_districts := [{ id := "Alpha-1", cohorts := [] }],
    senate_seats := [.INDEPENDENT, .INDEPENDENT], senate_classes := [0, 3] }

/-- counterexample root for the senate zero-zero tie: control stays
Republican although the totals are equal. -/
def zeroSenUS : UnitedStates :=
  { year := 2027, month := 11, president := ⟨"P", .DEMOCRAT⟩,
    congress := ⟨.REPUBLICAN, .REPUBLICAN⟩, court := ⟨.REPUBLICAN⟩,
    parties := fixParties, states := [("Alpha", zeroSenState)],
    budget := ⟨100, 100, 18/100⟩, opinion := {}, event_manager := ⟨[]⟩,
    rng := ⟨fun _ => 99/100, 0⟩ }

/-- counterexample root for the no-contest senate recompute: November 2027
(cycle 5, no seat of class 0 or 3 is up), both seats Republican, prior
senate control Democrat. -/
def recomputeState : State :=
  { name := "Alpha", population := 1000, gdp := 100, unemployment := 5,
    inflation := 3, governor_party := .REPUBLICAN,
    legislature := ⟨.REPUBLICAN, .REPUBLICAN⟩,
    voter_cohorts := [⟨"Mixed", 1, .INDEPENDENT, 1/2⟩],
    house_districts := [{ id := "Alpha-1", cohorts := [] }],
    senate_seats := [.REPUBLICAN, .REPUBLICAN], senate_classes := [0, 3] }

/-- root for the C4 counterexample. -/
def recomputeUS : UnitedStates :=
  { year := 2027, month := 11, president := ⟨"P", .DEMOCRAT⟩,
    congress := ⟨.DEMOCRAT, .DEMOCRAT⟩, court := ⟨.REPUBLICAN⟩,
    parties := fixParties, states := [("Alpha", recomputeState)],
    budget := ⟨100, 100, 18/100⟩, opinion := {}, event_manager := ⟨[]⟩,
    rng := ⟨fun _ => 99/100, 0⟩ }

/-- fixture root for the C4 witness (November 2025, cycle 3: the class-3
seat of the fixture state is up). -/
def c4WitnessUS : UnitedStates :=
  { year := 2025, month := 11, president := ⟨"P", .DEMOCRAT⟩,
    congress := ⟨.DEMOCRAT, .DEMOCRAT⟩, court := ⟨.REPUBLICAN⟩,
    parties := fixParties, states := [("Alpha", fixState)],
    budget := ⟨100, 100, 18/100⟩, opinion := {}, event_manager := ⟨[]⟩,
    rng := ⟨fun _ => 99/100, 0⟩ }

/-- fixture for the chain-event scenario of the test contract: manager with
the follow-up event registered, base event carrying one chain_event
descriptor with delay 3 and probability 1. -/
def chainEMP : EventManagerP :=
  { manager := (⟨[]⟩ : EventManager).register ⟨"x", "Follow-up", 0, 0, 0, 0, 0, none⟩ 1 }

/-- the base event of the chain scenario. -/
def chainBase : EventC :=
  { base := ⟨"base", "Base", 0, 0, 0, 0, 0, none⟩,
    consequences := [.chain_event "x" 3 1] }

/-- the number of draws one tick consumes when every branch draw reads
99/100 (no policy proposed, every attempt fails, no event fires, no
campaigning, no party drift): 3 macro + 16 state-economy + 1 national AI +
8 state turns + 1 event check + 1 party check, plus the election draws of
a November (48 house draws in even years, 2 per contested senate seat with
the default classes 0 and 3, 2 presidential draws in years mod 4). -/
def tickDrawCount (month year : ℕ) : ℕ :=
  30 + (if month = 11 then
          (if year % 2 = 0 then 48 else 0) +
          (if year % 6 = 0 ∨ year % 6 = 3 then 8 else 0) +
          (if year % 4 = 0 then 2 else 0)
        else 0)

/-- the month processed by tick k (zero-based) from the 2025-01 root. -/
def monthAt (k : ℕ) : ℕ := k % 12 + 1

/-- the year processed by tick k from the 2025-01 root. -/
def yearAt (k : ℕ) : ℕ := 2025 + k / 12

/-- cumulative draw count after k all-quiet ticks. -/
def posSeq : ℕ → ℕ
  | 0 => 0
  | k+1 => posSeq k + tickDrawCount (monthAt k) (yearAt k)

/-- the position of the event-chance draw of tick 155 (the first draw the
special stream answers with 1/10 instead of 99/100). -/
def c5A : ℕ := posSeq 154 + 28

/-- the stream of the long counterexample run: all draws are 99/100 except
the event-chance and event-selection draws of tick 155, which are 1/10
(firing the hurricane). -/
def c5Stream (n : ℕ) : ℚ := if n = c5A ∨ n = c5A + 1 then 1/10 else 99/100

/-- a constant valid stream. -/
def halfStream : ℕ → ℚ := fun _ => 1/2

/-- the counterexample root. -/
def c5Root : UnitedStates := UnitedStates.new_default_with c5Stream halfStream halfStream

/-- closed form of the quiet-run national inflation after k ticks: the
drift gains 49/1000 each tick and is capped at 10. -/
def inflAt (k : ℕ) : ℚ := min 10 (5/2 + 49/1000 * k)

/-- the per-state structure facts the quiet run preserves. -/
def stateShape (st : State) : ℕ × ℕ × List ℕ × Bool :=
  (st.house_districts.length, st.senate_seats.length, st.senate_classes,
   st.voter_cohorts.isEmpty)

/-- names and structural shapes of a state map, as one list. -/
def shapeMap (l : List (String × State)) : List (String × (ℕ × ℕ × List ℕ × Bool)) :=
  l.map (fun pr => (pr.1, stateShape pr.2))

/-- structural facts about the root that the trajectory analysis needs:
the four state keys in order, each with six districts, two senate seats
of classes 0 and 3 and nonempty cohorts. -/
def QuietShape (us : UnitedStates) : Prop :=
  shapeMap us.states =
    [("California", (6, 2, [0, 3], false)), ("Texas", (6, 2, [0, 3], false)),
     ("Florida", (6, 2, [0, 3], false)), ("New York", (6, 2, [0, 3], false))]

/-- the tracked facts about the counterexample trajectory after k ticks. -/
def C5Fact (us : UnitedStates) (k : ℕ) : Prop :=
  us.month = monthAt k ∧ us.year = yearAt k ∧
  us.rng.stream = c5Stream ∧ us.rng.pos = posSeq k ∧
  us.inflation = inflAt k ∧ QuietShape us ∧
  us.event_manager = defaultEventManager ∧
  us.recent_events = []

/-- the per-state part of the amended clamping invariant: governor and
legislature approval in [0, 100] and state inflation in [0, 20]. -/
def StOK (st : State) : Prop :=
  (0 ≤ st.approval_governor ∧ st.approval_governor ≤ 100) ∧
  (0 ≤ st.approval_legislature ∧ st.approval_legislature ≤ 100) ∧
  (0 ≤ st.inflation ∧ st.inflation ≤ 20)

/-- the amended clamping invariant: national unemployment in [2.5, 20],
national inflation in [0, 20], every approval field in [0, 100], state
inflation in [0, 20]. -/
def BoundsInv (us : UnitedStates) : Prop :=
  (5/2 ≤ us.unemployment ∧ us.unemployment ≤ 20) ∧
  (0 ≤ us.inflation ∧ us.inflation ≤ 20) ∧
  (0 ≤ us.opinion.approval_president ∧ us.opinion.approval_president ≤ 100) ∧
  (0 ≤ us.opinion.approval_congress ∧ us.opinion.approval_congress ≤ 100) ∧
  (∀ pr ∈ us.parties, 0 ≤ pr.2.national_approval ∧ pr.2.national_approval ≤ 100) ∧
  (∀ pr ∈ us.states, StOK pr.2)

/-- the core-field relation between a state and the result of one quiet
tick step: the step consumed d draws from the same stream and preserved
the calendar, the national inflation, the state names and shapes, the
event catalog and the recent-event window. -/
def QCore (us v : UnitedStates) (d : ℕ) : Prop :=
  v.rng.stream = us.rng.stream ∧ v.rng.pos = us.rng.pos + d ∧
  v.inflation = us.inflation ∧ v.month = us.month ∧ v.year = us.year ∧
  shapeMap v.states = shapeMap us.states ∧
  v.event_manager = us.event_manager ∧
  v.recent_events = us.recent_events

/-- the extra November draws of a year, with the default four-state
six-district class-[0,3] shape. -/
def electionDraws (y : ℕ) : ℕ :=
  (if y % 2 = 0 then 48 else 0) +
  (if y % 6 = 0 ∨ y % 6 = 3 then 8 else 0) +
  (if y % 4 = 0 then 2 else 0)

/-- total house districts across a state map. -/
def districtCount (l : List (String × State)) : ℕ :=
  (l.map (fun pr => pr.2.house_districts.length)).sum

/-- structural hypotheses under which the November lazy initialiser is a
no-op for every state. -/
def ShapeOK (us : UnitedStates) : Prop :=
  ∀ pr ∈ us.states, pr.2.voter_cohorts ≠ [] ∧ pr.2.house_districts ≠ [] ∧
    pr.2.senate_seats.length = 2 ∧ pr.2.senate_classes.length = 2

/-- Democrat seats held across all states' senate seat lists. -/
def seatCountD (l : List (String × State)) : ℕ :=
  (l.map (fun pr => (pr.2.senate_seats.filter (fun s => s = PartyID.DEMOCRAT)).length)).sum

/-- Republican seats held across all states' senate seat lists. -/
def seatCountR (l : List (String × State)) : ℕ :=
  (l.map (fun pr => (pr.2.senate_seats.filter (fun s => s = PartyID.REPUBLICAN)).length)).sum

/-- what a senate election cycle may do to the state list, entry by
entry: names and classes unchanged, seats whose class misses the cycle
retained, seats whose class matches re-contested to a major party. -/
def SeatsOutcome (cycle : ℕ) (before after : List (String × State)) : Prop :=
  List.Forall₂ (fun prB prA =>
    prA.1 = prB.1 ∧ prA.2.senate_classes = prB.2.senate_classes ∧
    (∀ j, j < 2 → prB.2.senate_classes.getD j 0 ≠ cycle →
      prA.2.senate_seats.getD j .INDEPENDENT = prB.2.senate_seats.getD j .INDEPENDENT) ∧
    (prB.2.senate_seats.length = 2 →
      ∀ j, j < 2 → prB.2.senate_classes.getD j 0 = cycle →
        prA.2.senate_seats.getD j .INDEPENDENT ≠ .INDEPENDENT)) before after

/-- the entrywise relation a house race induces on the state list: only
the districts change. -/
def HouseKeeps (before after : List (String × State)) : Prop :=
  List.Forall₂ (fun prB prA =>
    prA.1 = prB.1 ∧ prA.2.senate_seats = prB.2.senate_seats ∧
    prA.2.senate_classes = prB.2.senate_classes) before after

/-! ## Theorems -/

theorem clamp_le (lo hi x : ℚ) (h : lo ≤ hi) : clamp lo hi x ≤ hi :=
  max_le h (min_le_left hi x)

theorem le_clamp (lo hi x : ℚ) : lo ≤ clamp lo hi x := le_max_left _ _

theorem clamp_mem (lo hi x : ℚ) (h : lo ≤ hi) :
    lo ≤ clamp lo hi x ∧ clamp lo hi x ≤ hi :=
  ⟨le_clamp lo hi x, clamp_le lo hi x h⟩

theorem clamp_eq_of_mem (lo hi x : ℚ) (h1 : lo ≤ x) (h2 : x ≤ hi) :
    clamp lo hi x = x := by
  unfold clamp
  rw [min_eq_right h2, max_eq_right h1]

theorem PartyID.ofValue_value (p : PartyID) : PartyID.ofValue p.value = some p := by
  cases p <;> rfl

theorem PartyID.value_ne_empty (p : PartyID) : p.value ≠ "" := by
  cases p <;> decide

theorem Rng.uniform_stream (r : Rng) (a b : ℚ) :
    (r.uniform a b).2.stream = r.stream := rfl

theorem Rng.uniform_snd (r : Rng) (a b : ℚ) :
    (r.uniform a b).2 = ⟨r.stream, r.pos + 1⟩ := rfl

theorem Rng.random_snd (r : Rng) :
    r.random.2 = ⟨r.stream, r.pos + 1⟩ := rfl

theorem lookupA_setA_self {α β : Type} [DecidableEq α]
    (l : List (α × β)) (k : α) (v : β) (h : lookupA l k = some v) :
    setA l k v = l := by
  induction l with
  | nil => simp [lookupA] at h
  | cons hd tl ih =>
    by_cases hk : hd.1 = k
    · unfold lookupA at h
      rw [if_pos hk] at h
      cases h
      cases hd
      unfold setA
      simp_all
    · unfold lookupA at h
      rw [if_neg hk] at h
      cases hd
      unfold setA
      simp only at hk
      rw [if_neg hk]
      rw [ih h]

theorem mem_setA {α β : Type} [DecidableEq α]
    (l : List (α × β)) (k : α) (v : β) (x : α × β) (h : x ∈ setA l k v) :
    x = (k, v) ∨ x ∈ l := by
  induction l with
  | nil => simp [setA] at h; simp [h]
  | cons hd tl ih =>
    cases hd with
    | mk a b =>
      unfold setA at h
      by_cases hk : a = k
      · rw [if_pos hk] at h
        rcases List.mem_cons.1 h with h1 | h1
        · left; rw [h1, hk]
        · right; exact List.mem_cons_of_mem _ h1
      · rw [if_neg hk] at h
        rcases List.mem_cons.1 h with h1 | h1
        · right; rw [h1]; exact List.mem_cons_self _ _
        · rcases ih h1 with h2 | h2
          · left; exact h2
          · right; exact List.mem_cons_of_mem _ h2

theorem setA_map_fst {α β : Type} [DecidableEq α]
    (l : List (α × β)) (k : α) (v : β) (h : (lookupA l k).isSome) :
    (setA l k v).map Prod.fst = l.map Prod.fst := by
  induction l with
  | nil => simp [lookupA] at h
  | cons hd tl ih =>
    cases hd with
    | mk a b =>
      unfold setA
      by_cases hk : a = k
      · rw [if_pos hk]; simp
      · rw [if_neg hk]
        unfold lookupA at h
        simp only at hk
        rw [if_neg hk] at h
        simp [ih h]

theorem mem_modifyA {α β : Type} [DecidableEq α] (f : β → β)
    (l : List (α × β)) (k : α) (x : α × β) (h : x ∈ modifyA f l k) :
    x ∈ l ∨ ∃ y ∈ l, x = (y.1, f y.2) := by
  induction l with
  | nil => simp [modifyA] at h
  | cons hd tl ih =>
    cases hd with
    | mk a b =>
      unfold modifyA at h
      by_cases hk : a = k
      · rw [if_pos hk] at h
        rcases List.mem_cons.1 h with h1 | h1
        · right; exact ⟨(a, b), List.mem_cons_self _ _, by simp [h1]⟩
        · left; exact List.mem_cons_of_mem _ h1
      · rw [if_neg hk] at h
        rcases List.mem_cons.1 h with h1 | h1
        · left; rw [h1]; exact List.mem_cons_self _ _
        · rcases ih h1 with h2 | h2
          · left; exact List.mem_cons_of_mem _ h2
          · right
            rcases h2 with ⟨y, hy, hxy⟩
            exact ⟨y, List.mem_cons_of_mem _ hy, hxy⟩

theorem modifyA_map_fst {α β : Type} [DecidableEq α] (f : β → β)
    (l : List (α × β)) (k : α) :
    (modifyA f l k).map Prod.fst = l.map Prod.fst := by
  induction l with
  | nil => rfl
  | cons hd tl ih =>
    cases hd with
    | mk a b =>
      unfold modifyA
      by_cases hk : a = k
      · rw [if_pos hk]; simp
      · rw [if_neg hk]; simp [ih]

theorem lookupA_isSome_of_mem_fst {α β : Type} [DecidableEq α]
    (l : List (α × β)) (k : α) (h : k ∈ l.map Prod.fst) :
    (lookupA l k).isSome := by
  induction l with
  | nil => simp at h
  | cons hd tl ih =>
    cases hd with
    | mk a b =>
      unfold lookupA
      by_cases hk : a = k
      · rw [if_pos hk]; rfl
      · rw [if_neg hk]
        apply ih
        simp at h
        rcases h with h1 | h1
        · exact absurd h1.symm hk
        · simpa using h1

/-- the chain-scheduler accumulates exactly the successful chain_event
pairs and leaves the underlying stream unchanged. -/
theorem processConsequenceList_spec (cs : List Consequence)
    (pending : List (String × ℕ)) (rng : Rng) :
    (processConsequenceList cs pending rng).1 =
      pending ++ chainScheduledSpec rng.stream rng.pos cs := by
  induction cs generalizing pending rng with
  | nil => simp [processConsequenceList, chainScheduledSpec]
  | cons c t ih =>
    cases c with
    | chain_event k d prob =>
      unfold processConsequenceList chainScheduledSpec Rng.random
      by_cases h : rng.stream rng.pos < prob
      · rw [if_pos h, if_pos h, ih]
        simp
      · rw [if_neg h, if_neg h, ih]
    | other =>
      unfold processConsequenceList chainScheduledSpec
      exact ih pending rng

/-- C1: processing the consequences of a fired event appends to
pending_events exactly the (event_key, delay_months) pair of every
chain_event descriptor whose probability draw succeeds; in particular the
test scenario (follow-up "x", delay 3, probability 1) records ("x", 3). -/
theorem c1_chain_event_scheduling :
    (∀ (emp : EventManagerP) (ev : EventC) (rng : Rng),
        ((emp.process_event_consequences ev rng).1).pending_events =
          emp.pending_events ++ chainScheduledSpec rng.stream rng.pos ev.consequences) ∧
    (chainEMP.process_event_consequences chainBase ⟨halfStream, 0⟩).1.pending_events
        = [("x", 3)] := by
  constructor
  · intro emp ev rng
    unfold EventManagerP.process_event_consequences
    simpa using processConsequenceList_spec ev.consequences emp.pending_events rng
  · decide

/-- C7: the passage probability used by attempt_pass_policy equals
0.5 + (popularity − 50)/100 + alignment + president_bonus + court_risk
clamped to [0.05, 0.95], with alignment +0.15 exactly when the sponsor
controls the House or the Senate (else −0.05), president_bonus +0.10
exactly when the sponsor is the president's party, court_risk −0.05
exactly when the inflation effect exceeds 0.7 and the court lean differs
from the sponsor; the pass/fail decision draws one sample against exactly
this probability. -/
theorem c7_pass_probability_spec (us : UnitedStates) (policy : Policy) :
    us.pass_probability policy = spec_pass_probability us policy ∧
    ((us.attempt_pass_policy policy).1 = true ↔
      us.rng.stream us.rng.pos < us.pass_probability policy) := by
  refine ⟨rfl, ?_⟩
  by_cases h : us.rng.stream us.rng.pos < us.pass_probability policy
  · simp [UnitedStates.attempt_pass_policy, Rng.random, h]
  · simp [UnitedStates.attempt_pass_policy, Rng.random, h]

/-- C10: snapshot is a pure read: it returns the root unchanged (every
field, including the RNG, so no draw is consumed), and its payload is the
straight projection of the fields. -/
theorem c10_snapshot_frame (us : UnitedStates) (last_logs : ℕ) :
    (us.snapshot last_logs).2 = us ∧
    (us.snapshot last_logs).2.rng = us.rng ∧
    (us.snapshot last_logs).1.time_year = us.year ∧
    (us.snapshot last_logs).1.time_month = us.month ∧
    (us.snapshot last_logs).1.macro_growth = us.growth ∧
    (us.snapshot last_logs).1.macro_unemployment = us.unemployment ∧
    (us.snapshot last_logs).1.macro_inflation = us.inflation ∧
    (us.snapshot last_logs).1.president_party = us.president.party.value ∧
    (us.snapshot last_logs).1.budget_revenue = us.budget.revenue ∧
    (us.snapshot last_logs).1.budget_deficit = us.budget.deficit ∧
    (us.snapshot last_logs).1.parties =
      us.parties.map (fun pr => (pr.1.value, pr.2.national_approval)) ∧
    (us.snapshot last_logs).1.log_tail = logTail last_logs us.log :=
  ⟨rfl, rfl, rfl, rfl, rfl, rfl, rfl, rfl, rfl, rfl, rfl, rfl⟩

/-- growth after a successful national policy attempt gains exactly the
policy's effect_growth, unclamped. -/
theorem attempt_pass_policy_growth_of_success (us : UnitedStates) (p : Policy)
    (h : (us.attempt_pass_policy p).1 = true) :
    (us.attempt_pass_policy p).2.growth = us.growth + p.effect_growth := by
  by_cases hc : us.rng.stream us.rng.pos < us.pass_probability p
  · simp [UnitedStates.attempt_pass_policy, Rng.random, hc, UnitedStates.log_event]
  · simp [UnitedStates.attempt_pass_policy, Rng.random, hc] at h

/-- C9: with the RNG forced so that both attempts succeed, two sequential
policies with effect_growth 0.01 and 0.02 raise growth by exactly 0.03
over the pre-attempt value: the growth delta is added unclamped, so
effects accumulate additively. -/
theorem c9_policy_growth_accumulates (us : UnitedStates) (p1 p2 : Policy)
    (he1 : p1.effect_growth = 1/100) (he2 : p2.effect_growth = 2/100)
    (hs1 : (us.attempt_pass_policy p1).1 = true)
    (hs2 : (((us.attempt_pass_policy p1).2).attempt_pass_policy p2).1 = true) :
    (((us.attempt_pass_policy p1).2).attempt_pass_policy p2).2.growth
      = us.growth + 3/100 := by
  have g1 := attempt_pass_policy_growth_of_success us p1 hs1
  have g2 := attempt_pass_policy_growth_of_success (us.attempt_pass_policy p1).2 p2 hs2
  rw [g2, g1, he1, he2]
  ring

/-- witness for C9 at the all-zero-draw fixture root. -/
theorem c9_policy_growth_accumulates_witness :
    fixP1.effect_growth = 1/100 ∧ fixP2.effect_growth = 2/100 ∧
    (fixUS0.attempt_pass_policy fixP1).1 = true ∧
    (((fixUS0.attempt_pass_policy fixP1).2).attempt_pass_policy fixP2).1 = true ∧
    (((fixUS0.attempt_pass_policy fixP1).2).attempt_pass_policy fixP2).2.growth
      = fixUS0.growth + 3/100 :=
  ⟨by decide, by decide, by decide, by decide,
   c9_policy_growth_accumulates fixUS0 fixP1 fixP2 (by decide) (by decide)
     (by decide) (by decide)⟩

/-- the failed national attempt leaves everything unchanged except one
appended "failed" log line (and the one consumed draw). -/
theorem attempt_pass_policy_fail_frame (us : UnitedStates) (p : Policy)
    (h : (us.attempt_pass_policy p).1 = false) :
    (us.attempt_pass_policy p).2 =
      { us with rng := ⟨us.rng.stream, us.rng.pos + 1⟩,
                log := us.log ++ ["[" ++ toString us.year ++ "-" ++ pad2 us.month ++ "] " ++
                                  ("Policy failed: " ++ p.title)] } := by
  by_cases hc : us.rng.stream us.rng.pos < us.pass_probability p
  · simp [UnitedStates.attempt_pass_policy, Rng.random, hc] at h
  · simp [UnitedStates.attempt_pass_policy, Rng.random, hc, UnitedStates.log_event]

/-- the successful national attempt applies the whole effect set in one
record update. -/
theorem attempt_pass_policy_success_shot (us : UnitedStates) (p : Policy)
    (h : (us.attempt_pass_policy p).1 = true) :
    (us.attempt_pass_policy p).2 =
      (let u2 := Rng.uniform ⟨us.rng.stream, us.rng.pos + 1⟩ (-5) 5
       let o1 := us.opinion.update_issue p u2.1
       let o2 := if p.sponsor_party = us.president.party then
           { o1 with approval_president := clamp 0 100 (o1.approval_president + 1) }
         else o1
       { us with growth := us.growth + p.effect_growth,
                 unemployment := clamp (5/2) 20 (us.unemployment + p.effect_unemployment),
                 inflation := clamp 0 20 (us.inflation + p.effect_inflation),
                 budget := { us.budget with
                               spending := us.budget.spending + max 0 p.cost,
                               revenue := us.budget.revenue + max 0 (-p.cost) },
                 opinion := o2, rng := u2.2,
                 log := us.log ++ ["[" ++ toString us.year ++ "-" ++ pad2 us.month ++ "] " ++
                                   ("Policy passed: " ++ p.title)] }) := by
  by_cases hc : us.rng.stream us.rng.pos < us.pass_probability p
  · simp [UnitedStates.attempt_pass_policy, Rng.random, hc, UnitedStates.log_event]
  · simp [UnitedStates.attempt_pass_policy, Rng.random, hc] at h

/-- the failed state-level attempt equally mutates nothing but the log. -/
theorem attempt_pass_state_policy_fail_frame (us : UnitedStates) (name : String)
    (st : State) (p : Policy) (hst : lookupA us.states name = some st)
    (h : (us.attempt_pass_state_policy name p).1 = false) :
    (us.attempt_pass_state_policy name p).2 =
      { us with rng := ⟨us.rng.stream, us.rng.pos + 1⟩,
                log := us.log ++ ["[" ++ toString us.year ++ "-" ++ pad2 us.month ++ "] " ++
                                  (st.name ++ " policy failed: " ++ p.title)] } := by
  by_cases hc : us.rng.stream us.rng.pos < state_policy_probability st p
  · simp [UnitedStates.attempt_pass_state_policy, hst, Rng.random, hc] at h
  · simp [UnitedStates.attempt_pass_state_policy, hst, Rng.random, hc, UnitedStates.log_event]

/-- the successful state-level attempt applies its whole effect set in one
record update. -/
theorem attempt_pass_state_policy_success_shot (us : UnitedStates) (name : String)
    (st : State) (p : Policy) (hst : lookupA us.states name = some st)
    (h : (us.attempt_pass_state_policy name p).1 = true) :
    (us.attempt_pass_state_policy name p).2 =
      (let st' :=
        { st with gdp := st.gdp * (1 + p.effect_growth),
                  unemployment := clamp (5/2) 20 (st.unemployment + p.effect_unemployment),
                  inflation := clamp 0 20 (st.inflation + p.effect_inflation),
                  budget_spending :=
                    if p.cost ≥ 0 then st.budget_spending + p.cost else st.budget_spending,
                  budget_revenue :=
                    if p.cost ≥ 0 then st.budget_revenue else st.budget_revenue + -p.cost,
                  approval_governor :=
                    if p.sponsor_party = st.governor_party then
                      clamp 0 100 (st.approval_governor + 8/10)
                    else st.approval_governor,
                  approval_legislature := clamp 0 100 (st.approval_legislature + 4/10) }
       let u := Rng.uniform ⟨us.rng.stream, us.rng.pos + 1⟩ (-2) 2
       { us with states := setA us.states name st',
                 opinion := us.opinion.update_issue p u.1, rng := u.2,
                 log := us.log ++ ["[" ++ toString us.year ++ "-" ++ pad2 us.month ++ "] " ++
                                   (st.name ++ " policy passed: " ++ p.title)] }) := by
  by_cases hc : us.rng.stream us.rng.pos < state_policy_probability st p
  · simp [UnitedStates.attempt_pass_state_policy, hst, Rng.random, hc, UnitedStates.log_event]
  · simp [UnitedStates.attempt_pass_state_policy, hst, Rng.random, hc] at h

/-- C8: on failure both policy variants mutate nothing but one appended
"failed" log line (macro, budget, opinion, party, and state fields all
unchanged); on success the full effect set is applied in a single update
with no partial application. -/
theorem c8_policy_failure_frame (us : UnitedStates) (name : String) (st : State)
    (p : Policy) (hst : lookupA us.states name = some st) :
    ((us.attempt_pass_policy p).1 = false →
      (us.attempt_pass_policy p).2 =
        { us with rng := ⟨us.rng.stream, us.rng.pos + 1⟩,
                  log := us.log ++ ["[" ++ toString us.year ++ "-" ++ pad2 us.month ++ "] " ++
                                    ("Policy failed: " ++ p.title)] }) ∧
    ((us.attempt_pass_policy p).1 = true →
      (us.attempt_pass_policy p).2 =
        (let u2 := Rng.uniform ⟨us.rng.stream, us.rng.pos + 1⟩ (-5) 5
         let o1 := us.opinion.update_issue p u2.1
         let o2 := if p.sponsor_party = us.president.party then
             { o1 with approval_president := clamp 0 100 (o1.approval_president + 1) }
           else o1
         { us with growth := us.growth + p.effect_growth,
                   unemployment := clamp (5/2) 20 (us.unemployment + p.effect_unemployment),
                   inflation := clamp 0 20 (us.inflation + p.effect_inflation),
                   budget := { us.budget with
                                 spending := us.budget.spending + max 0 p.cost,
                                 revenue := us.budget.revenue + max 0 (-p.cost) },
                   opinion := o2, rng := u2.2,
                   log := us.log ++ ["[" ++ toString us.year ++ "-" ++ pad2 us.month ++ "] " ++
                                     ("Policy passed: " ++ p.title)] })) ∧
    ((us.attempt_pass_state_policy name p).1 = false →
      (us.attempt_pass_state_policy name p).2 =
        { us with rng := ⟨us.rng.stream, us.rng.pos + 1⟩,
                  log := us.log ++ ["[" ++ toString us.year ++ "-" ++ pad2 us.month ++ "] " ++
                                    (st.name ++ " policy failed: " ++ p.title)] }) ∧
    ((us.attempt_pass_state_policy name p).1 = true →
      (us.attempt_pass_state_policy name p).2 =
        (let st' :=
          { st with gdp := st.gdp * (1 + p.effect_growth),
                    unemployment := clamp (5/2) 20 (st.unemployment + p.effect_unemployment),
                    inflation := clamp 0 20 (st.inflation + p.effect_inflation),
                    budget_spending :=
                      if p.cost ≥ 0 then st.budget_spending + p.cost else st.budget_spending,
                    budget_revenue :=
                      if p.cost ≥ 0 then st.budget_revenue else st.budget_revenue + -p.cost,
                    approval_governor :=
                      if p.sponsor_party = st.governor_party then
                        clamp 0 100 (st.approval_governor + 8/10)
                      else st.approval_governor,
                    approval_legislature := clamp 0 100 (st.approval_legislature + 4/10) }
         let u := Rng.uniform ⟨us.rng.stream, us.rng.pos + 1⟩ (-2) 2
         { us with states := setA us.states name st',
                   opinion := us.opinion.update_issue p u.1, rng := u.2,
                   log := us.log ++ ["[" ++ toString us.year ++ "-" ++ pad2 us.month ++ "] " ++
                                     (st.name ++ " policy passed: " ++ p.title)] })) :=
  ⟨attempt_pass_policy_fail_frame us p,
   attempt_pass_policy_success_shot us p,
   attempt_pass_state_policy_fail_frame us name st p hst,
   attempt_pass_state_policy_success_shot us name st p hst⟩

/-- witness for C8 at the minimal fixture root. -/
theorem c8_policy_failure_frame_witness :
    lookupA fixUS.states "Alpha" = some fixState ∧
    ((fixUS.attempt_pass_policy fixP1).1 = false →
      (fixUS.attempt_pass_policy fixP1).2 =
        { fixUS with rng := ⟨fixUS.rng.stream, fixUS.rng.pos + 1⟩,
                     log := fixUS.log ++ ["[" ++ toString fixUS.year ++ "-" ++ pad2 fixUS.month ++ "] " ++
                                          ("Policy failed: " ++ fixP1.title)] }) :=
  ⟨by decide, fun h => (c8_policy_failure_frame fixUS "Alpha" fixState fixP1 (by decide)).1 h⟩

theorem chamberControl_self (d : ℕ) : chamberControl d d = PartyID.DEMOCRAT := by
  simp [chamberControl]

theorem update_approvals_congress (us : UnitedStates) (a b : PartyID) :
    (us.update_approvals_after_congress_results a b).congress = us.congress := rfl

theorem presidentStep_congress (us : UnitedStates) :
    (us.presidentStep).congress = us.congress := rfl

theorem senateStep_house_control (us : UnitedStates) :
    (us.senateStep).congress.house_control = us.congress.house_control := by
  unfold UnitedStates.senateStep
  rcases h : senateStates us (us.year % 6) us.states us.rng with ⟨sts, dem, rep, rng'⟩
  simp only [h, UnitedStates.log_event]
  split <;> rfl

theorem houseStep_house_control (us : UnitedStates) :
    (us.houseStep).congress.house_control =
      chamberControl (us.houseTally).1 (us.houseTally).2 := by
  unfold UnitedStates.houseStep UnitedStates.houseTally
  rcases h : houseStates us us.states us.rng with ⟨sts, dem, rep, rng'⟩
  simp [h, UnitedStates.log_event]

theorem houseStep_senate_control (us : UnitedStates) :
    (us.houseStep).congress.senate_control = us.congress.senate_control := by
  unfold UnitedStates.houseStep
  rcases h : houseStates us us.states us.rng with ⟨sts, dem, rep, rng'⟩
  simp [h, UnitedStates.log_event]

theorem senateStep_senate_control (us : UnitedStates) :
    (us.senateStep).congress.senate_control =
      (if (us.senateTally).1 ≠ 0 ∨ (us.senateTally).2 ≠ 0 then
        chamberControl (us.senateTally).1 (us.senateTally).2
       else us.congress.senate_control) := by
  unfold UnitedStates.senateStep UnitedStates.senateTally
  rcases h : senateStates us (us.year % 6) us.states us.rng with ⟨sts, dem, rep, rng'⟩
  simp only [h, UnitedStates.log_event]
  split <;> rfl

theorem maybe_run_elections_eq (us : UnitedStates) (hm : us.month = 11) :
    us.maybe_run_elections =
      ((if us.year % 4 = 0 then (us.electionPrelude.senateStep).presidentStep
        else us.electionPrelude.senateStep).update_approvals_after_congress_results
        us.congress.house_control us.congress.senate_control) := by
  unfold UnitedStates.maybe_run_elections
  simp [hm]

theorem maybe_run_elections_house_control (us : UnitedStates) (hm : us.month = 11) :
    (us.maybe_run_elections).congress.house_control =
      (us.electionPrelude).congress.house_control := by
  rw [maybe_run_elections_eq us hm]
  by_cases h4 : us.year % 4 = 0 <;>
    simp [h4, update_approvals_congress, presidentStep_congress, senateStep_house_control]

theorem maybe_run_elections_senate_control (us : UnitedStates) (hm : us.month = 11) :
    (us.maybe_run_elections).congress.senate_control =
      (us.electionPrelude.senateStep).congress.senate_control := by
  rw [maybe_run_elections_eq us hm]
  by_cases h4 : us.year % 4 = 0 <;>
    simp [h4, update_approvals_congress, presidentStep_congress]

theorem electionPrelude_house_control_even (us : UnitedStates)
    (heven : us.year % 2 = 0) :
    (us.electionPrelude).congress.house_control =
      chamberControl (us.electionInit.houseTally).1 (us.electionInit.houseTally).2 := by
  unfold UnitedStates.electionPrelude
  simp [heven, houseStep_house_control]

/-- C6 (amended): chamber control is decided by the `>=` comparison that
favours Democrat: an exactly tied house seat tally yields Democrat
control, and an exactly tied, nonzero senate seat total yields Democrat
control.  (When both senate totals are zero the source skips the
recompute and control is left as it was, which is the one correction to
the claim.) -/
theorem c6_democrat_tie_break (us : UnitedStates) (hm : us.month = 11) :
    (us.year % 2 = 0 →
      (us.electionInit.houseTally).1 = (us.electionInit.houseTally).2 →
      (us.maybe_run_elections).congress.house_control = PartyID.DEMOCRAT) ∧
    ((us.electionPrelude.senateTally).1 = (us.electionPrelude.senateTally).2 →
      (us.electionPrelude.senateTally).1 ≠ 0 →
      (us.maybe_run_elections).congress.senate_control = PartyID.DEMOCRAT) ∧
    (∀ d r : ℕ, d = r → chamberControl d r = PartyID.DEMOCRAT) := by
  refine ⟨?_, ?_, ?_⟩
  · intro heven htie
    rw [maybe_run_elections_house_control us hm,
        electionPrelude_house_control_even us heven, htie]
    exact chamberControl_self _
  · intro htie hne
    rw [maybe_run_elections_senate_control us hm,
        senateStep_senate_control]
    rw [if_pos (Or.inl hne), htie]
    exact chamberControl_self _
  · intro d r h
    rw [h]
    exact chamberControl_self _

/-- witness for C6 at the engineered two-district tie root. -/
theorem c6_democrat_tie_break_witness :
    tieUS.month = 11 ∧
    (tieUS.year % 2 = 0 ∧
      (tieUS.electionInit.houseTally).1 = (tieUS.electionInit.houseTally).2 ∧
      (tieUS.maybe_run_elections).congress.house_control = PartyID.DEMOCRAT) ∧
    ((tieUS.electionPrelude.senateTally).1 = (tieUS.electionPrelude.senateTally).2 ∧
      (tieUS.electionPrelude.senateTally).1 ≠ 0 ∧
      (tieUS.maybe_run_elections).congress.senate_control = PartyID.DEMOCRAT) :=
  ⟨rfl,
   ⟨by decide, by decide,
    (c6_democrat_tie_break tieUS rfl).1 (by decide) (by decide)⟩,
   ⟨by decide, by decide,
    (c6_democrat_tie_break tieUS rfl).2.1 (by decide) (by decide)⟩⟩

/-- counterexample to C6 as stated: in the zero-zero senate case (every
seat Independent, nothing contested) the totals are equal yet control is
not set to Democrat: the source only recomputes when a total is nonzero. -/
theorem c6_democrat_tie_break_counterexample :
    zeroSenUS.month = 11 ∧
    (zeroSenUS.electionPrelude.senateTally).1 =
      (zeroSenUS.electionPrelude.senateTally).2 ∧
    (zeroSenUS.maybe_run_elections).congress.senate_control ≠ PartyID.DEMOCRAT := by
  refine ⟨rfl, by decide, by decide⟩

theorem lookupA_mem {α β : Type} [DecidableEq α]
    (l : List (α × β)) (k : α) (v : β) (h : lookupA l k = some v) : (k, v) ∈ l := by
  induction l with
  | nil => simp [lookupA] at h
  | cons hd tl ih =>
    cases hd with
    | mk a b =>
      unfold lookupA at h
      by_cases hk : a = k
      · rw [if_pos hk] at h
        cases h
        rw [hk]
        exact List.mem_cons_self _ _
      · rw [if_neg hk] at h
        exact List.mem_cons_of_mem _ (ih h)

theorem getD_set_ne {α : Type} (l : List α) (i j : ℕ) (a d : α) (hne : i ≠ j) :
    (l.set i a).getD j d = l.getD j d := by
  induction l generalizing i j with
  | nil => simp
  | cons hd tl ih =>
    cases i with
    | zero =>
      cases j with
      | zero => exact absurd rfl hne
      | succ jj => simp
    | succ ii =>
      cases j with
      | zero => simp
      | succ jj =>
        simp only [List.set_cons_succ, List.getD_cons_succ]
        exact ih ii jj (fun e => hne (by rw [e]))

theorem getD_set_self_lt {α : Type} (l : List α) (i : ℕ) (a d : α) (h : i < l.length) :
    (l.set i a).getD i d = a := by
  induction l generalizing i with
  | nil => simp at h
  | cons hd tl ih =>
    cases i with
    | zero => simp
    | succ ii =>
      simp only [List.set_cons_succ, List.getD_cons_succ]
      exact ih ii (by simpa using h)

theorem init_state_noop (us : UnitedStates) (name : String) (h : ShapeOK us) :
    us.init_state_elections_if_missing name = us := by
  unfold UnitedStates.init_state_elections_if_missing
  cases hl : lookupA us.states name with
  | none => rfl
  | some st =>
    obtain ⟨hc, hd, hs, hcl⟩ := h _ (lookupA_mem _ _ _ hl)
    have hs' : ¬(st.senate_seats = [] ∨ st.senate_seats.length ≠ 2) := by
      simp only [hs]
      rintro (e | e)
      · rw [e] at hs; exact absurd hs (by decide)
      · exact e rfl
    have hcl' : ¬(st.senate_classes = [] ∨ st.senate_classes.length ≠ 2) := by
      rintro (e | e)
      · rw [e] at hcl; exact absurd hcl (by decide)
      · exact e hcl
    have e1 : ({ st with voter_cohorts := st.voter_cohorts } : State) = st := rfl
    simp only [if_neg hc, if_neg hd, if_neg hs', if_neg hcl', e1]
    rw [lookupA_setA_self us.states name st hl]

theorem electionInit_noop (us : UnitedStates) (h : ShapeOK us) :
    us.electionInit = us := by
  unfold UnitedStates.electionInit
  suffices h2 : ∀ names : List String,
      names.foldl (fun u n => u.init_state_elections_if_missing n) us = us from h2 _
  intro names
  induction names with
  | nil => rfl
  | cons n t ih =>
    simp only [List.foldl_cons, init_state_noop us n h]
    exact ih

theorem senateSeatUpdate_ne (usO : UnitedStates) (st : State) (cycle i : ℕ)
    (seats : List PartyID) (rng : Rng) (h : st.senate_classes.getD i 0 ≠ cycle) :
    senateSeatUpdate usO st cycle i seats rng = (seats, rng) := by
  unfold senateSeatUpdate
  rw [if_neg h]

theorem senateSeatUpdate_eq (usO : UnitedStates) (st : State) (cycle i : ℕ)
    (seats : List PartyID) (rng : Rng) (h : st.senate_classes.getD i 0 = cycle) :
    ∃ w rng', (w = PartyID.DEMOCRAT ∨ w = PartyID.REPUBLICAN) ∧
      senateSeatUpdate usO st cycle i seats rng = (seats.set i w, rng') := by
  simp only [senateSeatUpdate, h, if_pos]
  refine ⟨_, _, ?_, rfl⟩
  split
  · left; rfl
  · right; rfl

theorem senateSeatUpdate_len (usO : UnitedStates) (st : State) (cycle i : ℕ)
    (seats : List PartyID) (rng : Rng) :
    (senateSeatUpdate usO st cycle i seats rng).1.length = seats.length := by
  unfold senateSeatUpdate
  split
  · simp
  · rfl

/-- the two seat updates of one state: seats off the cycle are retained,
seats on the cycle become a major party (when the seat list has its
invariant length 2). -/
theorem senateState_seats (usO : UnitedStates) (st : State) (cycle : ℕ) (rng : Rng) :
    (∀ j, j < 2 → st.senate_classes.getD j 0 ≠ cycle →
      ((senateSeatUpdate usO st cycle 1
          (senateSeatUpdate usO st cycle 0 st.senate_seats rng).1
          (senateSeatUpdate usO st cycle 0 st.senate_seats rng).2).1.getD j .INDEPENDENT
        = st.senate_seats.getD j .INDEPENDENT)) ∧
    (st.senate_seats.length = 2 →
      ∀ j, j < 2 → st.senate_classes.getD j 0 = cycle →
      ((senateSeatUpdate usO st cycle 1
          (senateSeatUpdate usO st cycle 0 st.senate_seats rng).1
          (senateSeatUpdate usO st cycle 0 st.senate_seats rng).2).1.getD j .INDEPENDENT
        ≠ .INDEPENDENT)) := by
  by_cases c0 : st.senate_classes.getD 0 0 = cycle
  · obtain ⟨w0, rng0, hw0, he0⟩ := senateSeatUpdate_eq usO st cycle 0 st.senate_seats rng c0
    by_cases c1 : st.senate_classes.getD 1 0 = cycle
    · obtain ⟨w1, rng1, hw1, he1⟩ :=
        senateSeatUpdate_eq usO st cycle 1 (st.senate_seats.set 0 w0) rng0 c1
      rw [he0]
      simp only [he1]
      constructor
      · intro j hj hne
        interval_cases j
        · exact absurd c0 hne
        · exact absurd c1 hne
      · intro hlen j hj _
        have hlen0 : (st.senate_seats.set 0 w0).length = 2 := by simp [hlen]
        interval_cases j
        · rw [getD_set_ne _ 1 0 _ _ (by decide),
              getD_set_self_lt _ 0 _ _ (by rw [hlen]; decide)]
          rcases hw0 with h | h <;> rw [h] <;> decide
        · rw [getD_set_self_lt _ 1 _ _ (by rw [hlen0]; decide)]
          rcases hw1 with h | h <;> rw [h] <;> decide
    · rw [he0, senateSeatUpdate_ne usO st cycle 1 _ _ c1]
      constructor
      · intro j hj hne
        interval_cases j
        · exact absurd c0 hne
        · exact getD_set_ne _ 0 1 _ _ (by decide)
      · intro hlen j hj hc
        interval_cases j
        · rw [getD_set_self_lt _ 0 _ _ (by rw [hlen]; decide)]
          rcases hw0 with h | h <;> rw [h] <;> decide
        · exact absurd hc c1
  · rw [senateSeatUpdate_ne usO st cycle 0 _ _ c0]
    by_cases c1 : st.senate_classes.getD 1 0 = cycle
    · obtain ⟨w1, rng1, hw1, he1⟩ :=
        senateSeatUpdate_eq usO st cycle 1 st.senate_seats rng c1
      simp only [he1]
      constructor
      · intro j hj hne
        interval_cases j
        · exact getD_set_ne _ 1 0 _ _ (by decide)
        · exact absurd c1 hne
      · intro hlen j hj hc
        interval_cases j
        · exact absurd hc c0
        · rw [getD_set_self_lt _ 1 _ _ (by rw [hlen]; decide)]
          rcases hw1 with h | h <;> rw [h] <;> decide
    · rw [senateSeatUpdate_ne usO st cycle 1 _ _ c1]
      constructor
      · intro j hj hne
        rfl
      · intro hlen j hj hc
        interval_cases j
        · exact absurd hc c0
        · exact absurd hc c1

theorem senateStates_outcome (usO : UnitedStates) (cycle : ℕ)
    (l : List (String × State)) (rng : Rng) :
    SeatsOutcome cycle l (senateStates usO cycle l rng).1 := by
  induction l generalizing rng with
  | nil => exact List.Forall₂.nil
  | cons hd t ih =>
    cases hd with
    | mk n st =>
      unfold senateStates
      refine List.Forall₂.cons ?_ (ih _)
      obtain ⟨hret, hcon⟩ := senateState_seats usO st cycle rng
      exact ⟨rfl, rfl, hret, hcon⟩

theorem senateStates_no_contest (usO : UnitedStates) (cycle : ℕ)
    (l : List (String × State)) (rng : Rng)
    (h : ∀ pr ∈ l, ∀ j, j < 2 → pr.2.senate_classes.getD j 0 ≠ cycle) :
    senateStates usO cycle l rng = (l, seatCountD l, seatCountR l, rng) := by
  induction l generalizing rng with
  | nil => simp [senateStates, seatCountD, seatCountR]
  | cons hd t ih =>
    cases hd with
    | mk n st =>
      have h0 := h (n, st) (List.mem_cons_self _ _) 0 (by decide)
      have h1 := h (n, st) (List.mem_cons_self _ _) 1 (by decide)
      unfold senateStates
      rw [senateSeatUpdate_ne usO st cycle 0 st.senate_seats rng h0]
      simp only
      rw [senateSeatUpdate_ne usO st cycle 1 st.senate_seats rng h1]
      simp only
      rw [ih rng (fun pr hpr => h pr (List.mem_cons_of_mem _ hpr))]
      simp [seatCountD, seatCountR]

theorem houseStates_keeps (usO : UnitedStates) (l : List (String × State)) (rng : Rng) :
    HouseKeeps l (houseStates usO l rng).1 := by
  induction l generalizing rng with
  | nil => exact List.Forall₂.nil
  | cons hd t ih =>
    cases hd with
    | mk n st =>
      unfold houseStates
      exact List.Forall₂.cons ⟨rfl, rfl, rfl⟩ (ih _)

theorem houseKeeps_refl (l : List (String × State)) : HouseKeeps l l :=
  List.forall₂_same.2 (fun _ _ => ⟨rfl, rfl, rfl⟩)

theorem seatsOutcome_comp (cycle : ℕ) (l m n : List (String × State))
    (h1 : HouseKeeps l m) (h2 : SeatsOutcome cycle m n) : SeatsOutcome cycle l n := by
  induction h1 generalizing n with
  | nil =>
    cases h2
    exact List.Forall₂.nil
  | cons hab htl ih =>
    cases h2 with
    | cons hbc htl2 =>
      refine List.Forall₂.cons ?_ (ih _ htl2)
      obtain ⟨hn1, hs1, hc1⟩ := hab
      obtain ⟨hn2, hc2, hret, hcon⟩ := hbc
      refine ⟨hn2.trans hn1, hc2.trans hc1, ?_, ?_⟩
      · intro j hj hne
        rw [hret j hj (by rw [hc1]; exact hne), hs1]
      · intro hlen j hj hc
        exact hcon (by rw [hs1]; exact hlen) j hj (by rw [hc1]; exact hc)

theorem seatCounts_eq (l m : List (String × State)) (h : HouseKeeps l m) :
    seatCountD m = seatCountD l ∧ seatCountR m = seatCountR l := by
  induction h with
  | nil => exact ⟨rfl, rfl⟩
  | cons hab htl ih =>
    obtain ⟨-, hs, -⟩ := hab
    refine ⟨?_, ?_⟩ <;> simp [seatCountD, seatCountR, hs] at ih ⊢ <;>
      simp [seatCountD, seatCountR, ih.1, ih.2]

theorem no_contest_transfer (cycle : ℕ) (l m : List (String × State))
    (h : HouseKeeps l m)
    (hn : ∀ pr ∈ l, ∀ j, j < 2 → pr.2.senate_classes.getD j 0 ≠ cycle) :
    ∀ pr ∈ m, ∀ j, j < 2 → pr.2.senate_classes.getD j 0 ≠ cycle := by
  induction h with
  | nil => exact hn
  | @cons a b l' m' hab htl ih =>
    intro pr hpr j hj
    rcases List.mem_cons.1 hpr with h1 | h1
    · rw [h1, hab.2.2]
      exact hn a (List.mem_cons_self _ _) j hj
    · exact ih (fun x hx => hn x (List.mem_cons_of_mem _ hx)) pr h1 j hj

theorem seatCountD_cons (pr : String × State) (t : List (String × State)) :
    seatCountD (pr :: t) =
      (pr.2.senate_seats.filter (fun s => s = PartyID.DEMOCRAT)).length + seatCountD t := by
  unfold seatCountD
  rw [List.map_cons, List.sum_cons]

theorem seatCountR_cons (pr : String × State) (t : List (String × State)) :
    seatCountR (pr :: t) =
      (pr.2.senate_seats.filter (fun s => s = PartyID.REPUBLICAN)).length + seatCountR t := by
  unfold seatCountR
  rw [List.map_cons, List.sum_cons]

theorem senateStates_counts (usO : UnitedStates) (cycle : ℕ)
    (l : List (String × State)) (rng : Rng) :
    (senateStates usO cycle l rng).2.1 = seatCountD (senateStates usO cycle l rng).1 ∧
    (senateStates usO cycle l rng).2.2.1 = seatCountR (senateStates usO cycle l rng).1 := by
  induction l generalizing rng with
  | nil => exact ⟨rfl, rfl⟩
  | cons hd tl ih =>
    obtain ⟨n, st⟩ := hd
    constructor
    · rw [show (senateStates usO cycle ((n, st) :: tl) rng).1 =
          (n, _) :: (senateStates usO cycle tl _).1 from rfl, seatCountD_cons]
      exact congrArg₂ (· + ·) rfl (ih _).1
    · rw [show (senateStates usO cycle ((n, st) :: tl) rng).1 =
          (n, _) :: (senateStates usO cycle tl _).1 from rfl, seatCountR_cons]
      exact congrArg₂ (· + ·) rfl (ih _).2

theorem senateStep_states (us : UnitedStates) :
    (us.senateStep).states = (senateStates us (us.year % 6) us.states us.rng).1 := by
  unfold UnitedStates.senateStep
  rcases h : senateStates us (us.year % 6) us.states us.rng with ⟨sts, dem, rep, rng'⟩
  simp only [h, UnitedStates.log_event]
  split <;> rfl

theorem houseStep_states (us : UnitedStates) :
    (us.houseStep).states = (houseStates us us.states us.rng).1 := by
  unfold UnitedStates.houseStep
  rcases h : houseStates us us.states us.rng with ⟨sts, dem, rep, rng'⟩
  simp [h, UnitedStates.log_event]

theorem houseStep_year (us : UnitedStates) : (us.houseStep).year = us.year := by
  unfold UnitedStates.houseStep
  rcases h : houseStates us us.states us.rng with ⟨sts, dem, rep, rng'⟩
  simp [h, UnitedStates.log_event]

theorem maybe_run_elections_states (us : UnitedStates) (hm : us.month = 11) :
    (us.maybe_run_elections).states = (us.electionPrelude.senateStep).states := by
  rw [maybe_run_elections_eq us hm]
  by_cases h4 : us.year % 4 = 0
  · rw [if_pos h4]; rfl
  · rw [if_neg h4]; rfl

theorem electionPrelude_eq (us : UnitedStates) (h : ShapeOK us) :
    us.electionPrelude = if us.year % 2 = 0 then us.houseStep else us := by
  unfold UnitedStates.electionPrelude
  rw [electionInit_noop us h]

theorem electionPrelude_year (us : UnitedStates) (h : ShapeOK us) :
    (us.electionPrelude).year = us.year := by
  rw [electionPrelude_eq us h]
  by_cases h2 : us.year % 2 = 0
  · rw [if_pos h2]; exact houseStep_year us
  · rw [if_neg h2]

theorem electionPrelude_senate_control (us : UnitedStates) (h : ShapeOK us) :
    (us.electionPrelude).congress.senate_control = us.congress.senate_control := by
  rw [electionPrelude_eq us h]
  by_cases h2 : us.year % 2 = 0
  · rw [if_pos h2]; exact houseStep_senate_control us
  · rw [if_neg h2]

theorem electionPrelude_keeps (us : UnitedStates) (h : ShapeOK us) :
    HouseKeeps us.states (us.electionPrelude).states := by
  rw [electionPrelude_eq us h]
  by_cases h2 : us.year % 2 = 0
  · rw [if_pos h2, houseStep_states]
    exact houseStates_keeps us us.states us.rng
  · rw [if_neg h2]
    exact houseKeeps_refl us.states

/-- C4 (amended): in a November election check, exactly the senate seats
whose stored class equals year mod 6 are re-contested (they end with a
major party) and every other seat retains its prior holder; the aggregate
senate_control is recomputed from all 2N standing seats (counted after
the cycle's races) whenever at least one of them is held by a major
party, whether or not any seat was contested, and is left unchanged only
when every seat is Independent; in particular with no contest it is
recomputed from the unchanged prior seats.  (The claim's "only when at
least one seat was contested" condition is what the source does not
implement.) -/
theorem c4_senate_contest (us : UnitedStates) (hm : us.month = 11)
    (hsh : ShapeOK us) :
    SeatsOutcome (us.year % 6) us.states (us.maybe_run_elections).states ∧
    ((us.maybe_run_elections).congress.senate_control =
      (if seatCountD (us.maybe_run_elections).states ≠ 0 ∨
          seatCountR (us.maybe_run_elections).states ≠ 0 then
        chamberControl (seatCountD (us.maybe_run_elections).states)
          (seatCountR (us.maybe_run_elections).states)
       else us.congress.senate_control)) ∧
    ((∀ pr ∈ us.states, ∀ j, j < 2 → pr.2.senate_classes.getD j 0 ≠ us.year % 6) →
      (us.maybe_run_elections).congress.senate_control =
        (if seatCountD us.states ≠ 0 ∨ seatCountR us.states ≠ 0 then
          chamberControl (seatCountD us.states) (seatCountR us.states)
         else us.congress.senate_control)) := by
  have hk := electionPrelude_keeps us hsh
  have hyear := electionPrelude_year us hsh
  refine ⟨?_, ?_, ?_⟩
  · have ho : SeatsOutcome ((us.electionPrelude).year % 6)
        (us.electionPrelude).states (us.electionPrelude.senateStep).states := by
      rw [senateStep_states]
      exact senateStates_outcome _ _ _ _
    rw [hyear] at ho
    rw [maybe_run_elections_states us hm]
    exact seatsOutcome_comp _ _ _ _ hk ho
  · have hc := senateStates_counts us.electionPrelude ((us.electionPrelude).year % 6)
      (us.electionPrelude).states (us.electionPrelude).rng
    have hT : (us.electionPrelude).senateTally =
        (seatCountD (senateStates us.electionPrelude ((us.electionPrelude).year % 6)
            (us.electionPrelude).states (us.electionPrelude).rng).1,
         seatCountR (senateStates us.electionPrelude ((us.electionPrelude).year % 6)
            (us.electionPrelude).states (us.electionPrelude).rng).1) := by
      unfold UnitedStates.senateTally
      exact congrArg₂ Prod.mk hc.1 hc.2
    rw [maybe_run_elections_senate_control us hm, maybe_run_elections_states us hm,
        senateStep_senate_control, senateStep_states, electionPrelude_senate_control us hsh,
        hT]
  · intro hnc
    have hnc' := no_contest_transfer _ _ _ hk hnc
    have hcnt := seatCounts_eq _ _ hk
    have htall : (us.electionPrelude).senateTally =
        (seatCountD us.states, seatCountR us.states) := by
      unfold UnitedStates.senateTally
      rw [hyear, senateStates_no_contest _ _ _ _ hnc']
      rw [hcnt.1, hcnt.2]
    rw [maybe_run_elections_senate_control us hm, senateStep_senate_control, htall,
        electionPrelude_senate_control us hsh]

/-- witness for C4 at the November 2025 fixture (cycle 3 contests the
class-3 seat). -/
theorem c4_senate_contest_witness :
    c4WitnessUS.month = 11 ∧ ShapeOK c4WitnessUS ∧
    (SeatsOutcome (c4WitnessUS.year % 6) c4WitnessUS.states
        (c4WitnessUS.maybe_run_elections).states ∧
      ((c4WitnessUS.maybe_run_elections).congress.senate_control =
        (if seatCountD (c4WitnessUS.maybe_run_elections).states ≠ 0 ∨
            seatCountR (c4WitnessUS.maybe_run_elections).states ≠ 0 then
          chamberControl (seatCountD (c4WitnessUS.maybe_run_elections).states)
            (seatCountR (c4WitnessUS.maybe_run_elections).states)
         else c4WitnessUS.congress.senate_control)) ∧
      ((∀ pr ∈ c4WitnessUS.states, ∀ j, j < 2 →
          pr.2.senate_classes.getD j 0 ≠ c4WitnessUS.year % 6) →
        (c4WitnessUS.maybe_run_elections).congress.senate_control =
          (if seatCountD c4WitnessUS.states ≠ 0 ∨ seatCountR c4WitnessUS.states ≠ 0 then
            chamberControl (seatCountD c4WitnessUS.states) (seatCountR c4WitnessUS.states)
           else c4WitnessUS.congress.senate_control))) :=
  ⟨rfl, by unfold ShapeOK; decide, c4_senate_contest c4WitnessUS rfl (by unfold ShapeOK; decide)⟩

/-- counterexample to C4 as stated: a November in which no seat's class
matches the cycle, yet senate_control changes (it is recomputed from the
standing seats because a total is nonzero). -/
theorem c4_senate_contest_counterexample :
    recomputeUS.month = 11 ∧
    (∀ pr ∈ recomputeUS.states, ∀ j, j < 2 →
      pr.2.senate_classes.getD j 0 ≠ recomputeUS.year % 6) ∧
    (recomputeUS.maybe_run_elections).congress.senate_control ≠
      recomputeUS.congress.senate_control :=
  ⟨rfl, by decide, by decide⟩

theorem mapM_map_rt {α β γ : Type} (F : α → β) (g : β → Option γ) (G : α → γ)
    (l : List α) (h : ∀ x ∈ l, g (F x) = some (G x)) :
    (l.map F).mapM g = some (l.map G) := by
  induction l with
  | nil => rfl
  | cons a t ih =>
    simp only [List.map_cons, List.mapM_cons, h a (List.mem_cons_self _ _),
               ih (fun x hx => h x (List.mem_cons_of_mem _ hx))]
    rfl

theorem party_rt (p : PoliticalParty) :
    PoliticalParty.from_dict p.to_dict = some p := by
  cases p with
  | mk n a => simp [PoliticalParty.to_dict, PoliticalParty.from_dict, PartyID.ofValue_value]

theorem opinion_rt (o : PublicOpinion) :
    PublicOpinion.from_dict o.to_dict = o := rfl

theorem leg_rt (l : LegislatureControl) :
    LegislatureControl.from_dict l.to_dict = some l := by
  cases l with
  | mk h s => simp [LegislatureControl.to_dict, LegislatureControl.from_dict,
                    PartyID.ofValue_value]

theorem cohort_rt (c : VoterCohort) :
    VoterCohort.from_dict c.to_dict = some c := by
  cases c with
  | mk n s l t => simp [VoterCohort.to_dict, VoterCohort.from_dict, PartyID.ofValue_value]

theorem district_rt (d : District) :
    District.from_dict d.to_dict = some d := by
  cases d with
  | mk i cs inc tb sw =>
    simp only [District.to_dict, District.from_dict]
    rw [mapM_map_rt VoterCohort.to_dict VoterCohort.from_dict id cs
        (fun x _ => by rw [cohort_rt x]; rfl)]
    simp [PartyID.ofValue_value]

theorem state_rt (st : State) : State.from_dict st.to_dict = some st := by
  cases st with
  | mk n p g u i gp leg ag al br bs tr gs vc hd ss sc =>
    simp only [State.to_dict, State.from_dict]
    rw [mapM_map_rt VoterCohort.to_dict VoterCohort.from_dict id vc
        (fun x _ => by rw [cohort_rt x]; rfl)]
    rw [mapM_map_rt District.to_dict District.from_dict id hd
        (fun x _ => by rw [district_rt x]; rfl)]
    rw [mapM_map_rt PartyID.value PartyID.ofValue id ss
        (fun x _ => by rw [PartyID.ofValue_value x]; rfl)]
    rw [leg_rt]
    simp [PartyID.ofValue_value]

theorem budget_rt (b : FederalBudget) :
    FederalBudget.from_dict b.to_dict = b := rfl

theorem congress_rt (c : Congress) : Congress.from_dict c.to_dict = some c := by
  cases c with
  | mk h s => simp [Congress.to_dict, Congress.from_dict, PartyID.ofValue_value]

theorem president_rt (p : President) : President.from_dict p.to_dict = some p := by
  cases p with
  | mk n pt => simp [President.to_dict, President.from_dict, PartyID.ofValue_value]

theorem court_rt (c : SupremeCourt) : SupremeCourt.from_dict c.to_dict = some c := by
  cases c with
  | mk l => simp [SupremeCourt.to_dict, SupremeCourt.from_dict, PartyID.ofValue_value]

theorem event_rt (e : Event) : Event.from_dict e.to_dict = some e := by
  cases e with
  | mk k d iap iac ig iu ii pb =>
    cases pb with
    | none => rfl
    | some p =>
      simp [Event.to_dict, Event.from_dict, PartyID.value_ne_empty p,
            PartyID.ofValue_value]

theorem setA_append {α β : Type} [DecidableEq α] (l : List (α × β)) (k : α) (v : β)
    (h : ∀ e ∈ l, e.1 ≠ k) : setA l k v = l ++ [(k, v)] := by
  induction l with
  | nil => rfl
  | cons hd tl ih =>
    cases hd with
    | mk a b =>
      unfold setA
      rw [if_neg (h (a, b) (List.mem_cons_self _ _))]
      simp only [List.cons_append, List.cons.injEq, true_and]
      exact ih (fun e he => h e (List.mem_cons_of_mem _ he))

theorem foldl_register (l : List (Event × ℚ)) (em : EventManager)
    (hdisj : ∀ p ∈ l, ∀ e ∈ em.catalog, e.1 ≠ p.1.key)
    (hnd : (l.map (fun p => p.1.key)).Nodup) :
    (l.foldl (fun em p => em.register p.1 p.2) em).catalog =
      em.catalog ++ l.map (fun p => (p.1.key, p.1, p.2)) := by
  induction l generalizing em with
  | nil => simp
  | cons p t ih =>
    simp only [List.foldl_cons, List.map_cons]
    have hreg : em.register p.1 p.2 =
        ⟨em.catalog ++ [(p.1.key, p.1, p.2)]⟩ := by
      unfold EventManager.register
      congr 1
      exact setA_append _ _ _ (fun e he => hdisj p (List.mem_cons_self _ _) e he)
    have hnd' : (t.map (fun q => q.1.key)).Nodup := (List.nodup_cons.1 hnd).2
    have hkey : p.1.key ∉ t.map (fun q => q.1.key) := (List.nodup_cons.1 hnd).1
    rw [hreg, ih ⟨em.catalog ++ [(p.1.key, p.1, p.2)]⟩ ?_ hnd']
    · rw [List.append_assoc]
      rfl
    · intro q hq e he
      rcases List.mem_append.1 he with h1 | h1
      · exact hdisj q (List.mem_cons_of_mem _ hq) e h1
      · simp at h1
        rw [h1]
        intro hcontra
        have hck : p.1.key = q.1.key := hcontra
        exact hkey (by rw [hck]; exact List.mem_map_of_mem _ hq)

theorem em_rt (em : EventManager) (h : EMWellFormed em) :
    EventManager.from_dict em.to_dict = some em := by
  obtain ⟨hkeys, hnd⟩ := h
  unfold EventManager.to_dict EventManager.from_dict
  rw [mapM_map_rt (fun e => (⟨e.2.1.to_dict, e.2.2⟩ : CatalogItemD))
      (fun item => (Event.from_dict item.event).map (fun ev => (ev, item.weight)))
      (fun e => (e.2.1, e.2.2)) em.catalog
      (fun x _ => by
        show (Event.from_dict x.2.1.to_dict).map (fun ev => (ev, x.2.2)) =
          some (x.2.1, x.2.2)
        rw [event_rt x.2.1]
        rfl)]
  refine congrArg some ?_
  have hnd2 : ((em.catalog.map (fun e => (e.2.1, e.2.2))).map (fun p => p.1.key)).Nodup := by
    rw [List.map_map]
    have hc : ((fun p : Event × ℚ => p.1.key) ∘
        (fun e : String × Event × ℚ => (e.2.1, e.2.2))) =
        fun e : String × Event × ℚ => e.2.1.key := rfl
    rw [hc]
    have h2 : em.catalog.map (fun e => e.2.1.key) = em.catalog.map Prod.fst :=
      List.map_congr_left (fun e he => (hkeys e he).symm)
    rw [h2]
    exact hnd
  have hext : ∀ a b : EventManager, a.catalog = b.catalog → a = b := by
    intro a b hab
    cases a
    cases b
    simp_all
  apply hext
  rw [foldl_register _ _ (fun p hp e he => by simp at he) hnd2]
  simp only [List.nil_append, List.map_map]
  have hcomp : ((fun p : Event × ℚ => (p.1.key, p.1, p.2)) ∘
      (fun e : String × Event × ℚ => (e.2.1, e.2.2))) =
      fun e : String × Event × ℚ => (e.2.1.key, e.2.1, e.2.2) := rfl
  rw [hcomp]
  exact (List.map_congr_left (fun e he => by
    obtain ⟨k, ev, w⟩ := e
    simp only
    rw [← hkeys (k, ev, w) he]
    rfl)).trans (List.map_id _)

theorem us_rt (us : UnitedStates) (h : EMWellFormed us.event_manager) :
    UnitedStates.from_dict us.to_dict = some us := by
  unfold UnitedStates.to_dict UnitedStates.from_dict
  simp only
  rw [president_rt]
  simp only [Option.some_bind]
  rw [congress_rt]
  simp only [Option.some_bind]
  rw [court_rt]
  simp only [Option.some_bind]
  rw [mapM_map_rt (fun pr => (pr.1.value, pr.2.to_dict))
      (fun pr => (PartyID.ofValue pr.1).bind (fun k =>
        (PoliticalParty.from_dict pr.2).map (fun v => (k, v))))
      id us.parties
      (fun pr _ => by
        show (PartyID.ofValue pr.1.value).bind (fun k =>
          (PoliticalParty.from_dict pr.2.to_dict).map (fun v => (k, v))) = some pr
        rw [PartyID.ofValue_value]
        simp only [Option.some_bind]
        rw [party_rt]
        rfl)]
  simp only [Option.some_bind, List.map_id]
  rw [mapM_map_rt (fun pr => (pr.1, pr.2.to_dict))
      (fun pr => (State.from_dict pr.2).map (fun v => (pr.1, v)))
      id us.states
      (fun pr _ => by
        show (State.from_dict pr.2.to_dict).map (fun v => (pr.1, v)) = some pr
        rw [state_rt]
        rfl)]
  simp only [Option.some_bind, List.map_id]
  rw [em_rt us.event_manager h]
  rfl

theorem macroDrift_em (us : UnitedStates) :
    (us.macroDrift).event_manager = us.event_manager := rfl

theorem econPass_em (us : UnitedStates) :
    (us.econPass).event_manager = us.event_manager := rfl

theorem ai_consider_em (us : UnitedStates) :
    (us.ai_consider_policy).2.event_manager = us.event_manager := rfl

theorem attempt_em (us : UnitedStates) (p : Policy) :
    (us.attempt_pass_policy p).2.event_manager = us.event_manager := by
  by_cases hc : us.rng.stream us.rng.pos < us.pass_probability p <;>
    simp [UnitedStates.attempt_pass_policy, Rng.random, hc, UnitedStates.log_event]

theorem attempt_state_em (us : UnitedStates) (name : String) (p : Policy) :
    (us.attempt_pass_state_policy name p).2.event_manager = us.event_manager := by
  unfold UnitedStates.attempt_pass_state_policy
  cases hl : lookupA us.states name with
  | none => rfl
  | some st =>
    by_cases hc : us.rng.stream us.rng.pos < state_policy_probability st p <;>
      simp [Rng.random, hc, UnitedStates.log_event]

theorem ai_state_pick_em (us : UnitedStates) (st : State) :
    (us.ai_state_pick st).2.event_manager = us.event_manager := by
  unfold UnitedStates.ai_state_pick
  split
  · rfl
  · split
    · rfl
    · split
      · rfl
      · rfl

theorem ai_state_campaign_em (us : UnitedStates) (name : String) :
    (us.ai_state_campaign name).event_manager = us.event_manager := by
  unfold UnitedStates.ai_state_campaign
  cases hl : lookupA us.states name <;> rfl

theorem ai_state_turn_em (us : UnitedStates) (name : String) :
    (us.ai_state_turn name).event_manager = us.event_manager := by
  unfold UnitedStates.ai_state_turn
  cases hl : lookupA us.states name with
  | none => rfl
  | some st =>
    simp only
    split
    · rw [ai_state_campaign_em]
      cases hp : (us.ai_state_pick st).1 with
      | some pol =>
        simp only [hp]
        rw [attempt_state_em, ai_state_pick_em]
      | none =>
        simp only [hp]
        rw [ai_state_pick_em]
    · cases hp : (us.ai_state_pick st).1 with
      | some pol =>
        simp only [hp]
        rw [attempt_state_em, ai_state_pick_em]
      | none =>
        simp only [hp]
        rw [ai_state_pick_em]

theorem trigger_em (us : UnitedStates) :
    (us.trigger_event).2.event_manager = us.event_manager := by
  unfold UnitedStates.trigger_event
  rcases hp : us.event_manager.random_event us.rng with ⟨oev, rng'⟩
  cases oev <;> simp [hp, UnitedStates.log_event]

theorem em_ite (c : Prop) [Decidable c] (a b : UnitedStates) (x : EventManager)
    (ha : a.event_manager = x) (hb : b.event_manager = x) :
    (if c then a else b).event_manager = x := by
  split <;> assumption

theorem ai_react_em (us : UnitedStates) :
    (us.ai_react_to_events).event_manager = us.event_manager := by
  unfold UnitedStates.ai_react_to_events
  cases hr : us.recent_events.getLast? with
  | none => rfl
  | some recent =>
    simp only
    by_cases h1 : recent = "hurricane"
    · rw [if_pos h1]
      apply em_ite
      · rw [ai_state_turn_em]
        apply em_ite
        · rw [ai_state_turn_em, attempt_em]
        · rw [attempt_em]
      · apply em_ite
        · rw [ai_state_turn_em, attempt_em]
        · rw [attempt_em]
    · rw [if_neg h1]
      by_cases h2 : recent = "scandal"
      · rw [if_pos h2]
      · rw [if_neg h2]

theorem eventPass_em (us : UnitedStates) :
    (us.eventPass).event_manager = us.event_manager := by
  unfold UnitedStates.eventPass
  apply em_ite
  · rw [ai_react_em, trigger_em]
  · rfl

theorem init_em (us : UnitedStates) (name : String) :
    (us.init_state_elections_if_missing name).event_manager = us.event_manager := by
  unfold UnitedStates.init_state_elections_if_missing
  cases hl : lookupA us.states name <;> rfl

theorem electionInit_em (us : UnitedStates) :
    (us.electionInit).event_manager = us.event_manager := by
  unfold UnitedStates.electionInit
  generalize us.states.map Prod.fst = names
  induction names generalizing us with
  | nil => rfl
  | cons n t ih =>
    rw [List.foldl_cons]
    rw [ih]
    exact init_em us n

theorem houseStep_em (us : UnitedStates) :
    (us.houseStep).event_manager = us.event_manager := by
  unfold UnitedStates.houseStep
  rcases h : houseStates us us.states us.rng with ⟨sts, dem, rep, rng'⟩
  simp [h, UnitedStates.log_event]

theorem senateStep_em (us : UnitedStates) :
    (us.senateStep).event_manager = us.event_manager := by
  unfold UnitedStates.senateStep
  rcases h : senateStates us (us.year % 6) us.states us.rng with ⟨sts, dem, rep, rng'⟩
  simp only [h, UnitedStates.log_event]
  split <;> rfl

theorem update_em (us : UnitedStates) (a b : PartyID) :
    (us.update_approvals_after_congress_results a b).event_manager = us.event_manager := rfl

theorem presidentStep_em (us : UnitedStates) :
    (us.presidentStep).event_manager = us.event_manager := rfl

theorem electionPrelude_em (us : UnitedStates) :
    (us.electionPrelude).event_manager = us.event_manager := by
  unfold UnitedStates.electionPrelude
  split
  · rw [houseStep_em, electionInit_em]
  · rw [electionInit_em]

theorem maybe_run_em (us : UnitedStates) :
    (us.maybe_run_elections).event_manager = us.event_manager := by
  by_cases hm : us.month = 11
  · rw [maybe_run_elections_eq us hm, update_em]
    split
    · rw [presidentStep_em, senateStep_em, electionPrelude_em]
    · rw [senateStep_em, electionPrelude_em]
  · unfold UnitedStates.maybe_run_elections
    rw [if_pos hm]

theorem aiNationalPass_em (us : UnitedStates) :
    (us.aiNationalPass).event_manager = us.event_manager := by
  unfold UnitedStates.aiNationalPass
  rcases hc : us.ai_consider_policy with ⟨opol, us'⟩
  have h2 : us'.event_manager = us.event_manager := by
    have h3 := ai_consider_em us
    rw [hc] at h3
    exact h3
  cases opol with
  | none => simpa [hc] using h2
  | some pol =>
    simp only [hc]
    rw [attempt_em]
    exact h2

theorem stateTurnsPass_em (us : UnitedStates) :
    (us.stateTurnsPass).event_manager = us.event_manager := by
  unfold UnitedStates.stateTurnsPass
  generalize us.states.map Prod.fst = names
  induction names generalizing us with
  | nil => rfl
  | cons n t ih =>
    rw [List.foldl_cons, ih, ai_state_turn_em]

theorem approvalReversion_em (us : UnitedStates) :
    (us.approvalReversion).event_manager = us.event_manager := rfl

theorem partyDriftPass_em (us : UnitedStates) :
    (us.partyDriftPass).event_manager = us.event_manager := by
  unfold UnitedStates.partyDriftPass
  apply em_ite <;> rfl

theorem revenuePass_em (us : UnitedStates) :
    (us.revenuePass).event_manager = us.event_manager := rfl

theorem calendarAdvance_em (us : UnitedStates) :
    (us.calendarAdvance).event_manager = us.event_manager := by
  unfold UnitedStates.calendarAdvance
  split <;> rfl

theorem tick_em (us : UnitedStates) :
    (us.tick).event_manager = us.event_manager := by
  unfold UnitedStates.tick
  rw [calendarAdvance_em, revenuePass_em, partyDriftPass_em, approvalReversion_em,
      maybe_run_em, eventPass_em, stateTurnsPass_em, aiNationalPass_em, econPass_em,
      macroDrift_em]

theorem advance_em (us : UnitedStates) (n : ℕ) :
    (us.advance_turn n).event_manager = us.event_manager := by
  induction n generalizing us with
  | zero => rfl
  | succ k ih =>
    show ((us.tick).advance_turn k).event_manager = _
    rw [ih, tick_em]

theorem reachable_em (us : UnitedStates) (h : Reachable us) :
    us.event_manager = defaultEventManager := by
  induction h with
  | root ms ds cs => rfl
  | advance us' n _ ih => rw [advance_em]; exact ih
  | event us' _ ih => rw [trigger_em]; exact ih
  | policy us' p _ ih => rw [attempt_em]; exact ih

theorem default_em_wf : EMWellFormed defaultEventManager := by
  refine ⟨?_, ?_⟩ <;> decide

/-- C3: for every reachable root, from_dict(to_dict(x)) succeeds and
reproduces the root exactly, in particular its year, month, growth and
the set of state names. -/
theorem c3_serialization_roundtrip (us : UnitedStates) (h : Reachable us) :
    UnitedStates.from_dict us.to_dict = some us ∧
    ∀ y, UnitedStates.from_dict us.to_dict = some y →
      y.year = us.year ∧ y.month = us.month ∧ y.growth = us.growth ∧
      y.states.map Prod.fst = us.states.map Prod.fst := by
  have hwf : EMWellFormed us.event_manager := by
    rw [reachable_em us h]
    exact default_em_wf
  refine ⟨us_rt us hwf, ?_⟩
  intro y hy
  rw [us_rt us hwf] at hy
  injection hy with hy
  rw [← hy]
  exact ⟨rfl, rfl, rfl, rfl⟩

/-- witness for C3 at a concrete reachable root. -/
theorem c3_serialization_roundtrip_witness :
    Reachable (UnitedStates.new_default_with halfStream halfStream halfStream) ∧
    (UnitedStates.from_dict
        (UnitedStates.new_default_with halfStream halfStream halfStream).to_dict =
      some (UnitedStates.new_default_with halfStream halfStream halfStream) ∧
    ∀ y, UnitedStates.from_dict
        (UnitedStates.new_default_with halfStream halfStream halfStream).to_dict = some y →
      y.year = (UnitedStates.new_default_with halfStream halfStream halfStream).year ∧
      y.month = (UnitedStates.new_default_with halfStream halfStream halfStream).month ∧
      y.growth = (UnitedStates.new_default_with halfStream halfStream halfStream).growth ∧
      y.states.map Prod.fst =
        (UnitedStates.new_default_with halfStream halfStream halfStream).states.map Prod.fst) :=
  ⟨Reachable.root _ _ _,
   c3_serialization_roundtrip _ (Reachable.root halfStream halfStream halfStream)⟩

/-- C2: the seed-1234 root advanced 7 months, serialised and restored,
then advanced 3 more months agrees exactly with the original advanced the
same 3 months on year, month, growth, unemployment and inflation (the
round trip preserves every field including the RNG state, and the
trajectory is a pure function of the state). -/
theorem c2_deterministic_continuation :
    (UnitedStates.from_dict ((UnitedStates.new_default 1234).advance_turn 7).to_dict).map
        (fun y =>
          ((y.advance_turn 3).year, (y.advance_turn 3).month, (y.advance_turn 3).growth,
           (y.advance_turn 3).unemployment, (y.advance_turn 3).inflation)) =
      some ((((UnitedStates.new_default 1234).advance_turn 7).advance_turn 3).year,
            (((UnitedStates.new_default 1234).advance_turn 7).advance_turn 3).month,
            (((UnitedStates.new_default 1234).advance_turn 7).advance_turn 3).growth,
            (((UnitedStates.new_default 1234).advance_turn 7).advance_turn 3).unemployment,
            (((UnitedStates.new_default 1234).advance_turn 7).advance_turn 3).inflation) := by
  have hwf : EMWellFormed ((UnitedStates.new_default 1234).advance_turn 7).event_manager := by
    rw [advance_em]
    exact default_em_wf
  rw [us_rt _ hwf]
  rfl

/-- transitivity of the quiet-step core relation. -/
theorem QCore_trans {a b c : UnitedStates} {d1 d2 : ℕ}
    (h1 : QCore a b d1) (h2 : QCore b c d2) : QCore a c (d1 + d2) := by
  obtain ⟨s1, p1, i1, m1, y1, sh1, e1, r1⟩ := h1
  obtain ⟨s2, p2, i2, m2, y2, sh2, e2, r2⟩ := h2
  refine ⟨s2.trans s1, ?_, i2.trans i1, m2.trans m1, y2.trans y1,
    sh2.trans sh1, e2.trans e1, r2.trans r1⟩
  rw [p2, p1]
  omega

/-- a draw-count recount inside the core relation. -/
theorem QCore_congr {a b : UnitedStates} {d e : ℕ}
    (h : QCore a b d) (hde : d = e) : QCore a b e := hde ▸ h

/-- the core relation distributes over a branch when both sides satisfy it. -/
theorem QCore_ite {us : UnitedStates} (c : Prop) [Decidable c]
    {a b : UnitedStates} {d : ℕ} (ha : QCore us a d) (hb : QCore us b d) :
    QCore us (if c then a else b) d := by
  split
  · exact ha
  · exact hb

/-- the state-level pass probability never exceeds 0.95. -/
theorem state_policy_probability_le (st : State) (p : Policy) :
    state_policy_probability st p ≤ 95/100 := by
  unfold state_policy_probability
  exact clamp_le _ _ _ (by norm_num)

/-- the national pass probability never exceeds 0.95. -/
theorem pass_probability_le (us : UnitedStates) (p : Policy) :
    us.pass_probability p ≤ 95/100 := by
  unfold UnitedStates.pass_probability
  exact clamp_le _ _ _ (by norm_num)

/-- a national attempt whose decision draw is at least 0.95 fails. -/
theorem attempt_fails (us : UnitedStates) (p : Policy)
    (h : 95/100 ≤ us.rng.stream us.rng.pos) :
    (us.attempt_pass_policy p).1 = false := by
  have hc : ¬ us.rng.stream us.rng.pos < us.pass_probability p :=
    not_lt.2 (le_trans (pass_probability_le us p) h)
  simp [UnitedStates.attempt_pass_policy, Rng.random, hc]

/-- a state-level attempt whose decision draw is at least 0.95 fails. -/
theorem attempt_state_fails (us : UnitedStates) (name : String) (st : State)
    (p : Policy) (hst : lookupA us.states name = some st)
    (h : 95/100 ≤ us.rng.stream us.rng.pos) :
    (us.attempt_pass_state_policy name p).1 = false := by
  have hc : ¬ us.rng.stream us.rng.pos < state_policy_probability st p :=
    not_lt.2 (le_trans (state_policy_probability_le st p) h)
  simp [UnitedStates.attempt_pass_state_policy, hst, Rng.random, hc]

/-- the macro-drift step as one explicit record update. -/
theorem macroDrift_eq (us : UnitedStates) :
    us.macroDrift =
      { us with
          growth := clamp (-5/100) (6/100)
            (us.growth + (-2/1000 + (2/1000 - (-2/1000)) * us.rng.stream us.rng.pos)),
          inflation := clamp 0 10
            (us.inflation + (-5/100 + (5/100 - (-5/100)) * us.rng.stream (us.rng.pos + 1))),
          unemployment := clamp (5/2) 20
            (us.unemployment + (-5/100 + (5/100 - (-5/100)) * us.rng.stream (us.rng.pos + 2))),
          rng := ⟨us.rng.stream, us.rng.pos + 3⟩ } := rfl

/-- the approval mean-reversion step only rewrites the opinion block. -/
theorem approvalReversion_core (us : UnitedStates) :
    QCore us us.approvalReversion 0 :=
  ⟨rfl, rfl, rfl, rfl, rfl, rfl, rfl, rfl⟩

/-- the federal revenue step only rewrites the budget block. -/
theorem revenuePass_core (us : UnitedStates) : QCore us us.revenuePass 0 :=
  ⟨rfl, rfl, rfl, rfl, rfl, rfl, rfl, rfl⟩

/-- the post-election approval adjustment only rewrites the opinion block. -/
theorem update_approvals_core (us : UnitedStates) (ph ps : PartyID) :
    QCore us (us.update_approvals_after_congress_results ph ps) 0 :=
  ⟨rfl, rfl, rfl, rfl, rfl, rfl, rfl, rfl⟩

/-- the presidential race consumes two draws and rewrites only the
president and the log. -/
theorem presidentStep_core (us : UnitedStates) : QCore us us.presidentStep 2 :=
  ⟨rfl, rfl, rfl, rfl, rfl, rfl, rfl, rfl⟩

/-- the party-drift step consumes one draw and rewrites at most the
party map. -/
theorem partyDrift_core (us : UnitedStates) : QCore us us.partyDriftPass 1 := by
  unfold UnitedStates.partyDriftPass
  apply QCore_ite
  · exact ⟨rfl, rfl, rfl, rfl, rfl, rfl, rfl, rfl⟩
  · exact ⟨rfl, rfl, rfl, rfl, rfl, rfl, rfl, rfl⟩

/-- an event check whose draw is at least 0.35 consumes that single draw
and changes nothing else. -/
theorem eventPass_quiet (us : UnitedStates)
    (h : 35/100 ≤ us.rng.stream us.rng.pos) :
    us.eventPass = { us with rng := ⟨us.rng.stream, us.rng.pos + 1⟩ } := by
  have hc : ¬ us.rng.stream us.rng.pos < (35/100 : ℚ) := not_lt.2 h
  simp [UnitedStates.eventPass, Rng.random, hc]

/-- a national AI pass whose draw is at least 0.6 proposes nothing and
consumes that single draw. -/
theorem aiNational_quiet (us : UnitedStates)
    (h : 6/10 ≤ us.rng.stream us.rng.pos) :
    us.aiNationalPass = { us with rng := ⟨us.rng.stream, us.rng.pos + 1⟩ } := by
  have hc : ¬ us.rng.stream us.rng.pos < (6/10 : ℚ) := not_lt.2 h
  simp [UnitedStates.aiNationalPass, UnitedStates.ai_consider_policy, Rng.random, hc]

/-- one state economy step consumes exactly three draws. -/
theorem advance_economy_rng (st : State) (g ni : ℚ) (rng : Rng) :
    (st.advance_economy g ni rng).2 = ⟨rng.stream, rng.pos + 3⟩ := rfl

/-- one state economy step keeps the state shape. -/
theorem advance_economy_shape (st : State) (g ni : ℚ) (rng : Rng) :
    stateShape (st.advance_economy g ni rng).1 = stateShape st := rfl

/-- the economy pass consumes four draws per state and keeps every name
and shape. -/
theorem econStates_facts (g ni : ℚ) (l : List (String × State)) (rng : Rng) :
    (econStates g ni l rng).2 = ⟨rng.stream, rng.pos + 4 * l.length⟩ ∧
    shapeMap (econStates g ni l rng).1 = shapeMap l := by
  induction l generalizing rng with
  | nil =>
    refine ⟨?_, rfl⟩
    show rng = _
    cases rng
    simp [econStates]
  | cons hd tl ih =>
    obtain ⟨n, st⟩ := hd
    have hq : (Rng.uniform ((st.advance_economy g ni rng).2) (-1) 1).2 =
        (⟨rng.stream, rng.pos + 4⟩ : Rng) := rfl
    constructor
    · show (econStates g ni tl _).2 = _
      rw [hq, (ih _).1]
      simp only [List.length_cons]
      congr 1
      omega
    · show shapeMap ((n, _) :: (econStates g ni tl _).1) = _
      rw [hq]
      simp only [shapeMap, List.map_cons]
      refine congrArg₂ _ ?_ ?_
      · rfl
      · exact (ih _).2
  
/-- the shape list keeps the key list. -/
theorem shapeMap_fst (l : List (String × State)) :
    (shapeMap l).map Prod.fst = l.map Prod.fst := by
  unfold shapeMap
  rw [List.map_map]
  rfl

/-- the shape list keeps the length. -/
theorem shapeMap_length (l : List (String × State)) :
    (shapeMap l).length = l.length := by
  unfold shapeMap
  exact List.length_map l _

/-- a quiet-shape root has exactly four states. -/
theorem quietShape_length (us : UnitedStates) (h : QuietShape us) :
    us.states.length = 4 := by
  have := congrArg List.length h
  rw [shapeMap_length] at this
  simpa using this

/-- a quiet-shape root has the four default state names in order. -/
theorem quietShape_names (us : UnitedStates) (h : QuietShape us) :
    us.states.map Prod.fst = ["California", "Texas", "Florida", "New York"] := by
  have := congrArg (List.map Prod.fst) h
  rw [shapeMap_fst] at this
  simpa using this

/-- each state of a quiet-shape root has the tracked shape. -/
theorem quietShape_mem (us : UnitedStates) (h : QuietShape us)
    (pr : String × State) (hpr : pr ∈ us.states) :
    stateShape pr.2 = (6, 2, [0, 3], false) := by
  have hm : (pr.1, stateShape pr.2) ∈ shapeMap us.states :=
    List.mem_map_of_mem _ hpr
  rw [h] at hm
  simp only [List.mem_cons, List.not_mem_nil, or_false] at hm
  rcases hm with hm | hm | hm | hm <;> exact congrArg Prod.snd hm

/-- quiet shape entails the lazy-initialiser no-op shape. -/
theorem quietShape_shapeOK (us : UnitedStates) (h : QuietShape us) :
    ShapeOK us := by
  intro pr hpr
  have hs := quietShape_mem us h pr hpr
  unfold stateShape at hs
  refine ⟨?_, ?_, ?_, ?_⟩
  · have : pr.2.voter_cohorts.isEmpty = false := by
      have := congrArg (fun q => q.2.2.2) hs
      simpa using this
    simpa [List.isEmpty_iff] using this
  · have : pr.2.house_districts.length = 6 := by
      have := congrArg (fun q => q.1) hs
      simpa using this
    intro hnil
    rw [hnil] at this
    simp at this
  · have := congrArg (fun q => q.2.1) hs
    simpa using this
  · have hc : pr.2.senate_classes = [0, 3] := by
      have := congrArg (fun q => q.2.2.1) hs
      simpa using this
    rw [hc]
    rfl

/-- the economy pass as a core step: four draws per state, shapes kept. -/
theorem econPass_core (us : UnitedStates) :
    QCore us us.econPass (4 * us.states.length) := by
  obtain ⟨h1, h2⟩ := econStates_facts us.growth us.inflation us.states us.rng
  unfold UnitedStates.econPass
  refine ⟨?_, ?_, rfl, rfl, rfl, ?_, rfl, rfl⟩
  · show (econStates us.growth us.inflation us.states us.rng).2.stream = _
    rw [h1]
  · show (econStates us.growth us.inflation us.states us.rng).2.pos = _
    rw [h1]
  · exact h2

/-- a quiet state-level attempt: one draw, one failure log line. -/
theorem attempt_state_quiet (us : UnitedStates) (name : String) (st : State)
    (p : Policy) (hst : lookupA us.states name = some st)
    (h : 95/100 ≤ us.rng.stream us.rng.pos) :
    (us.attempt_pass_state_policy name p).2 =
      { us with rng := ⟨us.rng.stream, us.rng.pos + 1⟩,
                log := us.log ++ ["[" ++ toString us.year ++ "-" ++ pad2 us.month ++ "] " ++
                                  (st.name ++ " policy failed: " ++ p.title)] } :=
  attempt_pass_state_policy_fail_frame us name st p hst
    (attempt_state_fails us name st p hst h)

/-- under a quiet draw the state AI either proposes without drawing or
draws once and proposes nothing. -/
theorem ai_state_pick_quiet (us : UnitedStates) (st : State)
    (h0 : 95/100 ≤ us.rng.stream us.rng.pos) :
    (us.ai_state_pick st = ((us.ai_state_pick st).1, us) ∧
      (us.ai_state_pick st).1.isSome) ∨
    us.ai_state_pick st =
      (none, { us with rng := ⟨us.rng.stream, us.rng.pos + 1⟩ }) := by
  unfold UnitedStates.ai_state_pick
  by_cases c1 : st.unemployment > 65/10
  · rw [if_pos c1]
    exact Or.inl ⟨rfl, rfl⟩
  · rw [if_neg c1]
    by_cases c2 : st.inflation > 5
    · rw [if_pos c2]
      exact Or.inl ⟨rfl, rfl⟩
    · rw [if_neg c2]
      by_cases c3 : st.budget_spending - st.budget_revenue > 5
      · rw [if_pos c3]
        exact Or.inl ⟨rfl, rfl⟩
      · rw [if_neg c3]
        right
        have hc : ¬ us.rng.stream us.rng.pos < (35/100 : ℚ) :=
          not_lt.2 (le_trans (by norm_num) h0)
        simp [Rng.random, hc]

/-- a quiet state AI turn: two draws, possibly one failure log line, and
no other change. -/
theorem ai_state_turn_quiet (us : UnitedStates) (name : String)
    (hmem : name ∈ us.states.map Prod.fst)
    (h0 : 95/100 ≤ us.rng.stream us.rng.pos)
    (h1 : 3/10 ≤ us.rng.stream (us.rng.pos + 1)) :
    ∃ lg, us.ai_state_turn name =
      { us with rng := ⟨us.rng.stream, us.rng.pos + 2⟩, log := lg } := by
  have hc : ¬ us.rng.stream (us.rng.pos + 1) < (3/10 : ℚ) := not_lt.2 h1
  unfold UnitedStates.ai_state_turn
  cases hl : lookupA us.states name with
  | none =>
    exact absurd (lookupA_isSome_of_mem_fst us.states name hmem) (by rw [hl]; simp)
  | some st =>
    simp only
    rcases ai_state_pick_quiet us st h0 with ⟨hpair, hsome⟩ | hnone
    · obtain ⟨pol, hpol⟩ := Option.isSome_iff_exists.mp hsome
      have hp2 : (us.ai_state_pick st).2 = us := congrArg Prod.snd hpair
      have hat := attempt_state_quiet us name st pol hl h0
      refine ⟨us.log ++ ["[" ++ toString us.year ++ "-" ++ pad2 us.month ++ "] " ++
          (st.name ++ " policy failed: " ++ pol.title)], ?_⟩
      simp only [hpol, hp2, hat, Rng.random]
      rw [if_neg hc]
    · have hp1 : (us.ai_state_pick st).1 = none := congrArg Prod.fst hnone
      have hp2 : (us.ai_state_pick st).2 =
          { us with rng := ⟨us.rng.stream, us.rng.pos + 1⟩ } :=
        congrArg Prod.snd hnone
      refine ⟨us.log, ?_⟩
      simp only [hp1, hp2, Rng.random]
      rw [if_neg hc]

/-- quiet state AI turns over a name list: two draws per name, log lines
only. -/
theorem foldTurns_quiet (names : List String) :
    ∀ us : UnitedStates,
      (∀ nm ∈ names, nm ∈ us.states.map Prod.fst) →
      (∀ n, n < 2 * names.length → 95/100 ≤ us.rng.stream (us.rng.pos + n)) →
      ∃ lg, names.foldl (fun uu n => uu.ai_state_turn n) us =
        { us with rng := ⟨us.rng.stream, us.rng.pos + 2 * names.length⟩, log := lg } := by
  induction names with
  | nil =>
    intro us _ _
    exact ⟨us.log, rfl⟩
  | cons hd tl ih =>
    intro us hmem hdr
    have h0 : 95/100 ≤ us.rng.stream (us.rng.pos + 0) := by
      refine hdr 0 ?_
      rw [List.length_cons]
      omega
    rw [Nat.add_zero] at h0
    have h1 : 3/10 ≤ us.rng.stream (us.rng.pos + 1) := by
      refine le_trans (by norm_num) (hdr 1 ?_)
      rw [List.length_cons]
      omega
    obtain ⟨lg1, he1⟩ := ai_state_turn_quiet us hd (hmem hd (List.mem_cons_self hd tl)) h0 h1
    obtain ⟨lg2, he2⟩ := ih { us with rng := ⟨us.rng.stream, us.rng.pos + 2⟩, log := lg1 }
      (fun nm hnm => hmem nm (List.mem_cons_of_mem _ hnm))
      (by
        intro n hn
        have h := hdr (2 + n) (by rw [List.length_cons]; omega)
        rw [← Nat.add_assoc] at h
        exact h)
    refine ⟨lg2, ?_⟩
    have harith : us.rng.pos + 2 + 2 * tl.length = us.rng.pos + 2 * (hd :: tl).length := by
      rw [List.length_cons]
      omega
    rw [List.foldl_cons, he1, he2, ← harith]

/-- the quiet state-turn pass: two draws per state, log lines only. -/
theorem stateTurnsPass_quiet (us : UnitedStates)
    (hdr : ∀ n, n < 2 * us.states.length → 95/100 ≤ us.rng.stream (us.rng.pos + n)) :
    ∃ lg, us.stateTurnsPass =
      { us with rng := ⟨us.rng.stream, us.rng.pos + 2 * us.states.length⟩, log := lg } := by
  have hlen : (us.states.map Prod.fst).length = us.states.length := List.length_map _ _
  obtain ⟨lg, h⟩ := foldTurns_quiet (us.states.map Prod.fst) us (fun nm hnm => hnm)
    (by rw [hlen]; exact hdr)
  rw [hlen] at h
  exact ⟨lg, h⟩

/-- a house race consumes two draws per district and keeps the count. -/
theorem districtsRace_facts (usO : UnitedStates) (st : State) (ds : List District) (rng : Rng) :
    (districtsRace usO st ds rng).2.2.2 = ⟨rng.stream, rng.pos + 2 * ds.length⟩ ∧
    (districtsRace usO st ds rng).1.length = ds.length := by
  induction ds generalizing rng with
  | nil =>
    refine ⟨?_, rfl⟩
    show rng = _
    cases rng
    simp [districtsRace]
  | cons d t ih =>
    have hw : ((usO.district_dem_probability st d rng).2.random).2 =
        (⟨rng.stream, rng.pos + 2⟩ : Rng) := rfl
    constructor
    · show (districtsRace usO st t (((usO.district_dem_probability st d rng).2.random).2)).2.2.2 = _
      rw [hw, (ih _).1]
      show Rng.mk rng.stream (rng.pos + 2 + 2 * t.length) = Rng.mk rng.stream (rng.pos + 2 * (d :: t).length)
      rw [List.length_cons]
      congr 1
      omega
    · show (_ :: (districtsRace usO st t (((usO.district_dem_probability st d rng).2.random).2)).1).length = _
      rw [List.length_cons, List.length_cons, (ih _).2]

/-- house races over the state map: two draws per district, names and
shapes kept. -/
theorem houseStates_facts (usO : UnitedStates) (l : List (String × State)) (rng : Rng) :
    (houseStates usO l rng).2.2.2 = ⟨rng.stream, rng.pos + 2 * districtCount l⟩ ∧
    shapeMap (houseStates usO l rng).1 = shapeMap l := by
  induction l generalizing rng with
  | nil =>
    refine ⟨?_, rfl⟩
    show rng = _
    cases rng
    simp [houseStates, districtCount]
  | cons pr t ih =>
    obtain ⟨n, st⟩ := pr
    obtain ⟨hr1, hr2⟩ := districtsRace_facts usO st st.house_districts rng
    constructor
    · show (houseStates usO t ((districtsRace usO st st.house_districts rng).2.2.2)).2.2.2 = _
      rw [hr1, (ih _).1]
      have hdc : districtCount ((n, st) :: t) = st.house_districts.length + districtCount t := by
        unfold districtCount
        rw [List.map_cons, List.sum_cons]
      show Rng.mk rng.stream (rng.pos + 2 * st.house_districts.length + 2 * districtCount t) =
        Rng.mk rng.stream (rng.pos + 2 * districtCount ((n, st) :: t))
      rw [hdc]
      congr 1
      omega
    · show shapeMap ((n, _) :: (houseStates usO t ((districtsRace usO st st.house_districts rng).2.2.2)).1) = _
      unfold shapeMap
      rw [List.map_cons, List.map_cons]
      refine congrArg₂ _ ?_ ?_
      · show (n, stateShape _) = (n, stateShape st)
        unfold stateShape
        rw [hr2]
      · exact (ih _).2

/-- one senate seat check: two draws when its class is up, none otherwise,
and the seat count is kept. -/
theorem senateSeatUpdate_facts (usO : UnitedStates) (st : State) (cycle i : ℕ)
    (seats : List PartyID) (rng : Rng) :
    (senateSeatUpdate usO st cycle i seats rng).2 =
      (if st.senate_classes.getD i 0 = cycle then (⟨rng.stream, rng.pos + 2⟩ : Rng) else rng) ∧
    (senateSeatUpdate usO st cycle i seats rng).1.length = seats.length := by
  unfold senateSeatUpdate
  by_cases hc : st.senate_classes.getD i 0 = cycle
  · rw [if_pos hc, if_pos hc]
    exact ⟨rfl, List.length_set seats i _⟩
  · rw [if_neg hc, if_neg hc]
    exact ⟨rfl, rfl⟩

/-- a constant-valued map sums to the count times the constant. -/
theorem sum_map_const {α : Type} (l : List α) (f : α → ℕ) (c : ℕ)
    (h : ∀ x ∈ l, f x = c) : (l.map f).sum = c * l.length := by
  induction l with
  | nil => rfl
  | cons hd tl ih =>
    rw [List.map_cons, List.sum_cons, List.length_cons,
      h hd (List.mem_cons_self hd tl), ih (fun x hx => h x (List.mem_cons_of_mem _ hx))]
    ring

/-- a quiet-shape root has 24 house districts in total. -/
theorem districtCount_quiet (us : UnitedStates) (h : QuietShape us) :
    districtCount us.states = 24 := by
  unfold districtCount
  rw [sum_map_const us.states _ 6 ?h6, quietShape_length us h]
  case h6 =>
    intro pr hpr
    have := quietShape_mem us h pr hpr
    unfold stateShape at this
    exact congrArg (fun q => q.1) this

/-- senate races over the state map under the default class shape. -/
theorem senateStates_facts (usO : UnitedStates) (cycle : ℕ) (l : List (String × State)) (rng : Rng)
    (h : ∀ pr ∈ l, pr.2.senate_classes = [0, 3] ∧ pr.2.senate_seats.length = 2) :
    (senateStates usO cycle l rng).2.2.2 =
      ⟨rng.stream, rng.pos + (if cycle = 0 ∨ cycle = 3 then 2 else 0) * l.length⟩ ∧
    shapeMap (senateStates usO cycle l rng).1 = shapeMap l := by
  induction l generalizing rng with
  | nil =>
    refine ⟨?_, rfl⟩
    show rng = _
    cases rng
    simp [senateStates]
  | cons pr t ih =>
    obtain ⟨n, st⟩ := pr
    have hcl : st.senate_classes = [0, 3] := (h _ (List.mem_cons_self _ t)).1
    have hln : st.senate_seats.length = 2 := (h _ (List.mem_cons_self _ t)).2
    have ht : ∀ q ∈ t, q.2.senate_classes = [0, 3] ∧ q.2.senate_seats.length = 2 :=
      fun q hq => h q (List.mem_cons_of_mem _ hq)
    obtain ⟨h1r, h1l⟩ := senateSeatUpdate_facts usO st cycle 0 st.senate_seats rng
    obtain ⟨h2r, h2l⟩ := senateSeatUpdate_facts usO st cycle 1
      (senateSeatUpdate usO st cycle 0 st.senate_seats rng).1
      (senateSeatUpdate usO st cycle 0 st.senate_seats rng).2
    rw [hcl] at h1r h2r
    have hg0 : ([0, 3] : List ℕ).getD 0 0 = 0 := rfl
    have hg1 : ([0, 3] : List ℕ).getD 1 0 = 3 := rfl
    rw [hg0] at h1r
    rw [hg1] at h2r
    have hrng2 : (senateSeatUpdate usO st cycle 1
        (senateSeatUpdate usO st cycle 0 st.senate_seats rng).1
        (senateSeatUpdate usO st cycle 0 st.senate_seats rng).2).2 =
        ⟨rng.stream, rng.pos + (if cycle = 0 ∨ cycle = 3 then 2 else 0)⟩ := by
      rw [h2r, h1r]
      by_cases hc0 : 0 = cycle
      · have hc3 : ¬ 3 = cycle := by omega
        rw [if_pos hc0, if_neg hc3, if_pos (Or.inl hc0.symm)]
      · by_cases hc3 : 3 = cycle
        · rw [if_pos hc3, if_neg hc0]
          show Rng.mk rng.stream (rng.pos + 2) = _
          rw [if_pos (Or.inr hc3.symm)]
        · rw [if_neg hc3, if_neg hc0]
          have : ¬ (cycle = 0 ∨ cycle = 3) := by omega
          rw [if_neg this]
          show rng = _
          cases rng
          simp
    constructor
    · show (senateStates usO cycle t _).2.2.2 = _
      rw [hrng2, (ih _ ht).1]
      show Rng.mk rng.stream (rng.pos + (if cycle = 0 ∨ cycle = 3 then 2 else 0) +
        (if cycle = 0 ∨ cycle = 3 then 2 else 0) * t.length) = _
      rw [List.length_cons]
      congr 1
      by_cases hc : cycle = 0 ∨ cycle = 3
      · rw [if_pos hc]
        omega
      · rw [if_neg hc]
        omega
    · show shapeMap ((n, _) :: (senateStates usO cycle t _).1) = _
      rw [hrng2]
      unfold shapeMap
      rw [List.map_cons, List.map_cons]
      refine congrArg₂ _ ?_ ?_
      · show (n, stateShape _) = (n, stateShape st)
        unfold stateShape
        rw [h2l, h1l]
      · exact (ih _ ht).2

/-- the even-year house block as a core step under the quiet shape. -/
theorem houseStep_core (us : UnitedStates) (hsh : QuietShape us) :
    QCore us us.houseStep 48 := by
  rcases hh : houseStates us us.states us.rng with ⟨sts, dem, rep, rng2⟩
  obtain ⟨hf1, hf2⟩ := houseStates_facts us us.states us.rng
  rw [hh] at hf1 hf2
  have hr : rng2 = ⟨us.rng.stream, us.rng.pos + 2 * districtCount us.states⟩ := hf1
  have hs : shapeMap sts = shapeMap us.states := hf2
  have heq : us.houseStep =
      ({ us with states := sts, rng := rng2,
                 congress := { us.congress with house_control := chamberControl dem rep } }).log_event
        ("House elections (granular): D " ++ toString dem ++ " - R " ++ toString rep) := by
    unfold UnitedStates.houseStep
    rw [hh]
  rw [heq]
  refine ⟨?_, ?_, rfl, rfl, rfl, hs, rfl, rfl⟩
  · show rng2.stream = us.rng.stream
    rw [hr]
  · show rng2.pos = us.rng.pos + 48
    rw [hr]
    show us.rng.pos + 2 * districtCount us.states = _
    rw [districtCount_quiet us hsh]

/-- the senate block as a core step under the quiet shape. -/
theorem senateStep_core (us : UnitedStates) (hsh : QuietShape us) :
    QCore us us.senateStep (if us.year % 6 = 0 ∨ us.year % 6 = 3 then 8 else 0) := by
  have hcl : ∀ pr ∈ us.states, pr.2.senate_classes = [0, 3] ∧ pr.2.senate_seats.length = 2 := by
    intro pr hpr
    have hq := quietShape_mem us hsh pr hpr
    unfold stateShape at hq
    exact ⟨congrArg (fun q => q.2.2.1) hq, congrArg (fun q => q.2.1) hq⟩
  rcases hh : senateStates us (us.year % 6) us.states us.rng with ⟨sts, dem, rep, rng2⟩
  obtain ⟨hf1, hf2⟩ := senateStates_facts us (us.year % 6) us.states us.rng hcl
  rw [hh] at hf1 hf2
  have hr : rng2 = ⟨us.rng.stream,
      us.rng.pos + (if us.year % 6 = 0 ∨ us.year % 6 = 3 then 2 else 0) * us.states.length⟩ := hf1
  have hs : shapeMap sts = shapeMap us.states := hf2
  have hstr : rng2.stream = us.rng.stream := by rw [hr]
  have hpos : rng2.pos = us.rng.pos + (if us.year % 6 = 0 ∨ us.year % 6 = 3 then 8 else 0) := by
    rw [hr]
    show us.rng.pos + _ * us.states.length = _
    rw [quietShape_length us hsh]
    by_cases hc : us.year % 6 = 0 ∨ us.year % 6 = 3
    · rw [if_pos hc, if_pos hc]
    · rw [if_neg hc, if_neg hc]
  simp only [UnitedStates.senateStep]
  rw [hh]
  apply QCore_ite
  · exact ⟨hstr, hpos, rfl, rfl, rfl, hs, rfl, rfl⟩
  · exact ⟨hstr, hpos, rfl, rfl, rfl, hs, rfl, rfl⟩

/-- the lazy-init plus house phase as a core step under the quiet shape. -/
theorem electionPrelude_quiet (us : UnitedStates) (hsh : QuietShape us) :
    QCore us us.electionPrelude (if us.year % 2 = 0 then 48 else 0) := by
  unfold UnitedStates.electionPrelude
  rw [electionInit_noop us (quietShape_shapeOK us hsh)]
  by_cases he : us.year % 2 = 0
  · simp only [if_pos he]
    exact houseStep_core us hsh
  · simp only [if_neg he]
    exact ⟨rfl, rfl, rfl, rfl, rfl, rfl, rfl, rfl⟩

/-- outside November the election check is a no-op. -/
theorem maybe_run_not_nov (us : UnitedStates) (h : us.month ≠ 11) :
    us.maybe_run_elections = us := by
  unfold UnitedStates.maybe_run_elections
  rw [if_pos h]

/-- the November election check as a core step under the quiet shape. -/
theorem maybe_run_nov (us : UnitedStates) (hm : us.month = 11) (hsh : QuietShape us) :
    QCore us us.maybe_run_elections (electionDraws us.year) := by
  have q1 := electionPrelude_quiet us hsh
  have hsh2 : QuietShape us.electionPrelude := by
    unfold QuietShape at hsh ⊢
    rw [q1.2.2.2.2.2.1, hsh]
  have hy2 : us.electionPrelude.year = us.year := q1.2.2.2.2.1
  have q2 := senateStep_core us.electionPrelude hsh2
  rw [hy2] at q2
  have q12 := QCore_trans q1 q2
  simp only [UnitedStates.maybe_run_elections]
  rw [if_neg (by simp [hm])]
  by_cases h4 : us.year % 4 = 0
  · rw [if_pos h4]
    refine QCore_congr (QCore_trans (QCore_trans q12 (presidentStep_core _))
      (update_approvals_core _ _ _)) ?_
    unfold electionDraws
    split_ifs <;> omega
  · rw [if_neg h4]
    refine QCore_congr (QCore_trans q12 (update_approvals_core _ _ _)) ?_
    unfold electionDraws
    split_ifs <;> omega

/-- the calendar step and its untouched fields. -/
theorem calendarAdvance_facts (us : UnitedStates) :
    us.calendarAdvance.month = (if us.month + 1 > 12 then 1 else us.month + 1) ∧
    us.calendarAdvance.year = (if us.month + 1 > 12 then us.year + 1 else us.year) ∧
    us.calendarAdvance.rng = us.rng ∧
    us.calendarAdvance.inflation = us.inflation ∧
    shapeMap us.calendarAdvance.states = shapeMap us.states ∧
    us.calendarAdvance.event_manager = us.event_manager ∧
    us.calendarAdvance.recent_events = us.recent_events := by
  unfold UnitedStates.calendarAdvance
  split_ifs with hc
  · exact ⟨rfl, rfl, rfl, rfl, rfl, rfl, rfl⟩
  · exact ⟨rfl, rfl, rfl, rfl, rfl, rfl, rfl⟩

/-- the draw count arithmetic behind a quiet tick. -/
theorem tickDrawCount_split (m y : ℕ) :
    tickDrawCount m y = 30 + (if m = 11 then electionDraws y else 0) := rfl

/-- one all-quiet tick: with every draw of the month equal to 0.99 the
tick consumes exactly the scheduled draw count, advances the calendar by
one month, moves the national inflation by the quiet drift increment
0.049 under the [0, 10] clamp, and preserves the state shape, the event
catalog and the recent-event window. -/
theorem tickQuiet (us : UnitedStates) (hsh : QuietShape us)
    (hq : ∀ n, n < tickDrawCount us.month us.year → us.rng.stream (us.rng.pos + n) = 99/100) :
    us.tick.rng.stream = us.rng.stream ∧
    us.tick.rng.pos = us.rng.pos + tickDrawCount us.month us.year ∧
    us.tick.inflation = clamp 0 10 (us.inflation + 49/1000) ∧
    us.tick.month = (if us.month + 1 > 12 then 1 else us.month + 1) ∧
    us.tick.year = (if us.month + 1 > 12 then us.year + 1 else us.year) ∧
    QuietShape us.tick ∧
    us.tick.event_manager = us.event_manager ∧
    us.tick.recent_events = us.recent_events := by
  have h30 : 30 ≤ tickDrawCount us.month us.year := by
    rw [tickDrawCount_split]
    omega
  have hq30 : ∀ n, n < 30 → us.rng.stream (us.rng.pos + n) = 99/100 :=
    fun n hn => hq n (lt_of_lt_of_le hn h30)
  unfold UnitedStates.tick
  set M := us.macroDrift with hMdef
  have hsm : QuietShape M := hsh
  have q1 : QCore M M.econPass 16 := by
    refine QCore_congr (econPass_core M) ?_
    rw [quietShape_length M hsm]
  set A := M.econPass with hAdef
  have hAstr : A.rng.stream = us.rng.stream := q1.1
  have hApos : A.rng.pos = us.rng.pos + 19 := by
    have h := q1.2.1
    exact h.trans (by show us.rng.pos + 3 + 16 = us.rng.pos + 19; omega)
  have q2 : QCore A A.aiNationalPass 1 := by
    have hd : 6/10 ≤ A.rng.stream A.rng.pos := by
      rw [hAstr, hApos, hq30 19 (by omega)]
      norm_num
    rw [aiNational_quiet A hd]
    exact ⟨rfl, rfl, rfl, rfl, rfl, rfl, rfl, rfl⟩
  have q12 := QCore_trans q1 q2
  set B := A.aiNationalPass with hBdef
  have hBstr : B.rng.stream = us.rng.stream := q12.1
  have hBpos : B.rng.pos = us.rng.pos + 20 := by
    have h := q12.2.1
    exact h.trans (by show us.rng.pos + 3 + (16 + 1) = us.rng.pos + 20; omega)
  have hBlen : B.states.length = 4 := by
    have h := congrArg List.length q12.2.2.2.2.2.1
    rw [shapeMap_length, shapeMap_length] at h
    rw [h]
    exact quietShape_length us hsh
  have hdrB : ∀ n, n < 2 * B.states.length → 95/100 ≤ B.rng.stream (B.rng.pos + n) := by
    intro n hn
    rw [hBlen] at hn
    rw [hBstr, hBpos, Nat.add_assoc, hq30 (20 + n) (by omega)]
    norm_num
  have q3 : QCore B B.stateTurnsPass 8 := by
    obtain ⟨lg, heq⟩ := stateTurnsPass_quiet B hdrB
    rw [heq]
    refine ⟨rfl, ?_, rfl, rfl, rfl, rfl, rfl, rfl⟩
    show B.rng.pos + 2 * B.states.length = B.rng.pos + 8
    rw [hBlen]
  have q13 := QCore_trans q12 q3
  set C := B.stateTurnsPass with hCdef
  have hCstr : C.rng.stream = us.rng.stream := q13.1
  have hCpos : C.rng.pos = us.rng.pos + 28 := by
    have h := q13.2.1
    exact h.trans (by show us.rng.pos + 3 + (16 + 1 + 8) = us.rng.pos + 28; omega)
  have q4 : QCore C C.eventPass 1 := by
    have hd : 35/100 ≤ C.rng.stream C.rng.pos := by
      rw [hCstr, hCpos, hq30 28 (by omega)]
      norm_num
    rw [eventPass_quiet C hd]
    exact ⟨rfl, rfl, rfl, rfl, rfl, rfl, rfl, rfl⟩
  have q14 := QCore_trans q13 q4
  set D := C.eventPass with hDdef
  have hDm : D.month = us.month := q14.2.2.2.1
  have hDy : D.year = us.year := q14.2.2.2.2.1
  have hDsh : QuietShape D := by
    unfold QuietShape
    rw [q14.2.2.2.2.2.1]
    exact hsh
  have q5 : QCore D D.maybe_run_elections (if us.month = 11 then electionDraws us.year else 0) := by
    by_cases hm11 : us.month = 11
    · rw [if_pos hm11]
      have h := maybe_run_nov D (by rw [hDm, hm11]) hDsh
      rw [hDy] at h
      exact h
    · rw [if_neg hm11]
      rw [maybe_run_not_nov D (by rw [hDm]; exact hm11)]
      exact ⟨rfl, rfl, rfl, rfl, rfl, rfl, rfl, rfl⟩
  have q15 := QCore_trans q14 q5
  set E := D.maybe_run_elections with hEdef
  have q6 : QCore E E.approvalReversion 0 := approvalReversion_core E
  have q16 := QCore_trans q15 q6
  set F := E.approvalReversion with hFdef
  have q7 : QCore F F.partyDriftPass 1 := partyDrift_core F
  have q17 := QCore_trans q16 q7
  set G := F.partyDriftPass with hGdef
  have q8 : QCore G G.revenuePass 0 := revenuePass_core G
  have q18 := QCore_trans q17 q8
  set H := G.revenuePass with hHdef
  obtain ⟨cm, cy, crng, cinfl, csh, cem, crec⟩ := calendarAdvance_facts H
  have hHstr : H.rng.stream = us.rng.stream := q18.1
  have hHpos : H.rng.pos = us.rng.pos + tickDrawCount us.month us.year := by
    have h := q18.2.1
    rw [tickDrawCount_split]
    refine h.trans ?_
    show us.rng.pos + 3 + (16 + 1 + 8 + 1 + (if us.month = 11 then electionDraws us.year else 0) + 0 + 1 + 0) = _
    omega
  have hHm : H.month = us.month := q18.2.2.2.1
  have hHy : H.year = us.year := q18.2.2.2.2.1
  have hHinfl : H.inflation = clamp 0 10 (us.inflation + 49/1000) := by
    have h := q18.2.2.1
    rw [h]
    show M.inflation = _
    rw [hMdef, macroDrift_eq us]
    show clamp 0 10 (us.inflation + (-5/100 + (5/100 - (-5/100)) * us.rng.stream (us.rng.pos + 1))) = _
    rw [hq30 1 (by omega)]
    norm_num
  have hHsh : QuietShape H := by
    unfold QuietShape
    rw [q18.2.2.2.2.2.1]
    exact hsh
  have hHem : H.event_manager = us.event_manager := q18.2.2.2.2.2.2.1
  have hHrec : H.recent_events = us.recent_events := q18.2.2.2.2.2.2.2
  rw [hHm] at cm cy
  refine ⟨?_, ?_, ?_, ?_, ?_, ?_, ?_, ?_⟩
  · rw [crng]
    exact hHstr
  · rw [crng]
    exact hHpos
  · rw [cinfl]
    exact hHinfl
  · exact cm
  · rw [cy, hHy]
  · unfold QuietShape
    rw [csh]
    exact hHsh
  · rw [cem]
    exact hHem
  · rw [crec]
    exact hHrec

/-- advance_turn peels its first tick on the left, by definition. -/
theorem advance_left (us : UnitedStates) (n : ℕ) :
    us.advance_turn (n + 1) = (us.tick).advance_turn n := rfl

/-- advance_turn peels its last tick on the right. -/
theorem advance_succ (us : UnitedStates) (n : ℕ) :
    us.advance_turn (n + 1) = (us.advance_turn n).tick := by
  induction n generalizing us with
  | zero => rfl
  | succ k ih =>
    rw [advance_left us (k + 1), advance_left us k]
    exact ih us.tick

/-- cumulative draw positions are monotone. -/
theorem posSeq_mono (i j : ℕ) (h : i ≤ j) : posSeq i ≤ posSeq j := by
  induction h with
  | refl => exact le_refl _
  | step h2 ih => exact le_trans ih (Nat.le_add_right _ _)

/-- before the hurricane window every draw of the special stream is 0.99. -/
theorem c5Stream_quiet (n : ℕ) (h : n < posSeq 154) : c5Stream n = 99/100 := by
  unfold c5Stream
  rw [if_neg (by unfold c5A; omega)]

/-- calendar recurrences of the tick index. -/
theorem monthAt_succ (k : ℕ) :
    (if monthAt k + 1 > 12 then 1 else monthAt k + 1) = monthAt (k + 1) ∧
    (if monthAt k + 1 > 12 then yearAt k + 1 else yearAt k) = yearAt (k + 1) := by
  refine ⟨?_, ?_⟩ <;> (simp only [monthAt, yearAt]; split_ifs <;> omega)

/-- the quiet inflation recurrence under the drift clamp. -/
theorem inflAt_succ (k : ℕ) : clamp 0 10 (inflAt k + 49/1000) = inflAt (k + 1) := by
  unfold inflAt clamp
  push_cast
  have hk : (0:ℚ) ≤ 5/2 + 49/1000 * (k:ℚ) := by positivity
  rcases le_total (5/2 + 49/1000 * (k:ℚ)) 10 with hle | hge
  · rw [min_eq_right hle]
    have he : (5/2 + 49/1000 * (k:ℚ)) + 49/1000 = 5/2 + 49/1000 * ((k:ℚ) + 1) := by ring
    rw [he, max_eq_right]
    exact le_min (by norm_num) (by positivity)
  · rw [min_eq_left hge]
    have h1 : min (10:ℚ) (10 + 49/1000) = 10 := min_eq_left (by norm_num)
    rw [h1, max_eq_right (by norm_num : (0:ℚ) ≤ 10)]
    have h2 : (10:ℚ) ≤ 5/2 + 49/1000 * ((k:ℚ) + 1) := by
      have he : 5/2 + 49/1000 * ((k:ℚ) + 1) = (5/2 + 49/1000 * (k:ℚ)) + 49/1000 := by ring
      rw [he]
      linarith
    rw [min_eq_left h2]

/-- the quiet drift saturates at the cap by tick 154. -/
theorem inflAt_154 : inflAt 154 = 10 := by
  unfold inflAt
  rw [min_eq_left]
  norm_num

/-- the tracked facts hold along the first 154 ticks of the special run:
every one of those ticks is quiet. -/
theorem c5_invariant : ∀ k, k ≤ 154 → C5Fact (c5Root.advance_turn k) k := by
  intro k
  induction k with
  | zero =>
    intro _
    refine ⟨rfl, rfl, rfl, rfl, ?_, ?_, rfl, rfl⟩
    · show (5/2 : ℚ) = inflAt 0
      unfold inflAt
      norm_num
    · show QuietShape c5Root
      unfold QuietShape
      set_option maxHeartbeats 2000000 in decide
  | succ k ih =>
    intro hk1
    obtain ⟨hm, hy, hstr, hpos, hinfl, hsh, hem, hrec⟩ := ih (by omega)
    rw [advance_succ]
    have hq : ∀ n, n < tickDrawCount (c5Root.advance_turn k).month (c5Root.advance_turn k).year →
        (c5Root.advance_turn k).rng.stream ((c5Root.advance_turn k).rng.pos + n) = 99/100 := by
      intro n hn
      rw [hstr, hpos]
      apply c5Stream_quiet
      rw [hm, hy] at hn
      have h1 : posSeq k + n < posSeq (k + 1) := by
        show posSeq k + n < posSeq k + tickDrawCount (monthAt k) (yearAt k)
        omega
      exact lt_of_lt_of_le h1 (posSeq_mono (k + 1) 154 hk1)
    obtain ⟨t1, t2, t3, t4, t5, t6, t7, t8⟩ := tickQuiet (c5Root.advance_turn k) hsh hq
    rw [hm] at t4 t5
    rw [hy] at t5
    refine ⟨?_, ?_, ?_, ?_, ?_, t6, ?_, ?_⟩
    · rw [t4]
      exact (monthAt_succ k).1
    · rw [t5]
      exact (monthAt_succ k).2
    · rw [t1, hstr]
    · rw [t2, hpos, hm, hy]
      rfl
    · rw [t3, hinfl]
      exact inflAt_succ k
    · rw [t7, hem]
    · rw [t8, hrec]

/-- a trigger draw of 0.1 under the factory catalog fires the hurricane:
national inflation takes +0.1 under the [0, 20] clamp, one draw is
consumed, and the hurricane key is recorded. -/
theorem trigger_hurricane (v : UnitedStates)
    (hem : v.event_manager = defaultEventManager)
    (hd : v.rng.stream v.rng.pos = 1/10)
    (hrec : v.recent_events = []) :
    (v.trigger_event).2.inflation = clamp 0 20 (v.inflation + 1/10) ∧
    (v.trigger_event).2.rng = ⟨v.rng.stream, v.rng.pos + 1⟩ ∧
    (v.trigger_event).2.states = v.states ∧
    (v.trigger_event).2.month = v.month ∧
    (v.trigger_event).2.year = v.year ∧
    (v.trigger_event).2.recent_events = ["hurricane"] := by
  have hpick : v.event_manager.random_event v.rng =
      (some { key := "hurricane", description := "Major hurricane hits Gulf Coast",
              impact_growth := -3/1000, impact_unemployment := 2/10, impact_inflation := 1/10 },
       ⟨v.rng.stream, v.rng.pos + 1⟩) := by
    rw [hem]
    unfold EventManager.random_event
    rw [if_neg (by decide)]
    simp only [Rng.uniform, Rng.random]
    rw [hd]
    refine congrArg₂ Prod.mk ?_ rfl
    decide
  unfold UnitedStates.trigger_event
  rw [hpick]
  refine ⟨rfl, rfl, rfl, rfl, rfl, ?_⟩
  rw [hrec]
  rfl

/-- the quiet hurricane reaction: one failed national attempt and two
quiet state turns, five draws in total, log lines only. -/
theorem ai_react_hurricane_quiet (T : UnitedStates)
    (hgl : T.recent_events.getLast? = some "hurricane")
    (hnames : T.states.map Prod.fst = ["California", "Texas", "Florida", "New York"])
    (hd : ∀ n, n < 5 → 95/100 ≤ T.rng.stream (T.rng.pos + n)) :
    ∃ lg, T.ai_react_to_events = { T with rng := ⟨T.rng.stream, T.rng.pos + 5⟩, log := lg } := by
  have h95 : 95/100 ≤ T.rng.stream T.rng.pos := by
    have h := hd 0 (by omega)
    rwa [Nat.add_zero] at h
  have hfail := attempt_pass_policy_fail_frame T
    { title := "Disaster Relief", description := "Emergency aid to impacted regions",
      cost := 50, effect_growth := 1/1000, effect_unemployment := -5/100,
      popularity := 70, sponsor_party := T.president.party }
    (attempt_fails T _ h95)
  have hTXn : "Texas" ∈ T.states.map Prod.fst := by
    rw [hnames]
    simp
  have hFLn : "Florida" ∈ T.states.map Prod.fst := by
    rw [hnames]
    simp
  obtain ⟨lg2, heq2⟩ := ai_state_turn_quiet
    ({ T with rng := ⟨T.rng.stream, T.rng.pos + 1⟩,
              log := T.log ++ ["[" ++ toString T.year ++ "-" ++ pad2 T.month ++ "] " ++
                              ("Policy failed: " ++ "Disaster Relief")] })
    "Texas" hTXn
    (by
      show 95/100 ≤ T.rng.stream (T.rng.pos + 1)
      exact hd 1 (by omega))
    (by
      show (3:ℚ)/10 ≤ T.rng.stream (T.rng.pos + 1 + 1)
      rw [Nat.add_assoc]
      exact le_trans (by norm_num) (hd 2 (by omega)))
  obtain ⟨lg3, heq3⟩ := ai_state_turn_quiet
    ({ T with rng := ⟨T.rng.stream, T.rng.pos + 1 + 2⟩, log := lg2 })
    "Florida" hFLn
    (by
      show 95/100 ≤ T.rng.stream (T.rng.pos + 1 + 2)
      rw [Nat.add_assoc]
      exact hd 3 (by omega))
    (by
      show (3:ℚ)/10 ≤ T.rng.stream (T.rng.pos + 1 + 2 + 1)
      rw [Nat.add_assoc, Nat.add_assoc]
      exact le_trans (by norm_num) (hd 4 (by omega)))
  refine ⟨lg3, ?_⟩
  unfold UnitedStates.ai_react_to_events
  rw [hgl]
  simp only
  rw [hfail]
  rw [if_pos (lookupA_isSome_of_mem_fst _ "Texas" hTXn), heq2]
  rw [if_pos (lookupA_isSome_of_mem_fst _ "Florida" hFLn), heq3]
  rfl

/-- tick 155 of the special run: the event draw fires the hurricane while
the drift-capped inflation sits at 10, so the tick ends with national
inflation 10.1, above the claimed bound. -/
theorem hurricaneTick (us : UnitedStates)
    (hm : us.month = 11) (hy : us.year = 2037)
    (hstr : us.rng.stream = c5Stream) (hpos : us.rng.pos = posSeq 154)
    (hinfl : us.inflation = 10) (hsh : QuietShape us)
    (hem : us.event_manager = defaultEventManager)
    (hrec : us.recent_events = []) :
    us.tick.inflation = 101/10 := by
  have hv : ∀ n, n ≠ 28 → n ≠ 29 → us.rng.stream (us.rng.pos + n) = 99/100 := by
    intro n h28 h29
    rw [hstr, hpos]
    unfold c5Stream
    rw [if_neg (by unfold c5A; omega)]
  have hv28 : us.rng.stream (us.rng.pos + 28) = 1/10 := by
    rw [hstr, hpos]
    unfold c5Stream
    rw [if_pos (by unfold c5A; omega)]
  have hv29 : us.rng.stream (us.rng.pos + 29) = 1/10 := by
    rw [hstr, hpos]
    unfold c5Stream
    rw [if_pos (by unfold c5A; omega)]
  unfold UnitedStates.tick
  set M := us.macroDrift with hMdef
  have hsm : QuietShape M := hsh
  have hMinfl : M.inflation = 10 := by
    rw [hMdef, macroDrift_eq us]
    show clamp 0 10 (us.inflation + (-5/100 + (5/100 - (-5/100)) * us.rng.stream (us.rng.pos + 1))) = 10
    rw [hinfl, hv 1 (by omega) (by omega)]
    unfold clamp
    norm_num
  have q1 : QCore M M.econPass 16 := by
    refine QCore_congr (econPass_core M) ?_
    rw [quietShape_length M hsm]
  set A := M.econPass with hAdef
  have hAstr : A.rng.stream = us.rng.stream := q1.1
  have hApos : A.rng.pos = us.rng.pos + 19 := by
    have h := q1.2.1
    exact h.trans (by show us.rng.pos + 3 + 16 = us.rng.pos + 19; omega)
  have q2 : QCore A A.aiNationalPass 1 := by
    have hdA : 6/10 ≤ A.rng.stream A.rng.pos := by
      rw [hAstr, hApos, hv 19 (by omega) (by omega)]
      norm_num
    rw [aiNational_quiet A hdA]
    exact ⟨rfl, rfl, rfl, rfl, rfl, rfl, rfl, rfl⟩
  have q12 := QCore_trans q1 q2
  set B := A.aiNationalPass with hBdef
  have hBstr : B.rng.stream = us.rng.stream := q12.1
  have hBpos : B.rng.pos = us.rng.pos + 20 := by
    have h := q12.2.1
    exact h.trans (by show us.rng.pos + 3 + (16 + 1) = us.rng.pos + 20; omega)
  have hBlen : B.states.length = 4 := by
    have h := congrArg List.length q12.2.2.2.2.2.1
    rw [shapeMap_length, shapeMap_length] at h
    rw [h]
    exact quietShape_length us hsh
  have hdrB : ∀ n, n < 2 * B.states.length → 95/100 ≤ B.rng.stream (B.rng.pos + n) := by
    intro n hn
    rw [hBlen] at hn
    rw [hBstr, hBpos, Nat.add_assoc, hv (20 + n) (by omega) (by omega)]
    norm_num
  have q3 : QCore B B.stateTurnsPass 8 := by
    obtain ⟨lg, heq⟩ := stateTurnsPass_quiet B hdrB
    rw [heq]
    refine ⟨rfl, ?_, rfl, rfl, rfl, rfl, rfl, rfl⟩
    show B.rng.pos + 2 * B.states.length = B.rng.pos + 8
    rw [hBlen]
  have q13 := QCore_trans q12 q3
  set C := B.stateTurnsPass with hCdef
  have hCstr : C.rng.stream = us.rng.stream := q13.1
  have hCpos : C.rng.pos = us.rng.pos + 28 := by
    have h := q13.2.1
    exact h.trans (by show us.rng.pos + 3 + (16 + 1 + 8) = us.rng.pos + 28; omega)
  have hCinfl : C.inflation = 10 := q13.2.2.1.trans hMinfl
  have hCm : C.month = 11 := q13.2.2.2.1.trans (show M.month = 11 from hm)
  have hCy : C.year = 2037 := q13.2.2.2.2.1.trans (show M.year = 2037 from hy)
  have hCsh : QuietShape C := by
    unfold QuietShape
    rw [q13.2.2.2.2.2.1]
    exact hsh
  have hCem : C.event_manager = defaultEventManager :=
    q13.2.2.2.2.2.2.1.trans (show M.event_manager = _ from hem)
  have hCrec : C.recent_events = [] :=
    q13.2.2.2.2.2.2.2.trans (show M.recent_events = [] from hrec)
  have hcq : C.rng.stream C.rng.pos < (35/100 : ℚ) := by
    rw [hCstr, hCpos, hv28]
    norm_num
  have heP : C.eventPass =
      (({ C with rng := ⟨C.rng.stream, C.rng.pos + 1⟩ }).trigger_event).2.ai_react_to_events := by
    simp [UnitedStates.eventPass, Rng.random, hcq]
  set C1 : UnitedStates := { C with rng := ⟨C.rng.stream, C.rng.pos + 1⟩ } with hC1def
  have hC1d : C1.rng.stream C1.rng.pos = 1/10 := by
    show C.rng.stream (C.rng.pos + 1) = 1/10
    rw [hCstr, hCpos]
    have h : us.rng.pos + 28 + 1 = us.rng.pos + 29 := by omega
    rw [h, hv29]
  obtain ⟨tinfl, trng, tstates, tmonth, tyear, trec⟩ :=
    trigger_hurricane C1 (show C1.event_manager = _ from hCem) hC1d
      (show C1.recent_events = [] from hCrec)
  set T : UnitedStates := (C1.trigger_event).2 with hTdef
  have hTinfl : T.inflation = 101/10 := by
    rw [tinfl]
    show clamp 0 20 (C.inflation + 1/10) = 101/10
    rw [hCinfl]
    unfold clamp
    norm_num
  have hTrng : T.rng = ⟨us.rng.stream, us.rng.pos + 30⟩ := by
    rw [trng]
    show Rng.mk C.rng.stream (C.rng.pos + 1 + 1) = _
    rw [hCstr, hCpos]
  have hTstates : T.states = C.states := tstates
  have hTm : T.month = 11 := tmonth.trans (show C1.month = 11 from hCm)
  have hTy : T.year = 2037 := tyear.trans (show C1.year = 2037 from hCy)
  have hTgl : T.recent_events.getLast? = some "hurricane" := by
    rw [trec]
    rfl
  have hTnames : T.states.map Prod.fst = ["California", "Texas", "Florida", "New York"] := by
    rw [hTstates]
    exact quietShape_names C hCsh
  have hTd : ∀ n, n < 5 → 95/100 ≤ T.rng.stream (T.rng.pos + n) := by
    intro n hn
    rw [hTrng]
    show 95/100 ≤ us.rng.stream (us.rng.pos + 30 + n)
    have h : us.rng.pos + 30 + n = us.rng.pos + (30 + n) := by omega
    rw [h, hv (30 + n) (by omega) (by omega)]
    norm_num
  obtain ⟨lgR, hreact⟩ := ai_react_hurricane_quiet T hTgl hTnames hTd
  have hD : C.eventPass = { T with rng := ⟨T.rng.stream, T.rng.pos + 5⟩, log := lgR } :=
    heP.trans hreact
  set D := C.eventPass with hDdef
  have hDinfl : D.inflation = 101/10 := by
    rw [hD]
    exact hTinfl
  have hDm : D.month = 11 := by
    rw [hD]
    exact hTm
  have hDsh : QuietShape D := by
    unfold QuietShape
    rw [hD]
    show shapeMap T.states = _
    rw [hTstates]
    exact hCsh
  have q5 := maybe_run_nov D hDm hDsh
  have q6 := approvalReversion_core D.maybe_run_elections
  have q7 := partyDrift_core D.maybe_run_elections.approvalReversion
  have q8 := revenuePass_core D.maybe_run_elections.approvalReversion.partyDriftPass
  have qD := QCore_trans (QCore_trans (QCore_trans q5 q6) q7) q8
  obtain ⟨cm, cy, crng, cinfl, csh, cem, crec⟩ :=
    calendarAdvance_facts D.maybe_run_elections.approvalReversion.partyDriftPass.revenuePass
  rw [cinfl, qD.2.2.1]
  exact hDinfl

/-- the special stream is a valid generator output. -/
theorem c5Stream_valid : ValidStream c5Stream := by
  intro n
  unfold c5Stream
  split <;> norm_num

/-- the constant half stream is a valid generator output. -/
theorem halfStream_valid : ValidStream halfStream := by
  intro n
  unfold halfStream
  norm_num

/-- the special run ends tick 155 with inflation 10.1. -/
theorem c5_final_inflation : (c5Root.advance_turn 155).inflation = 101/10 := by
  obtain ⟨hm, hy, hstr, hpos, hinfl, hsh, hem, hrec⟩ := c5_invariant 154 (le_refl _)
  have hm11 : (c5Root.advance_turn 154).month = 11 := by
    rw [hm]
    decide
  have hy37 : (c5Root.advance_turn 154).year = 2037 := by
    rw [hy]
    decide
  have hi10 : (c5Root.advance_turn 154).inflation = 10 := hinfl.trans inflAt_154
  rw [advance_succ]
  exact hurricaneTick _ hm11 hy37 hstr hpos hi10 hsh hem hrec

/-- the clamping invariant distributes over a branch. -/
theorem bounds_ite (c : Prop) [Decidable c] (a b : UnitedStates)
    (ha : BoundsInv a) (hb : BoundsInv b) : BoundsInv (if c then a else b) := by
  split
  · exact ha
  · exact hb

/-- adjust_approval always lands in [0, 100]. -/
theorem adjust_approval_mem (p : PoliticalParty) (d : ℚ) :
    0 ≤ (p.adjust_approval d).national_approval ∧
    (p.adjust_approval d).national_approval ≤ 100 :=
  clamp_mem _ _ _ (by norm_num)

/-- party-map modification by a bounded function keeps every approval in
[0, 100]. -/
theorem modifyA_approval (f : PoliticalParty → PoliticalParty)
    (l : List (PartyID × PoliticalParty)) (k : PartyID)
    (hf : ∀ p, 0 ≤ (f p).national_approval ∧ (f p).national_approval ≤ 100)
    (hl : ∀ pr ∈ l, 0 ≤ pr.2.national_approval ∧ pr.2.national_approval ≤ 100) :
    ∀ pr ∈ modifyA f l k, 0 ≤ pr.2.national_approval ∧ pr.2.national_approval ≤ 100 := by
  intro pr hpr
  rcases mem_modifyA f l k pr hpr with h | ⟨y, hy, rfl⟩
  · exact hl pr h
  · exact hf y.2

/-- state-map assignment of a well-bounded state keeps the invariant. -/
theorem setA_StOK (l : List (String × State)) (k : String) (v : State)
    (hv : StOK v) (hl : ∀ pr ∈ l, StOK pr.2) :
    ∀ pr ∈ setA l k v, StOK pr.2 := by
  intro pr hpr
  rcases mem_setA l k v pr hpr with rfl | h
  · exact hv
  · exact hl pr h

/-- macro drift keeps the amended bounds. -/
theorem macroDrift_bounds (us : UnitedStates) (h : BoundsInv us) :
    BoundsInv us.macroDrift := by
  obtain ⟨hU, hI, hAP, hAC, hPar, hSt⟩ := h
  refine ⟨?_, ?_, hAP, hAC, hPar, hSt⟩
  · exact clamp_mem _ _ _ (by norm_num)
  · refine ⟨le_clamp _ _ _, le_trans (clamp_le _ _ _ (by norm_num)) (by norm_num)⟩

/-- the state economy pass keeps every state's bounds. -/
theorem econStates_StOK (g ni : ℚ) (l : List (String × State)) (rng : Rng)
    (h : ∀ pr ∈ l, StOK pr.2) :
    ∀ pr ∈ (econStates g ni l rng).1, StOK pr.2 := by
  induction l generalizing rng with
  | nil =>
    intro pr hpr
    simp [econStates] at hpr
  | cons hd tl ih =>
    obtain ⟨n, st⟩ := hd
    intro pr hpr
    simp only [econStates] at hpr
    rcases List.mem_cons.mp hpr with rfl | htl
    · have hst := h (n, st) (List.mem_cons_self _ tl)
      exact ⟨hst.1, hst.2.1, clamp_mem _ _ _ (by norm_num)⟩
    · exact ih _ (fun q hq => h q (List.mem_cons_of_mem _ hq)) pr htl

/-- the economy pass keeps the amended bounds. -/
theorem econPass_bounds (us : UnitedStates) (h : BoundsInv us) :
    BoundsInv us.econPass := by
  obtain ⟨hU, hI, hAP, hAC, hPar, hSt⟩ := h
  exact ⟨hU, hI, hAP, hAC, hPar, econStates_StOK us.growth us.inflation us.states us.rng hSt⟩

/-- a national policy attempt keeps the amended bounds. -/
theorem attempt_bounds (us : UnitedStates) (p : Policy) (h : BoundsInv us) :
    BoundsInv (us.attempt_pass_policy p).2 := by
  obtain ⟨hU, hI, hAP, hAC, hPar, hSt⟩ := h
  by_cases hc : us.rng.stream us.rng.pos < us.pass_probability p
  · have hs : (us.attempt_pass_policy p).1 = true := by
      simp [UnitedStates.attempt_pass_policy, Rng.random, hc]
    rw [attempt_pass_policy_success_shot us p hs]
    refine ⟨clamp_mem _ _ _ (by norm_num), clamp_mem _ _ _ (by norm_num), ?_, ?_, hPar, hSt⟩
    · by_cases hsp : p.sponsor_party = us.president.party
      · simp only [if_pos hsp]
        exact clamp_mem _ _ _ (by norm_num)
      · simp only [if_neg hsp]
        exact hAP
    · by_cases hsp : p.sponsor_party = us.president.party
      · simp only [if_pos hsp]
        exact hAC
      · simp only [if_neg hsp]
        exact hAC
  · have hf : (us.attempt_pass_policy p).1 = false := by
      simp [UnitedStates.attempt_pass_policy, Rng.random, hc]
    rw [attempt_pass_policy_fail_frame us p hf]
    exact ⟨hU, hI, hAP, hAC, hPar, hSt⟩

/-- a state policy attempt keeps the amended bounds. -/
theorem attempt_state_bounds (us : UnitedStates) (name : String) (p : Policy)
    (h : BoundsInv us) : BoundsInv (us.attempt_pass_state_policy name p).2 := by
  obtain ⟨hU, hI, hAP, hAC, hPar, hSt⟩ := h
  cases hst : lookupA us.states name with
  | none =>
    unfold UnitedStates.attempt_pass_state_policy
    rw [hst]
    exact ⟨hU, hI, hAP, hAC, hPar, hSt⟩
  | some st =>
    by_cases hc : us.rng.stream us.rng.pos < state_policy_probability st p
    · have hs : (us.attempt_pass_state_policy name p).1 = true := by
        simp [UnitedStates.attempt_pass_state_policy, hst, Rng.random, hc]
      rw [attempt_pass_state_policy_success_shot us name st p hst hs]
      refine ⟨hU, hI, hAP, hAC, hPar, ?_⟩
      intro pr hpr
      rcases mem_setA _ _ _ pr hpr with rfl | hmem
      · have hstok := hSt (name, st) (lookupA_mem _ _ _ hst)
        refine ⟨?_, clamp_mem _ _ _ (by norm_num), clamp_mem _ _ _ (by norm_num)⟩
        by_cases hsp : p.sponsor_party = st.governor_party
        · simp only [if_pos hsp]
          exact clamp_mem _ _ _ (by norm_num)
        · simp only [if_neg hsp]
          exact hstok.1
      · exact hSt pr hmem
    · have hf : (us.attempt_pass_state_policy name p).1 = false := by
        simp [UnitedStates.attempt_pass_state_policy, hst, Rng.random, hc]
      rw [attempt_pass_state_policy_fail_frame us name st p hst hf]
      exact ⟨hU, hI, hAP, hAC, hPar, hSt⟩

/-- the state AI proposal step keeps the amended bounds. -/
theorem ai_state_pick_bounds (us : UnitedStates) (st : State) (h : BoundsInv us) :
    BoundsInv (us.ai_state_pick st).2 := by
  obtain ⟨hU, hI, hAP, hAC, hPar, hSt⟩ := h
  unfold UnitedStates.ai_state_pick
  split_ifs <;> exact ⟨hU, hI, hAP, hAC, hPar, hSt⟩

/-- the campaigning step keeps the amended bounds. -/
theorem ai_state_campaign_bounds (us : UnitedStates) (name : String) (h : BoundsInv us) :
    BoundsInv (us.ai_state_campaign name) := by
  obtain ⟨hU, hI, hAP, hAC, hPar, hSt⟩ := h
  unfold UnitedStates.ai_state_campaign
  cases hl : lookupA us.states name with
  | none => exact ⟨hU, hI, hAP, hAC, hPar, hSt⟩
  | some st2 =>
    simp only
    refine ⟨hU, hI, hAP, hAC, hPar, ?_⟩
    intro pr hpr
    rcases mem_setA _ _ _ pr hpr with rfl | hmem
    · exact ⟨clamp_mem _ _ _ (by norm_num), clamp_mem _ _ _ (by norm_num),
        (hSt (name, st2) (lookupA_mem _ _ _ hl)).2.2⟩
    · exact hSt pr hmem

/-- one state AI turn keeps the amended bounds. -/
theorem ai_state_turn_bounds (us : UnitedStates) (name : String) (h : BoundsInv us) :
    BoundsInv (us.ai_state_turn name) := by
  unfold UnitedStates.ai_state_turn
  cases hl : lookupA us.states name with
  | none => exact h
  | some st =>
    simp only
    have h2 : BoundsInv (us.ai_state_pick st).2 := ai_state_pick_bounds us st h
    have h3 : BoundsInv (match (us.ai_state_pick st).1 with
        | some pol => ((us.ai_state_pick st).2.attempt_pass_state_policy name pol).2
        | none => (us.ai_state_pick st).2) := by
      cases hp : (us.ai_state_pick st).1 with
      | some pol =>
        simp only [hp]
        exact attempt_state_bounds _ name pol h2
      | none =>
        simp only [hp]
        exact h2
    split
    · exact ai_state_campaign_bounds _ name
        ⟨h3.1, h3.2.1, h3.2.2.1, h3.2.2.2.1, h3.2.2.2.2.1, h3.2.2.2.2.2⟩
    · exact ⟨h3.1, h3.2.1, h3.2.2.1, h3.2.2.2.1, h3.2.2.2.2.1, h3.2.2.2.2.2⟩

/-- folded state AI turns keep the amended bounds. -/
theorem foldTurns_bounds (names : List String) :
    ∀ us : UnitedStates, BoundsInv us →
      BoundsInv (names.foldl (fun uu n => uu.ai_state_turn n) us) := by
  induction names with
  | nil => exact fun us h => h
  | cons hd tl ih =>
    intro us h
    exact ih _ (ai_state_turn_bounds us hd h)

/-- the state-turn pass keeps the amended bounds. -/
theorem stateTurnsPass_bounds (us : UnitedStates) (h : BoundsInv us) :
    BoundsInv us.stateTurnsPass :=
  foldTurns_bounds (us.states.map Prod.fst) us h

/-- the national AI pass keeps the amended bounds. -/
theorem aiNationalPass_bounds (us : UnitedStates) (h : BoundsInv us) :
    BoundsInv us.aiNationalPass := by
  have h2 : BoundsInv (us.ai_consider_policy).2 :=
    ⟨h.1, h.2.1, h.2.2.1, h.2.2.2.1, h.2.2.2.2.1, h.2.2.2.2.2⟩
  unfold UnitedStates.aiNationalPass
  cases hp : (us.ai_consider_policy).1 with
  | some pol =>
    simp only [hp]
    exact attempt_bounds _ pol h2
  | none =>
    simp only [hp]
    exact h2

/-- a triggered event keeps the amended bounds. -/
theorem trigger_bounds (us : UnitedStates) (h : BoundsInv us) :
    BoundsInv (us.trigger_event).2 := by
  obtain ⟨hU, hI, hAP, hAC, hPar, hSt⟩ := h
  unfold UnitedStates.trigger_event
  cases hp : (us.event_manager.random_event us.rng).1 with
  | none =>
    simp only [hp]
    exact ⟨hU, hI, hAP, hAC, hPar, hSt⟩
  | some ev =>
    simp only [hp]
    refine ⟨clamp_mem _ _ _ (by norm_num), clamp_mem _ _ _ (by norm_num),
      clamp_mem _ _ _ (by norm_num), clamp_mem _ _ _ (by norm_num), ?_, hSt⟩
    cases hb : ev.party_benefit with
    | none =>
      simp only [hb]
      exact hPar
    | some pb =>
      simp only [hb]
      split
      · exact modifyA_approval _ us.parties pb (fun q => adjust_approval_mem q 1) hPar
      · exact hPar

/-- the event reaction keeps the amended bounds. -/
theorem ai_react_bounds (us : UnitedStates) (h : BoundsInv us) :
    BoundsInv us.ai_react_to_events := by
  unfold UnitedStates.ai_react_to_events
  cases hr : us.recent_events.getLast? with
  | none => exact h
  | some recent =>
    simp only
    by_cases h1 : recent = "hurricane"
    · rw [if_pos h1]
      have hb1 := attempt_bounds us
        { title := "Disaster Relief", description := "Emergency aid to impacted regions",
          cost := 50, effect_growth := 1/1000, effect_unemployment := -5/100,
          popularity := 70, sponsor_party := us.president.party } h
      apply bounds_ite
      · apply ai_state_turn_bounds
        apply bounds_ite
        · exact ai_state_turn_bounds _ _ hb1
        · exact hb1
      · apply bounds_ite
        · exact ai_state_turn_bounds _ _ hb1
        · exact hb1
    · rw [if_neg h1]
      by_cases h2 : recent = "scandal"
      · rw [if_pos h2]
        refine ⟨h.1, h.2.1, h.2.2.1, h.2.2.2.1, ?_, h.2.2.2.2.2⟩
        exact modifyA_approval _ us.parties _ (fun q => adjust_approval_mem q 1) h.2.2.2.2.1
      · rw [if_neg h2]
        exact h

/-- the monthly event pass keeps the amended bounds. -/
theorem eventPass_bounds (us : UnitedStates) (h : BoundsInv us) :
    BoundsInv us.eventPass := by
  unfold UnitedStates.eventPass
  apply bounds_ite
  · apply ai_react_bounds
    apply trigger_bounds
    exact ⟨h.1, h.2.1, h.2.2.1, h.2.2.2.1, h.2.2.2.2.1, h.2.2.2.2.2⟩
  · exact ⟨h.1, h.2.1, h.2.2.1, h.2.2.2.1, h.2.2.2.2.1, h.2.2.2.2.2⟩

/-- the lazy election initialiser keeps the amended bounds. -/
theorem init_bounds (us : UnitedStates) (name : String) (h : BoundsInv us) :
    BoundsInv (us.init_state_elections_if_missing name) := by
  obtain ⟨hU, hI, hAP, hAC, hPar, hSt⟩ := h
  unfold UnitedStates.init_state_elections_if_missing
  cases hl : lookupA us.states name with
  | none => exact ⟨hU, hI, hAP, hAC, hPar, hSt⟩
  | some st =>
    simp only
    refine ⟨hU, hI, hAP, hAC, hPar, ?_⟩
    intro pr hpr
    rcases mem_setA _ _ _ pr hpr with rfl | hmem
    · have hstok := hSt (name, st) (lookupA_mem _ _ _ hl)
      split_ifs <;> exact hstok
    · exact hSt pr hmem

/-- the initialiser fold keeps the amended bounds. -/
theorem electionInit_bounds (us : UnitedStates) (h : BoundsInv us) :
    BoundsInv us.electionInit := by
  unfold UnitedStates.electionInit
  generalize us.states.map Prod.fst = names
  induction names generalizing us with
  | nil => exact h
  | cons hd tl ih => exact ih _ (init_bounds us hd h)

/-- house races keep every state's bounds. -/
theorem houseStates_StOK (usO : UnitedStates) (l : List (String × State)) (rng : Rng)
    (h : ∀ pr ∈ l, StOK pr.2) :
    ∀ pr ∈ (houseStates usO l rng).1, StOK pr.2 := by
  induction l generalizing rng with
  | nil =>
    intro pr hpr
    simp [houseStates] at hpr
  | cons hd tl ih =>
    obtain ⟨n, st⟩ := hd
    intro pr hpr
    simp only [houseStates] at hpr
    rcases List.mem_cons.mp hpr with rfl | htl
    · exact h (n, st) (List.mem_cons_self _ tl)
    · exact ih _ (fun q hq => h q (List.mem_cons_of_mem _ hq)) pr htl

/-- the house election block keeps the amended bounds. -/
theorem houseStep_bounds (us : UnitedStates) (h : BoundsInv us) :
    BoundsInv us.houseStep := by
  obtain ⟨hU, hI, hAP, hAC, hPar, hSt⟩ := h
  have hout := houseStates_StOK us us.states us.rng hSt
  rcases hh : houseStates us us.states us.rng with ⟨sts, dem, rep, rng2⟩
  rw [hh] at hout
  unfold UnitedStates.houseStep
  rw [hh]
  exact ⟨hU, hI, hAP, hAC, hPar, hout⟩

/-- senate races keep every state's bounds. -/
theorem senateStates_StOK (usO : UnitedStates) (cycle : ℕ) (l : List (String × State))
    (rng : Rng) (h : ∀ pr ∈ l, StOK pr.2) :
    ∀ pr ∈ (senateStates usO cycle l rng).1, StOK pr.2 := by
  induction l generalizing rng with
  | nil =>
    intro pr hpr
    simp [senateStates] at hpr
  | cons hd tl ih =>
    obtain ⟨n, st⟩ := hd
    intro pr hpr
    simp only [senateStates] at hpr
    rcases List.mem_cons.mp hpr with rfl | htl
    · exact h (n, st) (List.mem_cons_self _ tl)
    · exact ih _ (fun q hq => h q (List.mem_cons_of_mem _ hq)) pr htl

/-- the senate election block keeps the amended bounds. -/
theorem senateStep_bounds (us : UnitedStates) (h : BoundsInv us) :
    BoundsInv us.senateStep := by
  obtain ⟨hU, hI, hAP, hAC, hPar, hSt⟩ := h
  have hout := senateStates_StOK us (us.year % 6) us.states us.rng hSt
  rcases hh : senateStates us (us.year % 6) us.states us.rng with ⟨sts, dem, rep, rng2⟩
  rw [hh] at hout
  simp only [UnitedStates.senateStep]
  rw [hh]
  apply bounds_ite
  · exact ⟨hU, hI, hAP, hAC, hPar, hout⟩
  · exact ⟨hU, hI, hAP, hAC, hPar, hout⟩

/-- the presidential block keeps the amended bounds. -/
theorem presidentStep_bounds (us : UnitedStates) (h : BoundsInv us) :
    BoundsInv us.presidentStep :=
  ⟨h.1, h.2.1, h.2.2.1, h.2.2.2.1, h.2.2.2.2.1, h.2.2.2.2.2⟩

/-- the post-election approval adjustment keeps the amended bounds. -/
theorem update_approvals_bounds (us : UnitedStates) (ph ps : PartyID)
    (h : BoundsInv us) :
    BoundsInv (us.update_approvals_after_congress_results ph ps) := by
  obtain ⟨hU, hI, hAP, hAC, hPar, hSt⟩ := h
  unfold UnitedStates.update_approvals_after_congress_results
  by_cases c1 : us.congress.house_control ≠ ph
  · by_cases c3 : us.congress.senate_control ≠ ps
    · by_cases c2 : us.congress.house_control = us.president.party
      · by_cases c4 : us.congress.senate_control = us.president.party
        · simp only [if_pos c1, if_pos c2, if_pos c3, if_pos c4]
          exact ⟨hU, hI, clamp_mem 0 100 _ (by norm_num), clamp_mem 0 100 _ (by norm_num),
            hPar, hSt⟩
        · simp only [if_pos c1, if_pos c2, if_pos c3, if_neg c4]
          exact ⟨hU, hI, clamp_mem 0 100 _ (by norm_num), clamp_mem 0 100 _ (by norm_num),
            hPar, hSt⟩
      · by_cases c4 : us.congress.senate_control = us.president.party
        · simp only [if_pos c1, if_neg c2, if_pos c3, if_pos c4]
          exact ⟨hU, hI, clamp_mem 0 100 _ (by norm_num), clamp_mem 0 100 _ (by norm_num),
            hPar, hSt⟩
        · simp only [if_pos c1, if_neg c2, if_pos c3, if_neg c4]
          exact ⟨hU, hI, clamp_mem 0 100 _ (by norm_num), clamp_mem 0 100 _ (by norm_num),
            hPar, hSt⟩
    · by_cases c2 : us.congress.house_control = us.president.party
      · simp only [if_pos c1, if_pos c2, if_neg c3]
        exact ⟨hU, hI, clamp_mem 0 100 _ (by norm_num), clamp_mem 0 100 _ (by norm_num),
          hPar, hSt⟩
      · simp only [if_pos c1, if_neg c2, if_neg c3]
        exact ⟨hU, hI, clamp_mem 0 100 _ (by norm_num), clamp_mem 0 100 _ (by norm_num),
          hPar, hSt⟩
  · by_cases c3 : us.congress.senate_control ≠ ps
    · by_cases c4 : us.congress.senate_control = us.president.party
      · simp only [if_neg c1, if_pos c3, if_pos c4]
        exact ⟨hU, hI, clamp_mem 0 100 _ (by norm_num), hAC, hPar, hSt⟩
      · simp only [if_neg c1, if_pos c3, if_neg c4]
        exact ⟨hU, hI, clamp_mem 0 100 _ (by norm_num), hAC, hPar, hSt⟩
    · simp only [if_neg c1, if_neg c3]
      exact ⟨hU, hI, hAP, hAC, hPar, hSt⟩

/-- the election prelude keeps the amended bounds. -/
theorem electionPrelude_bounds (us : UnitedStates) (h : BoundsInv us) :
    BoundsInv us.electionPrelude := by
  unfold UnitedStates.electionPrelude
  apply bounds_ite
  · exact houseStep_bounds _ (electionInit_bounds us h)
  · exact electionInit_bounds us h

/-- the November election check keeps the amended bounds. -/
theorem maybe_run_bounds (us : UnitedStates) (h : BoundsInv us) :
    BoundsInv us.maybe_run_elections := by
  unfold UnitedStates.maybe_run_elections
  split
  · exact h
  · apply update_approvals_bounds
    apply bounds_ite
    · exact presidentStep_bounds _ (senateStep_bounds _ (electionPrelude_bounds us h))
    · exact senateStep_bounds _ (electionPrelude_bounds us h)

/-- approval mean reversion keeps the amended bounds. -/
theorem approvalReversion_bounds (us : UnitedStates) (h : BoundsInv us) :
    BoundsInv us.approvalReversion := by
  obtain ⟨hU, hI, hAP, hAC, hPar, hSt⟩ := h
  exact ⟨hU, hI, clamp_mem 0 100 _ (by norm_num), clamp_mem 0 100 _ (by norm_num), hPar, hSt⟩

/-- the party drift step keeps the amended bounds. -/
theorem partyDriftPass_bounds (us : UnitedStates) (h : BoundsInv us) :
    BoundsInv us.partyDriftPass := by
  unfold UnitedStates.partyDriftPass
  apply bounds_ite
  · refine ⟨h.1, h.2.1, h.2.2.1, h.2.2.2.1, ?_, h.2.2.2.2.2⟩
    exact modifyA_approval _ _ _ (fun q => adjust_approval_mem q _)
      (modifyA_approval _ _ _ (fun q => adjust_approval_mem q _) h.2.2.2.2.1)
  · exact ⟨h.1, h.2.1, h.2.2.1, h.2.2.2.1, h.2.2.2.2.1, h.2.2.2.2.2⟩

/-- the revenue step keeps the amended bounds. -/
theorem revenuePass_bounds (us : UnitedStates) (h : BoundsInv us) :
    BoundsInv us.revenuePass :=
  ⟨h.1, h.2.1, h.2.2.1, h.2.2.2.1, h.2.2.2.2.1, h.2.2.2.2.2⟩

/-- the calendar step keeps the amended bounds. -/
theorem calendarAdvance_bounds (us : UnitedStates) (h : BoundsInv us) :
    BoundsInv us.calendarAdvance := by
  unfold UnitedStates.calendarAdvance
  apply bounds_ite
  · exact ⟨h.1, h.2.1, h.2.2.1, h.2.2.2.1, h.2.2.2.2.1, h.2.2.2.2.2⟩
  · exact ⟨h.1, h.2.1, h.2.2.1, h.2.2.2.1, h.2.2.2.2.1, h.2.2.2.2.2⟩

/-- every monthly tick keeps the amended bounds. -/
theorem tick_bounds (us : UnitedStates) (h : BoundsInv us) : BoundsInv us.tick := by
  unfold UnitedStates.tick
  exact calendarAdvance_bounds _ (revenuePass_bounds _ (partyDriftPass_bounds _
    (approvalReversion_bounds _ (maybe_run_bounds _ (eventPass_bounds _
      (stateTurnsPass_bounds _ (aiNationalPass_bounds _ (econPass_bounds _
        (macroDrift_bounds _ h)))))))))

/-- any number of ticks keeps the amended bounds. -/
theorem advance_bounds (us : UnitedStates) (n : ℕ) (h : BoundsInv us) :
    BoundsInv (us.advance_turn n) := by
  induction n generalizing us with
  | zero => exact h
  | succ k ih =>
    rw [advance_left]
    exact ih _ (tick_bounds us h)

/-- the factory state initialiser keeps the governor approval. -/
theorem initFactoryState_gov (ds cs : ℕ → ℚ) (st : State) :
    (initFactoryState ds cs st).approval_governor = st.approval_governor := by
  simp only [initFactoryState]
  split_ifs <;> rfl

/-- the factory state initialiser keeps the legislature approval. -/
theorem initFactoryState_leg (ds cs : ℕ → ℚ) (st : State) :
    (initFactoryState ds cs st).approval_legislature = st.approval_legislature := by
  simp only [initFactoryState]
  split_ifs <;> rfl

/-- the factory state initialiser keeps the state inflation. -/
theorem initFactoryState_infl (ds cs : ℕ → ℚ) (st : State) :
    (initFactoryState ds cs st).inflation = st.inflation := by
  simp only [initFactoryState]
  split_ifs <;> rfl

/-- the factory root satisfies the amended bounds for every generator. -/
theorem new_default_bounds (ms ds cs : ℕ → ℚ) :
    BoundsInv (UnitedStates.new_default_with ms ds cs) := by
  refine ⟨?_, ?_, ?_, ?_, ?_, ?_⟩
  · show (5/2:ℚ) ≤ 55/10 ∧ (55/10:ℚ) ≤ 20
    norm_num
  · show (0:ℚ) ≤ 5/2 ∧ (5/2:ℚ) ≤ 20
    norm_num
  · show (0:ℚ) ≤ 51 ∧ (51:ℚ) ≤ 100
    norm_num
  · show (0:ℚ) ≤ 38 ∧ (38:ℚ) ≤ 100
    norm_num
  · intro pr hpr
    have hpr2 : pr ∈ [((.DEMOCRAT : PartyID), (⟨.DEMOCRAT, 52⟩ : PoliticalParty)),
      (.REPUBLICAN, ⟨.REPUBLICAN, 48⟩), (.INDEPENDENT, ⟨.INDEPENDENT, 35⟩)] := hpr
    fin_cases hpr2 <;> decide
  · intro pr hpr
    have hpr2 : pr ∈ ([("California",
        { name := "California", population := 39000000, gdp := 3200,
          unemployment := 48/10, inflation := 28/10, governor_party := .DEMOCRAT,
          legislature := ⟨.DEMOCRAT, .DEMOCRAT⟩ }),
      ("Texas",
        { name := "Texas", population := 30000000, gdp := 2000,
          unemployment := 4, inflation := 5/2, governor_party := .REPUBLICAN,
          legislature := ⟨.REPUBLICAN, .REPUBLICAN⟩ }),
      ("Florida",
        { name := "Florida", population := 22000000, gdp := 1100,
          unemployment := 35/10, inflation := 26/10, governor_party := .REPUBLICAN,
          legislature := ⟨.REPUBLICAN, .REPUBLICAN⟩ }),
      ("New York",
        { name := "New York", population := 19500000, gdp := 1800,
          unemployment := 42/10, inflation := 27/10, governor_party := .DEMOCRAT,
          legislature := ⟨.DEMOCRAT, .DEMOCRAT⟩ })].map
        (fun q => (q.1, initFactoryState ds cs q.2))) := hpr
    obtain ⟨q, hq, rfl⟩ := List.mem_map.mp hpr2
    show StOK (initFactoryState ds cs q.2)
    unfold StOK
    rw [initFactoryState_gov, initFactoryState_leg, initFactoryState_infl]
    fin_cases hq <;> decide

/-- C5 (amended): along every reachable trajectory from a default root,
at the end of every tick national unemployment stays in [2.5, 20],
national inflation stays in [0, 20] (not [0, 10]: the monthly drift
clamps to [0, 10] but event and policy effects clamp to [0, 20]), every
state inflation stays in [0, 20], and every approval field (president,
congress, governor, legislature, party national approval) stays in
[0, 100]. -/
theorem c5_macro_bounds (us : UnitedStates) (h : Reachable us) : BoundsInv us := by
  induction h with
  | root ms ds cs => exact new_default_bounds ms ds cs
  | advance us2 n h2 ih => exact advance_bounds us2 n ih
  | event us2 h2 ih => exact trigger_bounds us2 ih
  | policy us2 p h2 ih => exact attempt_bounds us2 p ih

/-- witness for C5 at the concrete seed-1 root. -/
theorem c5_macro_bounds_witness :
    Reachable (UnitedStates.new_default 1) ∧ BoundsInv (UnitedStates.new_default 1) :=
  ⟨Reachable.root (seedStream 1) (seedStream 2) (seedStream 3),
   c5_macro_bounds (UnitedStates.new_default 1)
     (Reachable.root (seedStream 1) (seedStream 2) (seedStream 3))⟩

/-- counterexample to C5 as stated: a valid-stream default root whose
155th tick fires the hurricane while the drift-capped national inflation
sits at 10, ending the tick at 10.1 > 10. -/
theorem c5_macro_bounds_counterexample :
    ValidStream c5Stream ∧ ValidStream halfStream ∧
    Reachable (c5Root.advance_turn 155) ∧
    ¬ (c5Root.advance_turn 155).inflation ≤ 10 := by
  refine ⟨c5Stream_valid, halfStream_valid, ?_, ?_⟩
  · exact Reachable.advance c5Root 155 (Reachable.root c5Stream halfStream halfStream)
  · rw [c5_final_inflation]
    norm_num

end USA
